import Mathlib

/-!
# Tab Element Monitor: a verification development

A shallow embedding of the browser extension `tab-element-monitor`
(`background.js`, the session controller, and `content.js`, the page observer)
together with theorems about its change detection and session state machine.

Conventions of the embedding.

* A JavaScript string is a `List Char` (`JSString`).
* A JavaScript number is a `JSNumber`: `NaN`, the two infinities, or a finite
  value carried by its exact rational value.  The two zeros are identified: no
  operation used by the program tells them apart.  Results of arithmetic and of
  string to number conversion are rounded to the nearest binary64 value, ties
  to even.
* Values that reach the program from outside (message payloads) are `JSValue`s.
* Platform services (`chrome.*`, the DOM, timers, the clock) are inputs of the
  embedded functions; what the program does to them is recorded in a log of
  effects.
-/

namespace TabElementMonitor

/-! ## JavaScript values -/

/-- A JavaScript string, as the list of its characters. -/
abbrev JSString := List Char

/-- An ECMAScript Number value. -/
inductive JSNumber where
  | nan
  | posInf
  | negInf
  | finite (q : ℚ)
  deriving DecidableEq

namespace JSNumber

/-- The builtin `Number.isFinite` on a number. -/
def isFinite : JSNumber → Bool
  | finite _ => true
  | _ => false

/-- The relational operator `a < b` on numbers (false when either is `NaN`). -/
def lt : JSNumber → JSNumber → Bool
  | nan, _ => false
  | _, nan => false
  | posInf, _ => false
  | _, negInf => false
  | negInf, _ => true
  | _, posInf => true
  | finite a, finite b => decide (a < b)

/-- The relational operator `a > b`, which JavaScript evaluates as `b < a`. -/
def gt (a b : JSNumber) : Bool := lt b a

/-- The builtin `ToBoolean` on a number: `NaN` and zero are falsy. -/
def truthy : JSNumber → Bool
  | nan => false
  | finite q => decide (q ≠ 0)
  | _ => true

/-- The builtin `Math.max` of two numbers. -/
def max : JSNumber → JSNumber → JSNumber
  | nan, _ => nan
  | _, nan => nan
  | a, b => if lt a b then b else a

/-- The builtin `Math.min` of two numbers. -/
def min : JSNumber → JSNumber → JSNumber
  | nan, _ => nan
  | _, nan => nan
  | a, b => if lt b a then b else a

/-- The binary logarithm of `n`, rounded down (`0` for `n < 2`), by halving at
most `fuel` times. -/
def log2Fuel : Nat → Nat → Nat
  | 0, _ => 0
  | fuel + 1, n => if 2 ≤ n then log2Fuel fuel (n / 2) + 1 else 0

/-- The binary logarithm of `n`, rounded down. -/
def log2 (n : Nat) : Nat := log2Fuel n n

/-- Rounding of the positive rational `n / d` (with `0 < n`, `0 < d`) to binary64,
round to nearest, ties to even: the result is `some (m, e)` for the value
`m * 2 ^ e`, or `none` when the rounded value overflows to infinity. -/
def roundPos (n d : Nat) : Option (Nat × Int) :=
  let e0 : Int := (log2 n : Int) - (log2 d : Int)
  let lg : Int :=
    if n * 2 ^ (-e0).toNat ≥ d * 2 ^ e0.toNat then e0 else e0 - 1
  let e : Int := if lg - 52 < -1074 then -1074 else lg - 52
  let num := n * 2 ^ (-e).toNat
  let den := d * 2 ^ e.toNat
  let q := num / den
  let r := num % den
  let m := if 2 * r < den then q else if den < 2 * r then q + 1 else if q % 2 = 0 then q else q + 1
  if 971 < e ∨ (e = 971 ∧ m = 2 ^ 53) then none else some (m, e)

/-- The rational `m * 2 ^ e`. -/
def dyadic (m : Nat) (e : Int) : ℚ :=
  if 0 ≤ e then (m : ℚ) * (2 ^ e.toNat : Nat) else (m : ℚ) / (2 ^ (-e).toNat : Nat)

/-- The Number nearest to the rational `sign * n / d` (for `0 < d`). -/
def roundFrac (negative : Bool) (n d : Nat) : JSNumber :=
  if n = 0 then finite 0
  else
    match roundPos n d with
    | none => if negative then negInf else posInf
    | some (m, e) => finite (if negative then -(dyadic m e) else dyadic m e)

/-- The Number nearest to a rational. -/
def ofRat (q : ℚ) : JSNumber :=
  roundFrac (decide (q < 0)) q.num.natAbs q.den

/-- The multiplicative operator `a * b` on numbers. -/
def mul : JSNumber → JSNumber → JSNumber
  | nan, _ => nan
  | _, nan => nan
  | finite a, finite b => ofRat (a * b)
  | finite a, posInf => if a = 0 then nan else if a < 0 then negInf else posInf
  | finite a, negInf => if a = 0 then nan else if a < 0 then posInf else negInf
  | posInf, finite b => if b = 0 then nan else if b < 0 then negInf else posInf
  | negInf, finite b => if b = 0 then nan else if b < 0 then posInf else negInf
  | posInf, posInf => posInf
  | negInf, negInf => posInf
  | posInf, negInf => negInf
  | negInf, posInf => negInf

/-- The additive operator `a - b` on numbers. -/
def sub : JSNumber → JSNumber → JSNumber
  | nan, _ => nan
  | _, nan => nan
  | finite a, finite b => ofRat (a - b)
  | finite _, posInf => negInf
  | finite _, negInf => posInf
  | posInf, posInf => nan
  | negInf, negInf => nan
  | posInf, _ => posInf
  | negInf, _ => negInf

/-- The operator `a || d` on numbers. -/
def orElse (a d : JSNumber) : JSNumber := if a.truthy then a else d

/-- The number with the value of a natural number (exact below `2 ^ 53`). -/
def ofNat (n : Nat) : JSNumber := finite (n : ℚ)

end JSNumber

/-! ## Strings: white space, digits, conversion to numbers -/

/-- White space and line terminators in the sense of `String.prototype.trim`
and of the `StringNumericLiteral` grammar. -/
def isWhiteSpace (c : Char) : Bool :=
  let n := c.toNat
  n == 0x09 || n == 0x0A || n == 0x0B || n == 0x0C || n == 0x0D || n == 0x20 ||
  n == 0xA0 || n == 0x1680 || (decide (0x2000 ≤ n) && decide (n ≤ 0x200A)) ||
  n == 0x2028 || n == 0x2029 || n == 0x202F || n == 0x205F || n == 0x3000 || n == 0xFEFF

/-- The builtin `String.prototype.trim`. -/
def trim (s : JSString) : JSString :=
  ((s.dropWhile isWhiteSpace).reverse.dropWhile isWhiteSpace).reverse

/-- The regular expression class `\d` (without the unicode flag): `0` to `9`. -/
def isDigit (c : Char) : Bool :=
  decide (48 ≤ c.toNat) && decide (c.toNat ≤ 57)

/-- The value of a string of decimal digits. -/
def digitsValue (ds : List Char) : Nat :=
  ds.foldl (fun acc c => 10 * acc + (c.toNat - 48)) 0

/-- The value of a digit in a radix up to 16, if the character is one. -/
def radixDigit (radix : Nat) (c : Char) : Option Nat :=
  let n := c.toNat
  let v : Option Nat :=
    if 48 ≤ n ∧ n ≤ 57 then some (n - 48)
    else if 97 ≤ n ∧ n ≤ 102 then some (n - 87)
    else if 65 ≤ n ∧ n ≤ 70 then some (n - 55)
    else none
  match v with
  | some d => if d < radix then some d else none
  | none => none

/-- The value of a non-empty string of digits in the given radix. -/
def radixValue (radix : Nat) : List Char → Option Nat → Option Nat
  | [], acc => acc
  | c :: cs, acc =>
    match radixDigit radix c with
    | some d => radixValue radix cs (some (radix * acc.getD 0 + d))
    | none => none

/-- The grammar production `NonDecimalIntegerLiteral`: `0x`, `0o` or `0b`
followed by digits of that radix. -/
def parseNonDecimal (s : JSString) : Option Nat :=
  match s with
  | '0' :: p :: ds =>
    if p = 'x' ∨ p = 'X' then radixValue 16 ds none
    else if p = 'o' ∨ p = 'O' then radixValue 8 ds none
    else if p = 'b' ∨ p = 'B' then radixValue 2 ds none
    else none
  | _ => none

/-- The grammar production `ExponentPart`, optional, up to the end of the
string: the decimal exponent, or `none` when the rest is not an exponent. -/
def parseExponent (s : JSString) : Option Int :=
  match s with
  | [] => some 0
  | c :: r =>
    if c = 'e' ∨ c = 'E' then
      let (negative, ds) : Bool × List Char :=
        match r with
        | '+' :: t => (false, t)
        | '-' :: t => (true, t)
        | _ => (false, r)
      if ds ≠ [] ∧ ds.all isDigit then
        some (if negative then -(digitsValue ds : Int) else (digitsValue ds : Int))
      else none
    else none

/-- The grammar production `StrUnsignedDecimalLiteral` without `Infinity`: the
literal denotes `m * 10 ^ e` for the result `some (m, e)`. -/
def parseUnsignedDecimal (s : JSString) : Option (Nat × Int) :=
  let ip := s.takeWhile isDigit
  match s.dropWhile isDigit with
  | '.' :: r =>
    let fp := r.takeWhile isDigit
    if ip = [] ∧ fp = [] then none
    else
      match parseExponent (r.dropWhile isDigit) with
      | some x => some (digitsValue (ip ++ fp), x - (fp.length : Int))
      | none => none
  | rest =>
    if ip = [] then none
    else
      match parseExponent rest with
      | some x => some (digitsValue ip, x)
      | none => none

/-- The Number nearest to `sign * m * 10 ^ e`. -/
def decimalToNumber (negative : Bool) (m : Nat) (e : Int) : JSNumber :=
  if 0 ≤ e then JSNumber.roundFrac negative (m * 10 ^ e.toNat) 1
  else JSNumber.roundFrac negative m (10 ^ (-e).toNat)

/-- The builtin `Number` applied to a string (the abstract operation
`StringToNumber`). -/
def stringToNumber (s : JSString) : JSNumber :=
  let t := trim s
  if t = [] then JSNumber.finite 0
  else
    match parseNonDecimal t with
    | some n => JSNumber.roundFrac false n 1
    | none =>
      let (negative, u) : Bool × List Char :=
        match t with
        | '+' :: r => (false, r)
        | '-' :: r => (true, r)
        | _ => (false, t)
      if u = "Infinity".toList then (if negative then JSNumber.negInf else JSNumber.posInf)
      else
        match parseUnsignedDecimal u with
        | some (m, e) => decimalToNumber negative m e
        | none => JSNumber.nan

/-- A value received from outside the program.  An object is represented by what
the conversions `String` and `Number` make of it; it is always truthy. -/
inductive JSValue where
  | undefined
  | null
  | boolean (b : Bool)
  | number (n : JSNumber)
  | string (s : JSString)
  | object (str : JSString) (num : JSNumber)
  deriving DecidableEq

namespace JSValue

/-- The builtin `Boolean` (the abstract operation `ToBoolean`). -/
def toBoolean : JSValue → Bool
  | undefined => false
  | null => false
  | boolean b => b
  | number n => n.truthy
  | string s => !s.isEmpty
  | object _ _ => true

/-- The operator `v || d`. -/
def orElse (v d : JSValue) : JSValue := if v.toBoolean then v else d

/-- The builtin `Number` (the abstract operation `ToNumber`). -/
def toNumber : JSValue → JSNumber
  | undefined => JSNumber.nan
  | null => JSNumber.finite 0
  | boolean b => if b then JSNumber.finite 1 else JSNumber.finite 0
  | number n => n
  | string s => stringToNumber s
  | object _ num => num

/-- The builtin `String` (the abstract operation `ToString`); the rendering of
a number is left to the platform function `numberToString`. -/
def toJSString (numberToString : JSNumber → JSString) : JSValue → JSString
  | undefined => "undefined".toList
  | null => "null".toList
  | boolean b => if b then "true".toList else "false".toList
  | number n => numberToString n
  | string s => s
  | object str _ => str

end JSValue

/-! ## content.js: the value normalizer -/

/-- The call `replace(/,/g, '')`: every comma removed. -/
def stripCommas (s : JSString) : JSString := s.filter (fun c => c != ',')

/-- A match of `\d+(?:\.\d+)?` starting at the head of `s`: both quantifiers
are greedy, and the optional group is given up when no digit follows the dot. -/
def matchUnsigned (s : JSString) : Option JSString :=
  let ip := s.takeWhile isDigit
  if ip = [] then none
  else
    match s.dropWhile isDigit with
    | '.' :: r =>
      let fp := r.takeWhile isDigit
      if fp = [] then some ip else some (ip ++ '.' :: fp)
    | _ => some ip

/-- A match of `-?\d+(?:\.\d+)?` starting at the head of `s`: the sign is
tried first and given up when no digit follows it. -/
def matchAt (s : JSString) : Option JSString :=
  match s with
  | '-' :: r =>
    match matchUnsigned r with
    | some m => some ('-' :: m)
    | none => matchUnsigned s
  | _ => matchUnsigned s

/-- The call `match` with the expression `-?\d+(?:\.\d+)?`: the match at the leftmost position where
the expression matches, `none` for `null`. -/
def firstMatch : JSString → Option JSString
  | [] => matchAt []
  | c :: r =>
    match matchAt (c :: r) with
    | some m => some m
    | none => firstMatch r

/-- The function `normalizeValue` of `content.js`, on the `innerText` of an
element (a string, so that `String(rawText || '')` is `rawText`). -/
def normalizeValue (rawText : JSString) : JSString :=
  let trimmed := trim rawText
  match firstMatch (stripCommas trimmed) with
  | some numeric => numeric
  | none => trimmed

/-- A numeric token in the words of the specification: an optional sign,
digits, and at most one decimal part (a dot followed by digits). -/
def NumericToken (t : JSString) : Prop :=
  ∃ sign ip fp : JSString,
    (sign = [] ∨ sign = ['-']) ∧ ip ≠ [] ∧ (∀ c ∈ ip, isDigit c = true) ∧
    (∀ c ∈ fp, isDigit c = true) ∧
    (t = sign ++ ip ∨ (fp ≠ [] ∧ t = sign ++ ip ++ '.' :: fp))

/-- The text contains a numeric token written with thousands separators: a
substring that is a numeric token once its commas are removed. -/
def ContainsNumericToken (s : JSString) : Prop :=
  ∃ pre tok post : JSString, s = pre ++ tok ++ post ∧ NumericToken (stripCommas tok)

/-! ## background.js: pure helpers -/

/-- The function `isIncreaseOnlyChange` of `background.js`. -/
def isIncreaseOnlyChange (oldValue newValue : JSString) : Bool :=
  let oldNum := stringToNumber oldValue
  let newNum := stringToNumber newValue
  if oldNum.isFinite && newNum.isFinite then
    newNum.gt oldNum
  else
    decide (newValue ≠ oldValue)

/-! ## background.js: configuration -/

/-- The monitoring mode, `'live'` or `'refresh'`. -/
inductive Mode where
  | live
  | refresh
  deriving DecidableEq

/-- What the program reads of a parsed `URL` object. -/
structure URLRecord where
  protocol : JSString
  host : JSString
  href : JSString
  deriving DecidableEq

/-- Platform functions the program calls and that are pure: the rendering of a
number as a string, and the constructor `new URL(s)` (`none` when it throws). -/
structure Platform where
  numberToString : JSNumber → JSString
  parseURL : JSString → Option URLRecord

/-- The raw configuration received in `START_FROM_POPUP`; a property that is
absent reads as `undefined`. -/
structure RawConfig where
  url : JSValue
  selector : JSValue
  mode : JSValue
  refreshIntervalSeconds : JSValue
  notificationRepeatCount : JSValue
  notificationDelaySeconds : JSValue
  increaseOnly : JSValue
  soundEnabled : JSValue

/-- The configuration object returned by `normalizeConfig`. -/
structure MonitorConfig where
  url : JSString
  selector : JSString
  mode : Mode
  refreshIntervalSeconds : JSNumber
  notificationRepeatCount : JSNumber
  notificationDelaySeconds : JSNumber
  increaseOnly : Bool
  soundEnabled : Bool
  deriving DecidableEq

/-- The constant `DEFAULTS` of `background.js`.  It has no `url` and no
`selector`; the paths that fall back to it read neither. -/
def DEFAULTS : MonitorConfig where
  url := []
  selector := []
  mode := Mode.live
  refreshIntervalSeconds := JSNumber.finite 60
  notificationRepeatCount := JSNumber.finite 1
  notificationDelaySeconds := JSNumber.finite 5
  increaseOnly := false
  soundEnabled := true

/-- The function `normalizeConfig` of `background.js`; a thrown `Error` is the
`error` result with its message. -/
def normalizeConfig (P : Platform) (input : RawConfig) : Except JSString MonitorConfig :=
  let url := trim ((input.url.orElse (JSValue.string [])).toJSString P.numberToString)
  let selector := trim ((input.selector.orElse (JSValue.string [])).toJSString P.numberToString)
  let mode := if input.mode = JSValue.string "refresh".toList then Mode.refresh else Mode.live
  let refreshIntervalSeconds :=
    JSNumber.max (JSNumber.finite 60)
      (input.refreshIntervalSeconds.toNumber.orElse (JSNumber.finite 60))
  let notificationRepeatCount :=
    JSNumber.min (JSNumber.finite 5)
      (JSNumber.max (JSNumber.finite 1)
        (input.notificationRepeatCount.toNumber.orElse (JSNumber.finite 1)))
  let notificationDelaySeconds :=
    JSNumber.max (JSNumber.finite 1)
      (input.notificationDelaySeconds.toNumber.orElse (JSNumber.finite 5))
  if url = [] ∨ selector = [] then
    Except.error "URL and CSS selector are required.".toList
  else
    match P.parseURL url with
    | none => Except.error "Please enter a valid full URL (including protocol).".toList
    | some parsed =>
      if ¬ (parsed.protocol = "http:".toList ∨ parsed.protocol = "https:".toList) then
        Except.error "Only http/https URLs are supported.".toList
      else
        Except.ok {
          url := parsed.href
          selector := selector
          mode := mode
          refreshIntervalSeconds := refreshIntervalSeconds
          notificationRepeatCount := notificationRepeatCount
          notificationDelaySeconds := notificationDelaySeconds
          increaseOnly := input.increaseOnly.toBoolean
          soundEnabled := input.soundEnabled.toBoolean }

/-! ## background.js: the controller state -/

/-- The variable `runtimeState` of `background.js`.  A tab id and a timer handle
are `none` for `null`. -/
structure RuntimeState where
  monitoring : Bool
  tabId : Option Nat
  exactUrl : JSString
  mode : Mode
  refreshTimerId : Option Nat
  lastNotificationAt : Int
  deriving DecidableEq

/-- The value of `runtimeState` at load time and after `stopMonitoring`. -/
def RuntimeState.initial : RuntimeState where
  monitoring := false
  tabId := none
  exactUrl := []
  mode := DEFAULTS.mode
  refreshTimerId := none
  lastNotificationAt := 0

/-- The object stored under the key `monitorState`; each property may be
absent, and `tabId` may be present with the value `null`. -/
structure StoredState where
  active : Option Bool
  tabId : Option (Option Nat)
  mode : Option Mode
  url : Option JSString
  deriving DecidableEq

/-- The four keys of `chrome.storage.local` the program uses (`none` for a key
that is not set). -/
structure Storage where
  monitorConfig : Option MonitorConfig
  monitorState : Option StoredState
  lastValue : Option JSString
  lastError : Option JSString
  deriving DecidableEq

/-- A message the controller sends to the content script of a tab. -/
inductive TabMessage where
  | startMonitor (url selector : JSString) (mode : Mode)
  | checkNow (url selector : JSString)
  | stopMonitor
  | playSound
  deriving DecidableEq

/-- What the controller does to the platform, in the order it does it.
`deliveryStarted` is not a platform call: it marks the point where
`withNotificationDebounce` lets a delivery through, with the clock value, and
`sendNotificationsCalled` marks an invocation of `sendNotifications`. -/
inductive Effect where
  | deliveryStarted (now : Int)
  | sendNotificationsCalled (tabId : Option Nat)
  | notificationsCreate (index : Nat)
  | tabsSendMessage (tabId : Option Nat) (message : TabMessage)
  | sleep (ms : JSNumber)
  | setTimeout (id : Nat) (ms : JSNumber)
  | clearTimeout (id : Nat)
  | permissionsRequest (url : JSString)
  | executeScript (tabId : Nat)
  | tabsReload (tabId : Nat)
  | sendResponse (ok : Bool) (error : Option JSString)
  deriving DecidableEq

/-- A pending timeout set by `scheduleRefreshCycle`, with what its callback
closes over. -/
structure RefreshTimer where
  id : Nat
  ms : JSNumber
  tabId : Nat
  config : MonitorConfig
  deriving DecidableEq

/-- The controller: its variable, the storage, the pending timeouts, the number
of timeouts set so far (handles are the positive integers, in sequence) and the
log of effects. -/
structure Controller where
  runtimeState : RuntimeState
  storage : Storage
  timers : List RefreshTimer
  timerCount : Nat
  log : List Effect
  deriving DecidableEq

/-- The controller when the service worker has just loaded on fresh storage. -/
def Controller.initial : Controller where
  runtimeState := RuntimeState.initial
  storage := { monitorConfig := none, monitorState := none, lastValue := none, lastError := none }
  timers := []
  timerCount := 0
  log := []

/-- The outcomes of the platform calls made while one message is handled.
Storage calls and `chrome.tabs.query` are taken to succeed. -/
structure Env where
  /-- The value of `Date.now()` -/
  now : Int
  /-- The first tab of `chrome.tabs.query`: `none` for no tab, `some none` for a tab without id -/
  activeTab : Option (Option Nat)
  /-- The result of `chrome.tabs.get`: the `url` of the tab (`none` for `undefined`), or a rejection -/
  tabsGet : Nat → Except JSString (Option JSString)
  /-- The result of `chrome.scripting.executeScript`: `some` message on rejection -/
  executeScript : Nat → Option JSString
  /-- The result of `chrome.tabs.sendMessage` with `START_MONITOR`: `some` message on rejection -/
  sendStart : Nat → Option JSString
  /-- Whether `chrome.notifications.create` succeeds for the alert of that index -/
  notificationsCreate : Nat → Bool

/-- Appends an effect to the log. -/
def Controller.emit (w : Controller) (e : Effect) : Controller :=
  { w with log := w.log ++ [e] }

/-- The function `clearRefreshTimer` of `background.js`. -/
def clearRefreshTimer (w : Controller) : Controller :=
  match w.runtimeState.refreshTimerId with
  | some id =>
    if id ≠ 0 then
      { (w.emit (Effect.clearTimeout id)) with
        timers := w.timers.filter (fun t => t.id != id)
        runtimeState := { w.runtimeState with refreshTimerId := none } }
    else w
  | none => w

/-- The function `updateMonitoringState` of `background.js` for the patch
`{ active, tabId }`: the stored object, or `{}`, with the two properties
overwritten. -/
def updateMonitoringState (active : Bool) (tabId : Option Nat) (w : Controller) : Controller :=
  let current : StoredState :=
    w.storage.monitorState.getD { active := none, tabId := none, mode := none, url := none }
  let next : StoredState := { current with active := some active, tabId := some tabId }
  { w with storage := { w.storage with monitorState := some next } }

/-- The function `setError` of `background.js`. -/
def setError (message : JSString) (w : Controller) : Controller :=
  { w with storage := { w.storage with lastError := some message } }

/-- The function `withNotificationDebounce` of `background.js`; `fn` may fail
to return (`none`). -/
def withNotificationDebounce (now : Int) (fn : Controller → Option Controller)
    (w : Controller) : Option Controller :=
  if now - w.runtimeState.lastNotificationAt < 5000 then some w
  else
    fn ({ w with runtimeState := { w.runtimeState with lastNotificationAt := now } }.emit
      (Effect.deliveryStarted now))

/-- The loop of `sendNotifications`, from the counter value `i`; `none` when
`fuel` iterations do not reach the end of the loop. -/
def sendNotificationsLoop (env : Env) (tabId : Option Nat) (config : MonitorConfig)
    (repeats delayMs : JSNumber) : Nat → Nat → Controller → Option Controller
  | 0, _, _ => none
  | fuel + 1, i, w =>
    if JSNumber.lt (JSNumber.ofNat i) repeats then
      let w1 := w.emit (Effect.notificationsCreate i)
      let w2 :=
        if env.notificationsCreate i then w1
        else setError "Notification failed. Check extension notification permission.".toList w1
      let w3 :=
        if config.soundEnabled then w2.emit (Effect.tabsSendMessage tabId TabMessage.playSound)
        else w2
      let w4 :=
        if JSNumber.lt (JSNumber.ofNat i) (JSNumber.sub repeats (JSNumber.finite 1)) then
          w3.emit (Effect.sleep delayMs)
        else w3
      sendNotificationsLoop env tabId config repeats delayMs fuel (i + 1) w4
    else some w

/-- The function `sendNotifications` of `background.js`.  A rejected
`PLAY_SOUND` message is caught and leaves no trace. -/
def sendNotifications (fuel : Nat) (env : Env) (tabId : Option Nat) (config : MonitorConfig)
    (w : Controller) : Option Controller :=
  let repeats := config.notificationRepeatCount
  let delayMs := JSNumber.mul config.notificationDelaySeconds (JSNumber.finite 1000)
  sendNotificationsLoop env tabId config repeats delayMs fuel 0
    (w.emit (Effect.sendNotificationsCalled tabId))

/-- The function `scheduleRefreshCycle` of `background.js`, up to the call of
`setTimeout`. -/
def scheduleRefreshCycle (tabId : Nat) (config : MonitorConfig) (w : Controller) : Controller :=
  let w1 := clearRefreshTimer w
  if !w1.runtimeState.monitoring || decide (w1.runtimeState.mode ≠ Mode.refresh) then w1
  else
    let intervalMs :=
      JSNumber.max (JSNumber.finite 60000)
        (JSNumber.mul config.refreshIntervalSeconds (JSNumber.finite 1000))
    let id := w1.timerCount + 1
    { (w1.emit (Effect.setTimeout id intervalMs)) with
      timers := w1.timers ++ [{ id := id, ms := intervalMs, tabId := tabId, config := config }]
      timerCount := id
      runtimeState := { w1.runtimeState with refreshTimerId := some id } }

/-- The function `ensureTabMatchesUrl` of `background.js`: `some` message when
it throws. -/
def ensureTabMatchesUrl (env : Env) (tabId : Nat) (exactUrl : JSString) : Option JSString :=
  match env.tabsGet tabId with
  | Except.error e => some e
  | Except.ok url =>
    if url ≠ some exactUrl then
      some "Active tab must match the exact URL before starting.".toList
    else none

/-- The function `startMonitoring` of `background.js`: the controller at the
point where the function returns or throws, and `some` message when it
throws. -/
def startMonitoring (P : Platform) (env : Env) (rawConfig : RawConfig) (w : Controller) :
    Controller × Option JSString :=
  match normalizeConfig P rawConfig with
  | Except.error e => (w, some e)
  | Except.ok config =>
    match env.activeTab.join with
    | none => (w, some "Could not determine active tab.".toList)
    | some activeTabId =>
      if activeTabId = 0 then (w, some "Could not determine active tab.".toList)
      else
        match ensureTabMatchesUrl env activeTabId config.url with
        | some e => (w, some e)
        | none =>
          let w1 := w.emit (Effect.permissionsRequest config.url)
          let w2 := clearRefreshTimer w1
          let w3 : Controller :=
            { w2 with
              runtimeState :=
                { w2.runtimeState with
                  monitoring := true
                  tabId := some activeTabId
                  exactUrl := config.url
                  mode := config.mode
                  lastNotificationAt := 0 } }
          let w4 : Controller :=
            { w3 with
              storage :=
                { w3.storage with
                  monitorConfig := some config
                  lastError := some []
                  monitorState :=
                    some { active := some true, tabId := some (some activeTabId),
                           mode := some config.mode, url := some config.url } } }
          let w5 := w4.emit (Effect.executeScript activeTabId)
          match env.executeScript activeTabId with
          | some e => (w5, some e)
          | none =>
            let w6 :=
              w5.emit (Effect.tabsSendMessage (some activeTabId)
                (TabMessage.startMonitor config.url config.selector config.mode))
            match env.sendStart activeTabId with
            | some e => (w6, some e)
            | none =>
              if config.mode = Mode.refresh then
                (scheduleRefreshCycle activeTabId config w6, none)
              else (w6, none)

/-- The function `stopMonitoring` of `background.js`; a rejected `STOP_MONITOR`
message is caught and leaves no trace. -/
def stopMonitoring (reason : JSString) (w : Controller) : Controller :=
  let tabId := w.runtimeState.tabId
  let w1 := clearRefreshTimer w
  let w2 : Controller := { w1 with runtimeState := RuntimeState.initial }
  let w3 :=
    match tabId with
    | some id =>
      if id ≠ 0 then w2.emit (Effect.tabsSendMessage (some id) TabMessage.stopMonitor) else w2
    | none => w2
  let w4 := updateMonitoringState false none w3
  if reason ≠ [] then setError reason w4 else w4

/-- A message received by the listener of `background.js`, by its `type`. -/
inductive Message where
  | noType
  | startFromPopup (payload : RawConfig)
  | stopFromPopup
  | getStatus
  | elementValue (value : JSValue)
  | elementNotFound
  | pageMismatch
  | unsupported

/-- The test `sender.tab?.id !== runtimeState.tabId`: the left side is
`undefined` or a number, the right side `null` or a number. -/
def senderDiffers (senderTabId : Option Nat) (tabId : Option Nat) : Bool :=
  match senderTabId, tabId with
  | some a, some b => a != b
  | _, _ => true

/-- The case `ELEMENT_VALUE` of the listener of `background.js`. -/
def onElementValue (fuel : Nat) (env : Env) (senderTabId : Option Nat) (value : JSValue)
    (w : Controller) : Option Controller :=
  if !w.runtimeState.monitoring || senderDiffers senderTabId w.runtimeState.tabId then
    some (w.emit (Effect.sendResponse true none))
  else
    let config := w.storage.monitorConfig.getD DEFAULTS
    let previousValue := w.storage.lastValue
    match value with
    | JSValue.string newValue =>
      let w1 : Controller := { w with storage := { w.storage with lastValue := some newValue } }
      match previousValue with
      | none => some (w1.emit (Effect.sendResponse true none))
      | some previous =>
        let changed :=
          if config.increaseOnly then isIncreaseOnlyChange previous newValue
          else decide (newValue ≠ previous)
        let delivered :=
          if changed then
            withNotificationDebounce env.now
              (fun v => sendNotifications fuel env v.runtimeState.tabId config v) w1
          else some w1
        delivered.map (fun v => v.emit (Effect.sendResponse true none))
    | _ => some (w.emit (Effect.sendResponse true none))

/-- The listener registered by `background.js` with
`chrome.runtime.onMessage`, with its `catch` handler; each message is handled
to its end before the next one. -/
def onMessage (P : Platform) (fuel : Nat) (env : Env) (message : Message)
    (senderTabId : Option Nat) (w : Controller) : Option Controller :=
  match message with
  | Message.noType =>
    some (w.emit (Effect.sendResponse false (some "Invalid message type.".toList)))
  | Message.startFromPopup payload =>
    match startMonitoring P env payload w with
    | (w1, none) => some (w1.emit (Effect.sendResponse true none))
    | (w1, some e) =>
      let text := if e = [] then "Unexpected error.".toList else e
      some ((setError text w1).emit (Effect.sendResponse false (some text)))
  | Message.stopFromPopup =>
    some ((stopMonitoring "Stopped by user.".toList w).emit (Effect.sendResponse true none))
  | Message.getStatus => some (w.emit (Effect.sendResponse true none))
  | Message.elementValue value => onElementValue fuel env senderTabId value w
  | Message.elementNotFound =>
    let w1 := setError "Element not found after 5 retries. Monitoring stopped.".toList w
    some ((stopMonitoring [] w1).emit (Effect.sendResponse true none))
  | Message.pageMismatch =>
    some ((stopMonitoring "Tab navigated away from configured URL. Monitoring stopped.".toList
      w).emit (Effect.sendResponse true none))
  | Message.unsupported =>
    some (w.emit (Effect.sendResponse false (some "Unsupported message type.".toList)))

/-! ## content.js: the page observer -/

namespace Content

/-- The outcome of `document.querySelector(selector)` with what the program
reads of the element: its `innerText`, and whether `element.parentElement ||
document.body` is an element. -/
inductive QueryResult where
  | invalidSelector
  | notFound
  | found (innerText : JSString) (hasParent : Bool)
  deriving DecidableEq

/-- The page as the content script sees it while it handles one event. -/
structure PageEnv where
  /-- The clock, in milliseconds -/
  now : Int
  /-- The value of `window.location.href` -/
  location : JSString
  /-- The outcome of `document.querySelector` -/
  querySelector : JSString → QueryResult

/-- A message the content script sends to the controller. -/
inductive RuntimeMessage where
  | pageMismatch
  | elementValue (value : JSString)
  | elementNotFound
  deriving DecidableEq

/-- The two callbacks the content script gives to `setTimeout`; both call
`postValue`. -/
inductive TimerKind where
  | retry
  | debounce
  deriving DecidableEq

/-- A pending timeout of the page. -/
structure PageTimer where
  id : Nat
  kind : TimerKind
  due : Int
  deriving DecidableEq

/-- What the content script does to the platform, in the order it does it. -/
inductive PageEffect where
  | sendMessage (message : RuntimeMessage)
  | setTimeout (id : Nat) (kind : TimerKind) (ms : Nat)
  | clearTimeout (id : Nat)
  | observe (id : Nat)
  | disconnect (id : Nat)
  deriving DecidableEq

/-- The object `monitorState` of `content.js` (without `audio`); a handle is
`none` for `null`. -/
structure MonitorState where
  active : Bool
  url : JSString
  selector : JSString
  mode : Mode
  observer : Option Nat
  retryCount : Nat
  retryTimer : Option Nat
  debounceTimer : Option Nat
  deriving DecidableEq

/-- The content script in its page: its state, the pending timeouts, the
connected mutation observers, the numbers of timeouts and observers made so
far (handles are the positive integers, in sequence) and the log of effects. -/
structure Page where
  monitorState : MonitorState
  timers : List PageTimer
  observers : List Nat
  timerCount : Nat
  observerCount : Nat
  log : List PageEffect
  deriving DecidableEq

/-- The content script when it has just been loaded. -/
def Page.initial : Page where
  monitorState :=
    { active := false, url := [], selector := [], mode := Mode.live, observer := none,
      retryCount := 0, retryTimer := none, debounceTimer := none }
  timers := []
  observers := []
  timerCount := 0
  observerCount := 0
  log := []

/-- Appends an effect to the log. -/
def Page.emit (p : Page) (e : PageEffect) : Page :=
  { p with log := p.log ++ [e] }

/-- The call `clearTimeout(id)`. -/
def Page.clearTimeout (p : Page) (id : Nat) : Page :=
  { (p.emit (PageEffect.clearTimeout id)) with timers := p.timers.filter (fun t => t.id != id) }

/-- The call `setTimeout(callback, ms)`: the page with the timeout pending, and
the handle. -/
def Page.setTimeout (p : Page) (now : Int) (kind : TimerKind) (ms : Nat) : Page × Nat :=
  let id := p.timerCount + 1
  ({ (p.emit (PageEffect.setTimeout id kind ms)) with
      timers := p.timers ++ [{ id := id, kind := kind, due := now + ms }]
      timerCount := id }, id)

/-- The function `cleanup` of `content.js`. -/
def cleanup (p : Page) : Page :=
  let p1 : Page :=
    match p.monitorState.observer with
    | some o =>
      { (p.emit (PageEffect.disconnect o)) with
        observers := p.observers.filter (fun x => x != o)
        monitorState := { p.monitorState with observer := none } }
    | none => p
  let p2 : Page :=
    match p1.monitorState.retryTimer with
    | some t =>
      if t ≠ 0 then
        let q := p1.clearTimeout t
        { q with monitorState := { q.monitorState with retryTimer := none } }
      else p1
    | none => p1
  match p2.monitorState.debounceTimer with
  | some t =>
    if t ≠ 0 then
      let q := p2.clearTimeout t
      { q with monitorState := { q.monitorState with debounceTimer := none } }
    else p2
  | none => p2

/-- The function `getNormalizedValue` of `content.js`: `none` for a result that
is not `ok` (for either reason). -/
def getNormalizedValue (env : PageEnv) (selector : JSString) : Option JSString :=
  match env.querySelector selector with
  | QueryResult.found innerText _ => some (normalizeValue innerText)
  | _ => none

/-- The function `retryElementSearch` of `content.js`. -/
def retryElementSearch (env : PageEnv) (p : Page) : Page :=
  if 5 ≤ p.monitorState.retryCount then
    p.emit (PageEffect.sendMessage RuntimeMessage.elementNotFound)
  else
    let p1 : Page :=
      { p with monitorState := { p.monitorState with retryCount := p.monitorState.retryCount + 1 } }
    let (p2, id) := p1.setTimeout env.now TimerKind.retry 5000
    { p2 with monitorState := { p2.monitorState with retryTimer := some id } }

/-- The function `postValue` of `content.js`. -/
def postValue (env : PageEnv) (p : Page) : Page :=
  if !p.monitorState.active || decide (env.location ≠ p.monitorState.url) then
    p.emit (PageEffect.sendMessage RuntimeMessage.pageMismatch)
  else
    match getNormalizedValue env p.monitorState.selector with
    | none => retryElementSearch env p
    | some value =>
      { p with monitorState := { p.monitorState with retryCount := 0 } }.emit
        (PageEffect.sendMessage (RuntimeMessage.elementValue value))

/-- The function `startObserver` of `content.js`. -/
def startObserver (env : PageEnv) (p : Page) : Page :=
  match getNormalizedValue env p.monitorState.selector with
  | none => retryElementSearch env p
  | some _ =>
    let p1 := postValue env p
    let hasParent :=
      match env.querySelector p1.monitorState.selector with
      | QueryResult.found _ h => h
      | _ => false
    if !hasParent then retryElementSearch env p1
    else
      let id := p1.observerCount + 1
      { (p1.emit (PageEffect.observe id)) with
        observers := p1.observers ++ [id]
        observerCount := id
        monitorState := { p1.monitorState with observer := some id } }

/-- The payload of `START_MONITOR`, as the controller sends it. -/
structure StartPayload where
  url : JSString
  selector : JSString
  mode : Mode

/-- The function `startMonitoring` of `content.js`. -/
def startMonitoring (env : PageEnv) (payload : StartPayload) (p : Page) : Page :=
  let p1 := cleanup p
  let p2 : Page :=
    { p1 with
      monitorState :=
        { p1.monitorState with
          active := true
          url := payload.url
          selector := payload.selector
          mode := payload.mode
          retryCount := 0 } }
  if env.location ≠ payload.url then
    p2.emit (PageEffect.sendMessage RuntimeMessage.pageMismatch)
  else if p2.monitorState.mode = Mode.live then startObserver env p2
  else postValue env p2

/-- The function `stopMonitoring` of `content.js`. -/
def stopMonitoring (p : Page) : Page :=
  cleanup { p with monitorState := { p.monitorState with active := false } }

/-- The callback of the `MutationObserver` made by `startObserver`; an observer
that is not connected delivers nothing. -/
def onMutation (env : PageEnv) (observer : Nat) (p : Page) : Page :=
  if observer ∈ p.observers then
    let p1 : Page :=
      match p.monitorState.debounceTimer with
      | some t => if t ≠ 0 then p.clearTimeout t else p
      | none => p
    let (p2, id) := p1.setTimeout env.now TimerKind.debounce 500
    { p2 with monitorState := { p2.monitorState with debounceTimer := some id } }
  else p

/-- The expiry of the pending timeout `id`: it leaves the pending set and its
callback runs `postValue`.  A timeout that is not pending does nothing. -/
def fireTimer (env : PageEnv) (id : Nat) (p : Page) : Page :=
  if p.timers.any (fun t => t.id == id) then
    postValue env { p with timers := p.timers.filter (fun t => t.id != id) }
  else p

/-- The expiry of the pending timeouts one after the other, oldest first, one
for each element of `envs` (the page as it is when that timeout expires). -/
def runTimers : List PageEnv → Page → Page
  | [], p => p
  | env :: envs, p =>
    match p.timers with
    | [] => p
    | t :: _ => runTimers envs (fireTimer env t.id p)

/-- The log entries of `k` retries scheduled one after the other when `c`
timeouts have been set before. -/
def retrySchedule (c k : Nat) : List PageEffect :=
  (List.range k).map (fun j => PageEffect.setTimeout (c + 1 + j) TimerKind.retry 5000)

/-- The selector is not resolvable on the page `env`, absent element or invalid
selector, and the location of the page is the bound URL. -/
def LookupFails (url selector : JSString) (env : PageEnv) : Prop :=
  env.location = url ∧
    (env.querySelector selector = QueryResult.notFound ∨
      env.querySelector selector = QueryResult.invalidSelector)

end Content

/-! ## Vocabulary of the statements -/

/-- A raw property that is missing (`undefined` or `null`), empty, or made of
white space only. -/
def Blank (v : JSValue) : Prop :=
  v = JSValue.undefined ∨ v = JSValue.null ∨ ∃ s : JSString, v = JSValue.string s ∧ trim s = []

/-- The clock values of the deliveries let through by the debounce, in order. -/
def deliveryTimes : List Effect → List Int
  | [] => []
  | Effect.deliveryStarted t :: es => t :: deliveryTimes es
  | _ :: es => deliveryTimes es

/-- The number of invocations of `sendNotifications` in a log. -/
def countDeliveries : List Effect → Nat
  | [] => 0
  | Effect.sendNotificationsCalled _ :: es => countDeliveries es + 1
  | _ :: es => countDeliveries es

/-- The number of alerts attempted (`chrome.notifications.create`) in a log. -/
def countAlerts : List Effect → Nat
  | [] => 0
  | Effect.notificationsCreate _ :: es => countAlerts es + 1
  | _ :: es => countAlerts es

/-- The waits of a log, in order. -/
def waits : List Effect → List JSNumber
  | [] => []
  | Effect.sleep ms :: es => ms :: waits es
  | _ :: es => waits es

/-- An `ELEMENT_VALUE` report as it reaches the listener: the outcomes of the
platform calls while it is handled, the sender's tab id, and the payload. -/
structure Report where
  env : Env
  senderTabId : Option Nat
  value : JSValue

/-- The listener run on a sequence of `ELEMENT_VALUE` reports. -/
def handleReports (P : Platform) (fuel : Nat) : List Report → Controller → Option Controller
  | [], w => some w
  | r :: rs, w =>
    match onMessage P fuel r.env (Message.elementValue r.value) r.senderTabId w with
    | some w1 => handleReports P fuel rs w1
    | none => none

/-- The alert batch in the words of the specification, from the alert of index
`i` on, `k` alerts remaining out of `n`: each alert, its sound cue when sound
is enabled, and a wait of `delayMs` after every alert but the last. -/
def expectedBatch (n : Nat) (sound : Bool) (tabId : Option Nat) (delayMs : JSNumber) :
    Nat → Nat → List Effect
  | 0, _ => []
  | k + 1, i =>
    [Effect.notificationsCreate i] ++
      (if sound then [Effect.tabsSendMessage tabId TabMessage.playSound] else []) ++
      (if i + 1 < n then [Effect.sleep delayMs] else []) ++
      expectedBatch n sound tabId delayMs k (i + 1)

/-! ## Concrete inputs -/

/-- The address used in the concrete runs. -/
def demoUrl : JSString := "https://example.com/".toList

/-- A platform whose `URL` constructor accepts `demoUrl` only. -/
def demoPlatform : Platform where
  numberToString := fun _ => []
  parseURL := fun s =>
    if s = demoUrl then some { protocol := "https:".toList, host := "example.com".toList, href := s }
    else none

/-- A raw configuration as the popup sends it: `demoUrl`, the selector
`#price`, live mode, the given delay, exact-change detection, sound on. -/
def demoRaw (delay : JSNumber) : RawConfig where
  url := JSValue.string demoUrl
  selector := JSValue.string "#price".toList
  mode := JSValue.string "live".toList
  refreshIntervalSeconds := JSValue.number (JSNumber.finite 60)
  notificationRepeatCount := JSValue.number (JSNumber.finite 2)
  notificationDelaySeconds := JSValue.number delay
  increaseOnly := JSValue.boolean false
  soundEnabled := JSValue.boolean true

/-- Platform outcomes at clock value `now`: the active tab is tab 7 showing
`demoUrl`, and every call succeeds. -/
def demoEnv (now : Int) : Env where
  now := now
  activeTab := some (some 7)
  tabsGet := fun _ => Except.ok (some demoUrl)
  executeScript := fun _ => none
  sendStart := fun _ => none
  notificationsCreate := fun _ => true

/-- A page at `demoUrl` in which no selector resolves. -/
def demoPageEnv (now : Int) : Content.PageEnv where
  now := now
  location := demoUrl
  querySelector := fun _ => Content.QueryResult.notFound

/-- A first session: start, the baseline report `5` from the bound tab, stop. -/
def firstSession : Option Controller :=
  (onMessage demoPlatform 10 (demoEnv 1000000)
    (Message.startFromPopup (demoRaw (JSNumber.finite 1))) none Controller.initial).bind fun w1 =>
  (onMessage demoPlatform 10 (demoEnv 1001000)
    (Message.elementValue (JSValue.string "5".toList)) (some 7) w1).bind fun w2 =>
  onMessage demoPlatform 10 (demoEnv 1002000) Message.stopFromPopup none w2

/-- The start of a second session after `firstSession`. -/
def secondStart : Option Controller :=
  firstSession.bind fun w3 =>
  onMessage demoPlatform 10 (demoEnv 1003000)
    (Message.startFromPopup (demoRaw (JSNumber.finite 1))) none w3

/-- The first report of the second session, `6`, from the bound tab. -/
def secondSessionFirstReport : Option Controller :=
  secondStart.bind fun w4 =>
  onMessage demoPlatform 10 (demoEnv 1004000)
    (Message.elementValue (JSValue.string "6".toList)) (some 7) w4

/-- A controller in a running session on tab 7 whose baseline value is `5`. -/
def demoSession : Controller :=
  { Controller.initial with
    runtimeState :=
      { RuntimeState.initial with monitoring := true, tabId := some 7, exactUrl := demoUrl }
    storage :=
      { monitorConfig := none, monitorState := none, lastValue := some "5".toList,
        lastError := none } }

/-- The report of `value` from tab 7 at clock value `now`. -/
def demoReport (now : Int) (value : JSString) : Report where
  env := demoEnv now
  senderTabId := some 7
  value := JSValue.string value

/-- The controller `demoSession` after the report `6` at clock value 1000000. -/
def demoAfterFirst : Controller :=
  (onMessage demoPlatform 10 (demoReport 1000000 "6".toList).env
    (Message.elementValue (demoReport 1000000 "6".toList).value)
    (demoReport 1000000 "6".toList).senderTabId demoSession).getD demoSession

/-- The controller `demoSession` after the reports `6` and `7`, 3000 ms apart. -/
def demoAfterSecond : Controller :=
  (handleReports demoPlatform 10 [demoReport 1000000 "6".toList, demoReport 1003000 "7".toList]
    demoSession).getD demoSession

/-! ## background.js: the refresh tick -/

/-- The relational operator `a <= b` on numbers (false when either is `NaN`). -/
def JSNumber.le (a b : JSNumber) : Bool :=
  match a, b with
  | JSNumber.nan, _ => false
  | _, JSNumber.nan => false
  | a, b => !(JSNumber.lt b a)

/-- The outcomes of the platform calls made by the callback of a refresh
timeout: `some` message on rejection. -/
structure TickEnv where
  /-- The result of `chrome.tabs.reload` -/
  tabsReload : Option JSString
  /-- The result of `chrome.scripting.executeScript` -/
  executeScript : Option JSString
  /-- The result of `chrome.tabs.sendMessage` with `CHECK_NOW` -/
  sendCheckNow : Option JSString

/-- The callback that `scheduleRefreshCycle` gives to `setTimeout`, up to the end
of its `try` statement: the controller, and whether the callback goes on to
its last statement (it returns from the `catch` clause otherwise). -/
def refreshTickBody (env : TickEnv) (t : RefreshTimer) (w : Controller) : Controller × Bool :=
  let w1 := w.emit (Effect.tabsReload t.tabId)
  match env.tabsReload with
  | some _ => (stopMonitoring "Tab unavailable. Monitoring stopped.".toList w1, false)
  | none =>
    let w2 := (w1.emit (Effect.sleep (JSNumber.finite 3000))).emit (Effect.executeScript t.tabId)
    match env.executeScript with
    | some _ => (stopMonitoring "Tab unavailable. Monitoring stopped.".toList w2, false)
    | none =>
      let w3 :=
        w2.emit (Effect.tabsSendMessage (some t.tabId)
          (TabMessage.checkNow t.config.url t.config.selector))
      match env.sendCheckNow with
      | some _ => (stopMonitoring "Tab unavailable. Monitoring stopped.".toList w3, false)
      | none => (w3, true)

/-- The last statement of the callback: `scheduleRefreshCycle(tabId, config)`. -/
def refreshTickTail (t : RefreshTimer) (w : Controller) : Controller :=
  scheduleRefreshCycle t.tabId t.config w

/-- The expiry of the pending refresh timeout `id`, its callback run to its
end.  A timeout that is not pending does nothing. -/
def refreshTick (env : TickEnv) (id : Nat) (w : Controller) : Controller :=
  match w.timers.find? (fun t => t.id == id) with
  | none => w
  | some t =>
    match refreshTickBody env t { w with timers := w.timers.filter (fun x => x.id != id) } with
    | (w1, true) => refreshTickTail t w1
    | (w1, false) => w1

/-! ## content.js: the listener and the events of the page -/

namespace Content

/-- The case `CHECK_NOW` of the listener of `content.js`; a `url` or `selector`
that is absent or empty leaves the bound one. -/
def checkNow (env : PageEnv) (url selector : JSString) (p : Page) : Page :=
  postValue env
    { p with
      monitorState :=
        { p.monitorState with
          url := if url ≠ [] then url else p.monitorState.url
          selector := if selector ≠ [] then selector else p.monitorState.selector
          active := true } }

/-- What can happen to the content script: a message of the controller, a
callback of the mutation observer, the expiry of a timeout.  The messages
`PLAY_SOUND` and those of unknown type (`other`) touch nothing of the state
modelled here. -/
inductive PageEvent where
  | startMonitor (payload : StartPayload)
  | checkNow (url selector : JSString)
  | stopMonitor
  | other
  | mutation (observer : Nat)
  | timeout (id : Nat)

/-- The content script handling one event on the page `env`; for a message this
is the listener of `content.js`. -/
def step (env : PageEnv) : PageEvent → Page → Page
  | PageEvent.startMonitor payload, p => startMonitoring env payload p
  | PageEvent.checkNow url selector, p => checkNow env url selector p
  | PageEvent.stopMonitor, p => stopMonitoring p
  | PageEvent.other, p => p
  | PageEvent.mutation observer, p => onMutation env observer p
  | PageEvent.timeout id, p => fireTimer env id p

/-- The content script handling a sequence of events, each on the page as it is
at that moment. -/
def run : List (PageEnv × PageEvent) → Page → Page
  | [], p => p
  | (env, ev) :: rest, p => run rest (step env ev p)

/-- The expiry, at the clock value of `env`, of every pending timeout that is
due by then, oldest first. -/
def expire (env : PageEnv) (p : Page) : Page :=
  (p.timers.filter (fun t => decide (t.due ≤ env.now))).foldl
    (fun q t => fireTimer env t.id q) p

/-- A callback of the mutation observer at the clock value of `env`, after the
timeouts that are due by then. -/
def mutationAt (env : PageEnv) (observer : Nat) (p : Page) : Page :=
  onMutation env observer (expire env p)

/-- A burst of callbacks of the mutation observer, one for each element of
`envs`. -/
def burst (observer : Nat) : List PageEnv → Page → Page
  | [], p => p
  | env :: envs, p => burst observer envs (mutationAt env observer p)

/-- The pending debounce timeouts of a page. -/
def pendingDebounce (p : Page) : List PageTimer :=
  p.timers.filter (fun t => decide (t.kind = TimerKind.debounce))

end Content

/-! ## Vocabulary of the later statements -/

/-- The contract of the platform's `URL` that the statements on the returned
address rely on: the `href` of a parsed URL begins with its `protocol`. -/
def Platform.HrefHasProtocol (P : Platform) : Prop :=
  ∀ (s : JSString) (r : URLRecord), P.parseURL s = some r → ∃ rest : JSString,
    r.href = r.protocol ++ rest

/-- The invariant of `MonitorConfig` in the words of the specification, on the
address, the selector and the three numeric options; `scheme` is `http:` or
`https:`. -/
def MonitorConfig.Valid (c : MonitorConfig) : Prop :=
  c.url ≠ [] ∧ c.selector ≠ [] ∧
  ((∃ rest : JSString, c.url = "http:".toList ++ rest) ∨
    (∃ rest : JSString, c.url = "https:".toList ++ rest)) ∧
  (c.mode = Mode.live ∨ c.mode = Mode.refresh) ∧
  JSNumber.le (JSNumber.finite 60) c.refreshIntervalSeconds = true ∧
  JSNumber.le (JSNumber.finite 1) c.notificationRepeatCount = true ∧
  JSNumber.le c.notificationRepeatCount (JSNumber.finite 5) = true ∧
  JSNumber.le (JSNumber.finite 1) c.notificationDelaySeconds = true

/-! ## More concrete inputs -/

/-- A page at `demoUrl` in which every selector resolves to an element with the
given text inside a parent. -/
def demoPageFound (now : Int) (text : JSString) : Content.PageEnv where
  now := now
  location := demoUrl
  querySelector := fun _ => Content.QueryResult.found text true

/-- The start command of the concrete runs, in the given mode. -/
def demoPayload (mode : Mode) : Content.StartPayload where
  url := demoUrl
  selector := "#price".toList
  mode := mode

/-- A live observer whose element disappears: two bursts of mutations each lead
to a failed lookup, each of which schedules a retry, and then the observer is
stopped. -/
def stoppedWithTwoRetries : Content.Page :=
  Content.run
    [(demoPageFound 0 "5".toList, Content.PageEvent.startMonitor (demoPayload Mode.live)),
     (demoPageEnv 1000, Content.PageEvent.mutation 1),
     (demoPageEnv 1500, Content.PageEvent.timeout 1),
     (demoPageEnv 2000, Content.PageEvent.mutation 1),
     (demoPageEnv 2500, Content.PageEvent.timeout 3),
     (demoPageEnv 3000, Content.PageEvent.stopMonitor)]
    Content.Page.initial

/-- A live observer started while the element is absent, after the first retry
has found the element. -/
def liveStartedWithoutElement : Content.Page :=
  Content.run
    [(demoPageEnv 0, Content.PageEvent.startMonitor (demoPayload Mode.live)),
     (demoPageFound 5000 "5".toList, Content.PageEvent.timeout 1)]
    Content.Page.initial

/-- Platform outcomes as `demoEnv`, except that the injection of the content
script is rejected. -/
def demoEnvNoInjection (now : Int) : Env :=
  { demoEnv now with executeScript := fun _ => some "Cannot access contents of the page.".toList }

/-- Platform outcomes as `demoEnv`, except that the delivery of `START_MONITOR`
is rejected. -/
def demoEnvNoReceiver (now : Int) : Env :=
  { demoEnv now with sendStart := fun _ => some "Could not establish connection.".toList }

/-- A controller in a running session on tab 7 with `increaseOnly` set and no
value observed yet. -/
def demoIncreaseSession : Controller :=
  { demoSession with
    storage :=
      { monitorConfig := some { DEFAULTS with increaseOnly := true }, monitorState := none,
        lastValue := none, lastError := none } }

namespace Content

/-- The pending timeouts of a page are tracked: handles are positive, at most
the number of timeouts set so far and distinct, and every pending debounce
timeout is the one whose handle is in `monitorState.debounceTimer`. -/
def TimersTracked (p : Page) : Prop :=
  (∀ t ∈ p.timers, 1 ≤ t.id ∧ t.id ≤ p.timerCount) ∧
  (p.timers.map (fun t => t.id)).Nodup ∧
  (∀ t ∈ p.timers, t.kind = TimerKind.debounce → p.monitorState.debounceTimer = some t.id)

end Content

/-- A controller in a running refresh session on tab 7 with its refresh timeout
pending. -/
def demoRefreshSession : Controller :=
  scheduleRefreshCycle 7 DEFAULTS
    { demoSession with runtimeState := { demoSession.runtimeState with mode := Mode.refresh } }

/-! # Theorems -/

/-! ## Lemmas on the value normalizer -/

theorem isDigit_ne_comma {c : Char} (h : isDigit c = true) : c ≠ ',' := by
  rintro rfl
  revert h
  decide

theorem matchUnsigned_eq_none {s : JSString} (h : matchUnsigned s = none) :
    ∀ c r, s = c :: r → isDigit c = false := by
  intro c r hs
  subst hs
  by_contra hc
  simp only [Bool.not_eq_false] at hc
  unfold matchUnsigned at h
  simp only [List.takeWhile_cons, hc, if_true] at h
  split at h
  · rename_i h0
    exact absurd h0 (List.cons_ne_nil _ _)
  · split at h
    · split at h <;> exact absurd h (by simp)
    · exact absurd h (by simp)

theorem matchUnsigned_eq_some {s m : JSString} (h : matchUnsigned s = some m) :
    ∃ ip fp post : JSString, s = m ++ post ∧ ip ≠ [] ∧ (∀ c ∈ ip, isDigit c = true) ∧
      (∀ c ∈ fp, isDigit c = true) ∧ (m = ip ∨ (fp ≠ [] ∧ m = ip ++ '.' :: fp)) ∧
      (∀ c r, post = c :: r → isDigit c = false) := by
  have hsplit : s.takeWhile isDigit ++ s.dropWhile isDigit = s := List.takeWhile_append_dropWhile _ _
  have hip : ∀ c ∈ s.takeWhile isDigit, isDigit c = true := fun c hc => List.mem_takeWhile_imp hc
  have hdrop : ∀ c r, s.dropWhile isDigit = c :: r → isDigit c = false := by
    intro c r hcr
    have h1 := List.head_dropWhile_not isDigit s (by simp [hcr])
    simpa [hcr] using h1
  unfold matchUnsigned at h
  simp only at h
  split at h
  · simp at h
  · rename_i hne
    split at h
    · rename_i r hr
      have hsplit2 : r.takeWhile isDigit ++ r.dropWhile isDigit = r :=
        List.takeWhile_append_dropWhile _ _
      split at h
      · rename_i hfp
        simp only [Option.some.injEq] at h
        refine ⟨s.takeWhile isDigit, [], '.' :: r, ?_, hne, hip, by simp, Or.inl h.symm, ?_⟩
        · rw [← h, ← hr, hsplit]
        · intro c r' hcr
          simp only [List.cons.injEq] at hcr
          rw [← hcr.1]
          decide
      · rename_i hfp
        simp only [Option.some.injEq] at h
        refine ⟨s.takeWhile isDigit, r.takeWhile isDigit, r.dropWhile isDigit, ?_, hne, hip,
          fun c hc => List.mem_takeWhile_imp hc, Or.inr ⟨hfp, h.symm⟩, ?_⟩
        · rw [← h]
          simp only [List.append_assoc, List.cons_append, hsplit2]
          rw [← hr, hsplit]
        · intro c r' hcr
          have h1 := List.head_dropWhile_not isDigit r (by simp [hcr])
          simpa [hcr] using h1
    · rename_i hnd
      simp only [Option.some.injEq] at h
      refine ⟨s.takeWhile isDigit, [], s.dropWhile isDigit, ?_, hne, hip, by simp, Or.inl h.symm, ?_⟩
      · rw [← h, hsplit]
      · exact hdrop

theorem matchAt_eq_none {s : JSString} (h : matchAt s = none) :
    ∀ c r, s = c :: r → isDigit c = false := by
  unfold matchAt at h
  split at h
  · split at h
    · simp at h
    · exact matchUnsigned_eq_none h
  · exact matchUnsigned_eq_none h

theorem matchAt_eq_some {s m : JSString} (h : matchAt s = some m) :
    ∃ post : JSString, s = m ++ post ∧ NumericToken m ∧
      (∀ c r, post = c :: r → isDigit c = false) := by
  have plain : ∀ s m, matchUnsigned s = some m → ∃ post : JSString, s = m ++ post ∧
      NumericToken m ∧ (∀ c r, post = c :: r → isDigit c = false) := by
    intro s m hm
    obtain ⟨ip, fp, post, hs, hne, hip, hfp, hor, hpost⟩ := matchUnsigned_eq_some hm
    refine ⟨post, hs, ⟨[], ip, fp, Or.inl rfl, hne, hip, hfp, ?_⟩, hpost⟩
    simpa using hor
  unfold matchAt at h
  split at h
  · rename_i r
    split at h
    · rename_i m' hm'
      simp only [Option.some.injEq] at h
      obtain ⟨ip, fp, post, hs, hne, hip, hfp, hor, hpost⟩ := matchUnsigned_eq_some hm'
      refine ⟨post, ?_, ⟨['-'], ip, fp, Or.inr rfl, hne, hip, hfp, ?_⟩, hpost⟩
      · rw [← h, hs]; rfl
      · rw [← h]
        rcases hor with h1 | ⟨h1, h2⟩
        · exact Or.inl (by rw [h1]; rfl)
        · exact Or.inr ⟨h1, by rw [h2]; simp⟩
    · exact plain _ _ h
  · exact plain _ _ h

theorem firstMatch_eq_none {s : JSString} (h : firstMatch s = none) :
    ∀ c ∈ s, isDigit c = false := by
  induction s with
  | nil => simp
  | cons a r ih =>
    unfold firstMatch at h
    split at h
    · simp at h
    · rename_i hm
      intro c hc
      rcases List.mem_cons.mp hc with rfl | hc
      · exact matchAt_eq_none hm _ _ rfl
      · exact ih h c hc

theorem firstMatch_eq_some {s m : JSString} (h : firstMatch s = some m) :
    ∃ pre post : JSString, s = pre ++ m ++ post ∧ NumericToken m ∧
      (∀ c ∈ pre, isDigit c = false) ∧ (∀ c r, post = c :: r → isDigit c = false) := by
  induction s with
  | nil => simp [firstMatch, matchAt, matchUnsigned] at h
  | cons a r ih =>
    unfold firstMatch at h
    split at h
    · rename_i m' hm'
      simp only [Option.some.injEq] at h
      subst h
      obtain ⟨post, hs, htok, hpost⟩ := matchAt_eq_some hm'
      exact ⟨[], post, by simpa using hs, htok, by simp, hpost⟩
    · rename_i hm
      obtain ⟨pre, post, hs, htok, hpre, hpost⟩ := ih h
      refine ⟨a :: pre, post, by simp [hs], htok, ?_, hpost⟩
      intro c hc
      rcases List.mem_cons.mp hc with rfl | hc
      · exact matchAt_eq_none hm _ _ rfl
      · exact hpre c hc

theorem NumericToken.exists_digit {t : JSString} (h : NumericToken t) :
    ∃ c ∈ t, isDigit c = true := by
  obtain ⟨sign, ip, fp, _, hne, hip, _, hor⟩ := h
  obtain ⟨c, hc⟩ := List.exists_mem_of_ne_nil ip hne
  refine ⟨c, ?_, hip c hc⟩
  rcases hor with h | ⟨_, h⟩ <;> simp [h, hc]

theorem containsNumericToken_iff (s : JSString) :
    ContainsNumericToken s ↔ ∃ c ∈ s, isDigit c = true := by
  constructor
  · rintro ⟨pre, tok, post, hs, htok⟩
    obtain ⟨c, hc, hd⟩ := htok.exists_digit
    refine ⟨c, ?_, hd⟩
    have : c ∈ tok := (List.mem_filter.mp hc).1
    simp [hs, this]
  · rintro ⟨c, hc, hd⟩
    obtain ⟨pre, post, hs⟩ := List.append_of_mem hc
    refine ⟨pre, [c], post, by simp [hs], [], [c], [], Or.inl rfl, by simp, ?_, by simp, Or.inl ?_⟩
    · simpa using hd
    · have : c ≠ ',' := isDigit_ne_comma hd
      simp [stripCommas, this]

theorem takeWhile_digits (ip rest : JSString) (hip : ∀ c ∈ ip, isDigit c = true)
    (hrest : ∀ c r, rest = c :: r → isDigit c = false) :
    (ip ++ rest).takeWhile isDigit = ip ∧ (ip ++ rest).dropWhile isDigit = rest := by
  have t : rest.takeWhile isDigit = [] := by
    cases rest with
    | nil => rfl
    | cons c r => simp [List.takeWhile, hrest c r rfl]
  have d : rest.dropWhile isDigit = rest := by
    cases rest with
    | nil => rfl
    | cons c r => simp [List.dropWhile, hrest c r rfl]
  constructor
  · rw [List.takeWhile_append_of_pos hip, t, List.append_nil]
  · rw [List.dropWhile_append_of_pos hip, d]

theorem matchUnsigned_head_not_digit (s : JSString)
    (h : ∀ c r, s = c :: r → isDigit c = false) : matchUnsigned s = none := by
  cases s with
  | nil => simp [matchUnsigned]
  | cons c r => simp [matchUnsigned, List.takeWhile, h c r rfl]

theorem matchUnsigned_plain (ip post : JSString) (hne : ip ≠ [])
    (hip : ∀ c ∈ ip, isDigit c = true)
    (hpost : ∀ c r, post = c :: r → isDigit c = false)
    (hfrac : ∀ c r, post = '.' :: c :: r → isDigit c = false) :
    matchUnsigned (ip ++ post) = some ip := by
  obtain ⟨t, d⟩ := takeWhile_digits ip post hip hpost
  unfold matchUnsigned
  simp only [t, d, hne, if_false]
  split
  · rename_i r
    have : r.takeWhile isDigit = [] := by
      cases r with
      | nil => rfl
      | cons c r' => simp [List.takeWhile, hfrac c r' rfl]
    simp [this]
  · rfl

theorem matchUnsigned_fraction (ip fp post : JSString) (hne : ip ≠ [])
    (hip : ∀ c ∈ ip, isDigit c = true) (hfne : fp ≠ []) (hfp : ∀ c ∈ fp, isDigit c = true)
    (hpost : ∀ c r, post = c :: r → isDigit c = false) :
    matchUnsigned (ip ++ '.' :: fp ++ post) = some (ip ++ '.' :: fp) := by
  have hdot : ∀ c r, ('.' :: (fp ++ post) : JSString) = c :: r → isDigit c = false := by
    intro c r h
    simp only [List.cons.injEq] at h
    rw [← h.1]; decide
  obtain ⟨t, d⟩ := takeWhile_digits ip ('.' :: (fp ++ post)) hip hdot
  obtain ⟨t2, -⟩ := takeWhile_digits fp post hfp hpost
  have e : ip ++ '.' :: fp ++ post = ip ++ '.' :: (fp ++ post) := by simp
  rw [e]
  unfold matchUnsigned
  simp only [t, d, hne, if_false, t2, hfne]

theorem NumericToken.no_dot {sign ip : JSString} (hsign : sign = [] ∨ sign = ['-'])
    (hip : ∀ c ∈ ip, isDigit c = true) : ∀ c ∈ sign ++ ip, c ≠ '.' := by
  intro c hc
  rcases List.mem_append.mp hc with h | h
  · rcases hsign with hs | hs
    · rw [hs] at h; exact absurd h (List.not_mem_nil _)
    · rw [hs] at h
      simp only [List.mem_singleton] at h
      rw [h]; decide
  · rintro rfl
    have := hip _ h
    revert this
    decide

theorem digit_ne_minus {c : Char} (h : isDigit c = true) : c ≠ '-' := by
  rintro rfl
  revert h
  decide

theorem matchAt_exact (m post : JSString) (hm : NumericToken m)
    (hpost : ∀ c r, post = c :: r → isDigit c = false)
    (hfrac : (∀ c ∈ m, c ≠ '.') → ∀ c r, post = '.' :: c :: r → isDigit c = false) :
    matchAt (m ++ post) = some m := by
  obtain ⟨sign, ip, fp, hsign, hne, hip, hfp, hor⟩ := hm
  obtain ⟨a, r, har⟩ := List.exists_cons_of_ne_nil hne
  have ha : a ≠ '-' := digit_ne_minus (hip a (by rw [har]; exact List.mem_cons_self _ _))
  -- the unsigned numeral `u` of the token is matched at its head
  have hu : ∀ u : JSString, (u = ip ∨ (fp ≠ [] ∧ u = ip ++ '.' :: fp)) →
      ((∀ c ∈ u, c ≠ '.') → ∀ c r, post = '.' :: c :: r → isDigit c = false) →
      matchUnsigned (u ++ post) = some u := by
    intro u hu hfr
    rcases hu with rfl | ⟨hfne, rfl⟩
    · exact matchUnsigned_plain u post hne hip hpost
        (hfr (by simpa using NumericToken.no_dot (Or.inl rfl) hip))
    · exact matchUnsigned_fraction ip fp post hne hip hfne hfp hpost
  have plain : ∀ u : JSString, (∃ r', u = a :: r') → matchUnsigned (u ++ post) = some u →
      matchAt (u ++ post) = some u := by
    rintro u ⟨r', rfl⟩ h
    unfold matchAt
    split
    · rename_i heq
      simp only [List.cons_append, List.cons.injEq] at heq
      exact absurd heq.1 ha
    · exact h
  rcases hsign with hs | hs
  · subst hs
    rcases hor with h | ⟨hf, h⟩
    · subst h
      exact plain _ ⟨r, har⟩ (hu _ (Or.inl rfl) hfrac)
    · subst h
      exact plain _ ⟨r ++ '.' :: fp, by rw [har]; rfl⟩ (hu _ (Or.inr ⟨hf, rfl⟩) hfrac)
  · subst hs
    rcases hor with h | ⟨hf, h⟩
    · subst h
      have h1 := hu ip (Or.inl rfl) (fun hno => hfrac (NumericToken.no_dot (Or.inr rfl) hip))
      simp [matchAt, h1]
    · subst h
      have h1 := hu (ip ++ '.' :: fp) (Or.inr ⟨hf, rfl⟩)
        (fun hno => absurd rfl (hno '.' (by simp)))
      have e : ['-'] ++ ip ++ '.' :: fp ++ post = '-' :: (ip ++ '.' :: fp ++ post) := by simp
      rw [e]
      simp only [matchAt, h1]
      simp

theorem matchAt_head_not_digit (c : Char) (r : JSString) (hc : isDigit c = false)
    (hr : c = '-' → ∀ d r', r = d :: r' → isDigit d = false) : matchAt (c :: r) = none := by
  have h1 : matchUnsigned (c :: r) = none :=
    matchUnsigned_head_not_digit _ (fun d r' h => by
      simp only [List.cons.injEq] at h
      rw [← h.1]; exact hc)
  unfold matchAt
  split
  · rename_i r0 heq
    simp only [List.cons.injEq] at heq
    have h2 : matchUnsigned r0 = none :=
      matchUnsigned_head_not_digit _ (fun d r' h => hr heq.1 d r' (by rw [heq.2, h]))
    rw [h2]
    exact h1
  · exact h1

theorem token_head {m : JSString} (hm : NumericToken m) :
    ∃ c r, m = c :: r ∧ (isDigit c = true ∨ c = '-') := by
  obtain ⟨sign, ip, fp, hsign, hne, hip, -, hor⟩ := hm
  obtain ⟨a, r, har⟩ := List.exists_cons_of_ne_nil hne
  have ha := hip a (by rw [har]; exact List.mem_cons_self _ _)
  rcases hsign with hs | hs <;> rcases hor with h | ⟨-, h⟩ <;> subst hs <;> subst h
  · exact ⟨a, r, by simp [har], Or.inl ha⟩
  · exact ⟨a, r ++ '.' :: fp, by simp [har], Or.inl ha⟩
  · exact ⟨'-', ip, rfl, Or.inr rfl⟩
  · exact ⟨'-', ip ++ '.' :: fp, by simp, Or.inr rfl⟩

/-- The match is the first numeric token, whole: any decomposition of the text
around a token that is the first one, with its sign when a minus sign stands
right before the digits, all its digits and its decimal part when one follows,
is the one `firstMatch` returns. -/
theorem firstMatch_exact (m post : JSString) (hm : NumericToken m)
    (hpost : ∀ c r, post = c :: r → isDigit c = false)
    (hfrac : (∀ c ∈ m, c ≠ '.') → ∀ c r, post = '.' :: c :: r → isDigit c = false) :
    ∀ pre : JSString, (∀ c ∈ pre, isDigit c = false) →
      (pre.getLast? = some '-' → ∃ r, m = '-' :: r) →
      firstMatch (pre ++ m ++ post) = some m := by
  obtain ⟨c0, r0, hm0, hc0⟩ := token_head hm
  intro pre
  induction pre with
  | nil =>
    intro _ _
    have h := matchAt_exact m post hm hpost hfrac
    have e : ([] : JSString) ++ m ++ post = c0 :: (r0 ++ post) := by rw [hm0]; rfl
    rw [e]
    rw [hm0] at h
    simp only [List.cons_append] at h
    simp only [firstMatch, h, hm0]
  | cons a pre ih =>
    intro hpre hlast
    have ha : isDigit a = false := hpre a (List.mem_cons_self _ _)
    have hnone : matchAt (a :: (pre ++ m ++ post)) = none := by
      apply matchAt_head_not_digit a _ ha
      intro hminus d r' hd
      cases pre with
      | nil =>
        -- the token is signed, so a minus sign follows
        obtain ⟨r, hr⟩ := hlast (by rw [hminus]; rfl)
        rw [hr] at hd
        simp only [List.nil_append, List.cons_append, List.cons.injEq] at hd
        rw [← hd.1]; decide
      | cons b pre' =>
        simp only [List.cons_append, List.cons.injEq] at hd
        rw [← hd.1]
        exact hpre b (by simp)
    have hrest := ih (fun c hc => hpre c (List.mem_cons_of_mem _ hc)) (by
      intro h
      apply hlast
      cases pre with
      | nil => simp at h
      | cons b pre' => simpa [List.getLast?_cons_cons] using h)
    have e : a :: pre ++ m ++ post = a :: (pre ++ m ++ post) := by simp
    rw [e]
    simp only [firstMatch, hnone, hrest]

theorem matchUnsigned_fraction_taken {s m post : JSString} (h : matchUnsigned s = some m)
    (hs : s = m ++ post) (hno : ∀ c ∈ m, c ≠ '.') :
    ∀ c r, post = '.' :: c :: r → isDigit c = false := by
  intro c r hpost
  by_contra hd
  simp only [Bool.not_eq_false] at hd
  obtain ⟨ip, fp, post0, hs0, hne, hip, hfp, hor, -⟩ := matchUnsigned_eq_some h
  have hm : m = ip := by
    rcases hor with h1 | ⟨-, h1⟩
    · exact h1
    · exact absurd rfl (hno '.' (by rw [h1]; simp))
  have hsplit : c :: r = (c :: r).takeWhile isDigit ++ (c :: r).dropWhile isDigit :=
    (List.takeWhile_append_dropWhile _ _).symm
  have hfne : (c :: r).takeWhile isDigit ≠ [] := by simp [List.takeWhile, hd]
  have hdrop : ∀ d r', (c :: r).dropWhile isDigit = d :: r' → isDigit d = false := by
    intro d r' hdr
    have := List.head_dropWhile_not isDigit (c :: r) (by rw [hdr]; simp)
    simpa [hdr] using this
  have key := matchUnsigned_fraction ip ((c :: r).takeWhile isDigit)
    ((c :: r).dropWhile isDigit) hne hip hfne (fun d hd => List.mem_takeWhile_imp hd) hdrop
  have e : s = ip ++ '.' :: (c :: r).takeWhile isDigit ++ (c :: r).dropWhile isDigit := by
    rw [hs, hm, hpost, List.append_assoc, List.cons_append, ← hsplit]
  rw [← e, h, hm] at key
  have := congrArg List.length (Option.some.inj key)
  simp at this

theorem matchAt_fraction_taken {s m post : JSString} (h : matchAt s = some m)
    (hs : s = m ++ post) (hno : ∀ c ∈ m, c ≠ '.') :
    ∀ c r, post = '.' :: c :: r → isDigit c = false := by
  unfold matchAt at h
  split at h
  · rename_i r0
    cases hu : matchUnsigned r0 with
    | some m0 =>
      rw [hu] at h
      simp only [Option.some.injEq] at h
      subst h
      simp only [List.cons_append, List.cons.injEq, true_and] at hs
      exact matchUnsigned_fraction_taken hu hs (fun c hc => hno c (List.mem_cons_of_mem _ hc))
    | none =>
      rw [hu] at h
      exact matchUnsigned_fraction_taken h hs hno
  · exact matchUnsigned_fraction_taken h hs hno

/-- The match of `firstMatch` is the first numeric token, whole: no digit
stands before it, a minus sign right before its digits belongs to it, no digit
follows it, and a dot followed by a digit after it is its decimal part. -/
theorem firstMatch_eq_some_whole {s m : JSString} (h : firstMatch s = some m) :
    ∃ pre post : JSString, s = pre ++ m ++ post ∧ NumericToken m ∧
      (∀ c ∈ pre, isDigit c = false) ∧
      (∀ c r, post = c :: r → isDigit c = false) ∧
      (pre.getLast? = some '-' → ∃ r, m = '-' :: r) ∧
      ((∀ c ∈ m, c ≠ '.') → ∀ c r, post = '.' :: c :: r → isDigit c = false) := by
  induction s with
  | nil =>
    simp only [firstMatch] at h
    obtain ⟨post, hs, htok, hpost⟩ := matchAt_eq_some h
    exact ⟨[], post, by simpa using hs, htok, by simp, hpost, by simp,
      matchAt_fraction_taken h hs⟩
  | cons a r ih =>
    simp only [firstMatch] at h
    cases hma : matchAt (a :: r) with
    | some m0 =>
      rw [hma] at h
      simp only [Option.some.injEq] at h
      subst h
      obtain ⟨post, hs, htok, hpost⟩ := matchAt_eq_some hma
      exact ⟨[], post, by simpa using hs, htok, by simp, hpost, by simp,
        matchAt_fraction_taken hma hs⟩
    | none =>
      rw [hma] at h
      simp only at h
      obtain ⟨pre, post, hs, htok, hpre, hpost, hsign, hfrac⟩ := ih h
      have ha : isDigit a = false := matchAt_eq_none hma _ _ rfl
      refine ⟨a :: pre, post, by rw [hs]; simp, htok, ?_, hpost, ?_, hfrac⟩
      · intro c hc
        rcases List.mem_cons.mp hc with rfl | hc
        · exact ha
        · exact hpre c hc
      · intro hlast
        cases pre with
        | cons b pre' =>
          exact hsign (by simpa [List.getLast?_cons_cons] using hlast)
        | nil =>
          have hminus : a = '-' := by simpa using hlast
          subst hminus
          by_contra hns
          obtain ⟨c0, r0, hm0, hc0⟩ := token_head htok
          rcases hc0 with hc0 | hc0
          · have hr : r = c0 :: (r0 ++ post) := by rw [hs, hm0]; rfl
            cases hu : matchUnsigned r with
            | none =>
              have := matchUnsigned_eq_none hu c0 _ hr
              rw [hc0] at this
              exact absurd this (by decide)
            | some u =>
              simp only [matchAt, hu] at hma
              exact absurd hma (by simp)
          · exact hns ⟨r0, by rw [hm0, hc0]⟩

/-! ## Lemmas on the log and on the controller -/

theorem deliveryTimes_append (a b : List Effect) :
    deliveryTimes (a ++ b) = deliveryTimes a ++ deliveryTimes b := by
  induction a with
  | nil => rfl
  | cons e es ih => cases e <;> simp [deliveryTimes, ih]

theorem countDeliveries_append (a b : List Effect) :
    countDeliveries (a ++ b) = countDeliveries a + countDeliveries b := by
  induction a with
  | nil => simp [countDeliveries]
  | cons e es ih => cases e <;> simp [countDeliveries, ih]; omega

theorem countAlerts_append (a b : List Effect) :
    countAlerts (a ++ b) = countAlerts a + countAlerts b := by
  induction a with
  | nil => simp [countAlerts]
  | cons e es ih => cases e <;> simp [countAlerts, ih]; omega

theorem waits_append (a b : List Effect) : waits (a ++ b) = waits a ++ waits b := by
  induction a with
  | nil => rfl
  | cons e es ih => cases e <;> simp [waits, ih]

theorem lt_ofNat (i n : Nat) : JSNumber.lt (JSNumber.ofNat i) (JSNumber.ofNat n) = decide (i < n) := by
  simp [JSNumber.lt, JSNumber.ofNat]

theorem countAlerts_expectedBatch (n : Nat) (sound : Bool) (tabId : Option Nat) (d : JSNumber)
    (k i : Nat) : countAlerts (expectedBatch n sound tabId d k i) = k := by
  induction k generalizing i with
  | zero => rfl
  | succ k ih =>
    simp only [expectedBatch, countAlerts_append, ih]
    cases sound <;> by_cases h : i + 1 < n <;> simp [countAlerts, h] <;> omega

theorem waits_expectedBatch (n : Nat) (sound : Bool) (tabId : Option Nat) (d : JSNumber)
    (k i : Nat) (h : i + k = n) :
    waits (expectedBatch n sound tabId d k i) = List.replicate (k - 1) d := by
  induction k generalizing i with
  | zero => rfl
  | succ k ih =>
    simp only [expectedBatch, waits_append, ih (i + 1) (by omega)]
    cases k with
    | zero =>
      have : ¬ (i + 1 < n) := by omega
      cases sound <;> simp [waits, this]
    | succ k =>
      have : i + 1 < n := by omega
      cases sound <;> simp [waits, this, List.replicate_succ]

theorem sendNotificationsLoop_spec (env : Env) (tabId : Option Nat) (config : MonitorConfig)
    (n : Nat) (delayMs : JSNumber)
    (hsub : JSNumber.sub (JSNumber.ofNat n) (JSNumber.finite 1) = JSNumber.ofNat (n - 1)) :
    ∀ (k i fuel : Nat) (w : Controller), i + k = n → k < fuel →
      ∃ w1 : Controller,
        sendNotificationsLoop env tabId config (JSNumber.ofNat n) delayMs fuel i w = some w1 ∧
        w1.log = w.log ++ expectedBatch n config.soundEnabled tabId delayMs k i ∧
        w1.runtimeState = w.runtimeState ∧ w1.timers = w.timers ∧
        w1.storage.monitorConfig = w.storage.monitorConfig ∧
        w1.storage.monitorState = w.storage.monitorState ∧
        w1.storage.lastValue = w.storage.lastValue ∧
        ((∃ j : Nat, i ≤ j ∧ j < n ∧ env.notificationsCreate j = false) →
          w1.storage.lastError =
            some "Notification failed. Check extension notification permission.".toList) ∧
        ((∀ j : Nat, i ≤ j → j < n → env.notificationsCreate j = true) →
          w1.storage.lastError = w.storage.lastError) := by
  intro k
  induction k with
  | zero =>
    intro i fuel w hik hf
    obtain ⟨f, rfl⟩ : ∃ f, fuel = f + 1 := ⟨fuel - 1, by omega⟩
    have hi : ¬ (i < n) := by omega
    refine ⟨w, ?_, by simp [expectedBatch], rfl, rfl, rfl, rfl, rfl, ?_, fun _ => rfl⟩
    · simp [sendNotificationsLoop, lt_ofNat, hi]
    · rintro ⟨j, h1, h2, -⟩; omega
  | succ k ih =>
    intro i fuel w hik hf
    obtain ⟨f, rfl⟩ : ∃ f, fuel = f + 1 := ⟨fuel - 1, by omega⟩
    have hi : i < n := by omega
    rw [sendNotificationsLoop]
    simp only [lt_ofNat, hi, decide_True, if_true, hsub]
    obtain ⟨w1, h1, h2, h3, h4, h5, h6, h7, h8, h9⟩ := ih (i + 1) f
      (let w1 := w.emit (Effect.notificationsCreate i)
       let w2 :=
        if env.notificationsCreate i then w1
        else setError "Notification failed. Check extension notification permission.".toList w1
       let w3 :=
        if config.soundEnabled then w2.emit (Effect.tabsSendMessage tabId TabMessage.playSound)
        else w2
       if decide (i < n - 1) then w3.emit (Effect.sleep delayMs) else w3) (by omega) (by omega)
    refine ⟨w1, h1, ?_, ?_, ?_, ?_, ?_, ?_, ?_, ?_⟩
    · rw [h2]
      have e1 : (i < n - 1) ↔ (i + 1 < n) := by omega
      cases config.soundEnabled <;> cases hc : env.notificationsCreate i <;>
        by_cases hlt : i + 1 < n <;>
        simp [expectedBatch, Controller.emit, setError, e1, hlt]
    · rw [h3]
      cases config.soundEnabled <;> cases hc : env.notificationsCreate i <;>
        by_cases hlt : i < n - 1 <;> simp [Controller.emit, setError, hlt]
    · rw [h4]
      cases config.soundEnabled <;> cases hc : env.notificationsCreate i <;>
        by_cases hlt : i < n - 1 <;> simp [Controller.emit, setError, hlt]
    · rw [h5]
      cases config.soundEnabled <;> cases hc : env.notificationsCreate i <;>
        by_cases hlt : i < n - 1 <;> simp [Controller.emit, setError, hlt]
    · rw [h6]
      cases config.soundEnabled <;> cases hc : env.notificationsCreate i <;>
        by_cases hlt : i < n - 1 <;> simp [Controller.emit, setError, hlt]
    · rw [h7]
      cases config.soundEnabled <;> cases hc : env.notificationsCreate i <;>
        by_cases hlt : i < n - 1 <;> simp [Controller.emit, setError, hlt]
    · rintro ⟨j, a, b, c⟩
      by_cases hex : ∃ j : Nat, i + 1 ≤ j ∧ j < n ∧ env.notificationsCreate j = false
      · exact h8 hex
      · have hall : ∀ j : Nat, i + 1 ≤ j → j < n → env.notificationsCreate j = true := by
          intro j' a' b'
          by_contra hne
          exact hex ⟨j', a', b', by simpa using hne⟩
        have hji : j = i := by
          by_contra hne
          have := hall j (by omega) b
          rw [c] at this
          exact absurd this (by decide)
        subst hji
        rw [h9 hall]
        cases config.soundEnabled <;> by_cases hlt : j < n - 1 <;>
          simp [Controller.emit, setError, hlt, c]
    · intro hall
      rw [h9 (fun j a b => hall j (by omega) b)]
      have hc := hall i (le_refl _) hi
      cases config.soundEnabled <;> by_cases hlt : i < n - 1 <;>
        simp [Controller.emit, setError, hlt, hc]

theorem sub_one_small (n : Nat) (h1 : 1 ≤ n) (h5 : n ≤ 5) :
    JSNumber.sub (JSNumber.ofNat n) (JSNumber.finite 1) = JSNumber.ofNat (n - 1) := by
  interval_cases n <;> decide!

theorem sendNotificationsLoop_frame (env : Env) (tabId : Option Nat) (config : MonitorConfig)
    (repeats delayMs : JSNumber) :
    ∀ (fuel i : Nat) (w w1 : Controller),
      sendNotificationsLoop env tabId config repeats delayMs fuel i w = some w1 →
      w1.runtimeState = w.runtimeState ∧
      ∃ extra : List Effect, w1.log = w.log ++ extra ∧ deliveryTimes extra = [] ∧
        countDeliveries extra = 0 := by
  intro fuel
  induction fuel with
  | zero => intro i w w1 h; simp [sendNotificationsLoop] at h
  | succ f ih =>
    intro i w w1 h
    rw [sendNotificationsLoop] at h
    split at h
    · obtain ⟨h1, extra, h2, h3, h4⟩ := ih _ _ _ h
      refine ⟨?_, ?_⟩
      · rw [h1]
        cases config.soundEnabled <;> cases env.notificationsCreate i <;>
          by_cases hlt : JSNumber.lt (JSNumber.ofNat i) (repeats.sub (JSNumber.finite 1)) = true <;>
          simp [Controller.emit, setError, hlt]
      · cases hs : config.soundEnabled <;> cases hc : env.notificationsCreate i <;>
          by_cases hlt : JSNumber.lt (JSNumber.ofNat i) (repeats.sub (JSNumber.finite 1)) = true <;>
          simp only [hs, hc, hlt, Controller.emit, setError, if_true, if_false, Bool.false_eq_true,
            List.append_assoc] at h2 <;>
          exact ⟨_, h2, by simp [deliveryTimes_append, deliveryTimes, h3],
            by simp [countDeliveries_append, countDeliveries, h4]⟩
    · simp only [Option.some.injEq] at h
      subst h
      exact ⟨rfl, [], by simp, rfl, rfl⟩

theorem sendNotifications_frame (fuel : Nat) (env : Env) (tabId : Option Nat)
    (config : MonitorConfig) (w w1 : Controller)
    (h : sendNotifications fuel env tabId config w = some w1) :
    w1.runtimeState = w.runtimeState ∧
    ∃ extra : List Effect, w1.log = w.log ++ extra ∧ deliveryTimes extra = [] ∧
      countDeliveries extra = 1 := by
  obtain ⟨h1, extra, h2, h3, h4⟩ := sendNotificationsLoop_frame _ _ _ _ _ _ _ _ _ h
  refine ⟨h1, Effect.sendNotificationsCalled tabId :: extra, ?_, ?_, ?_⟩
  · rw [h2]; simp [Controller.emit]
  · simp [deliveryTimes, h3]
  · simp [countDeliveries, h4]

/-- What one `ELEMENT_VALUE` report does to the log and to the cooldown: either
no delivery, or one delivery at the clock value of the report, which is at
least 5000 ms after the cooldown stamp. -/
theorem onElementValue_delivery (fuel : Nat) (env : Env) (senderTabId : Option Nat)
    (value : JSValue) (w w1 : Controller)
    (h : onElementValue fuel env senderTabId value w = some w1) :
    ∃ extra : List Effect, w1.log = w.log ++ extra ∧
      ((deliveryTimes extra = [] ∧ countDeliveries extra = 0 ∧
          w1.runtimeState = w.runtimeState) ∨
        (deliveryTimes extra = [env.now] ∧ countDeliveries extra = 1 ∧
          w1.runtimeState = { w.runtimeState with lastNotificationAt := env.now } ∧
          w.runtimeState.lastNotificationAt + 5000 ≤ env.now)) := by
  unfold onElementValue at h
  split at h
  · simp only [Option.some.injEq] at h
    subst h
    exact ⟨_, rfl, Or.inl ⟨rfl, rfl, rfl⟩⟩
  · split at h
    · rename_i newValue
      dsimp only at h
      split at h
      · simp only [Option.some.injEq] at h
        subst h
        exact ⟨_, rfl, Or.inl ⟨rfl, rfl, rfl⟩⟩
      · rename_i previous hp
        simp only [Option.map_eq_some'] at h
        obtain ⟨v, hv, rfl⟩ := h
        cases hch : (if (w.storage.monitorConfig.getD DEFAULTS).increaseOnly = true then
            isIncreaseOnlyChange previous newValue else decide (newValue ≠ previous))
        · simp only [hch, Bool.false_eq_true, if_false, Option.some.injEq] at hv
          subst hv
          exact ⟨_, rfl, Or.inl ⟨rfl, rfl, rfl⟩⟩
        · simp only [hch, if_true] at hv
          unfold withNotificationDebounce at hv
          split at hv
          · simp only [Option.some.injEq] at hv
            subst hv
            exact ⟨_, rfl, Or.inl ⟨rfl, rfl, rfl⟩⟩
          · rename_i hnot
            obtain ⟨h1, extra, h2, h3, h4⟩ := sendNotifications_frame _ _ _ _ _ _ hv
            refine ⟨Effect.deliveryStarted env.now :: (extra ++ [Effect.sendResponse true none]),
              ?_, Or.inr ⟨?_, ?_, ?_, ?_⟩⟩
            · simp [Controller.emit, h2]
            · simp [deliveryTimes, deliveryTimes_append, h3]
            · simp [countDeliveries, countDeliveries_append, h4]
            · simp [Controller.emit, h1]
            · simp only [not_lt] at hnot
              omega
    · simp only [Option.some.injEq] at h
      subst h
      exact ⟨_, rfl, Or.inl ⟨rfl, rfl, rfl⟩⟩

theorem onElementValue_suppressed (fuel : Nat) (env : Env) (senderTabId : Option Nat)
    (value : JSValue) (w : Controller)
    (h : env.now - w.runtimeState.lastNotificationAt < 5000) :
    ∃ w1 : Controller, onElementValue fuel env senderTabId value w = some w1 ∧
      w1.log = w.log ++ [Effect.sendResponse true none] ∧
      w1.runtimeState = w.runtimeState := by
  unfold onElementValue
  split
  · exact ⟨_, rfl, rfl, rfl⟩
  · split
    · dsimp only
      split
      · exact ⟨_, rfl, rfl, rfl⟩
      · rename_i previous hp
        cases hch : (if (w.storage.monitorConfig.getD DEFAULTS).increaseOnly = true then
            isIncreaseOnlyChange previous _ else decide (_ ≠ previous))
        · simp only [hch, Bool.false_eq_true, if_false, Option.map_some']
          exact ⟨_, rfl, rfl, rfl⟩
        · simp only [hch, if_true, withNotificationDebounce, h, Option.map_some']
          exact ⟨_, rfl, rfl, rfl⟩
    · exact ⟨_, rfl, rfl, rfl⟩

theorem handleReports_deliveries (P : Platform) (fuel : Nat) :
    ∀ (rs : List Report) (w w1 : Controller), handleReports P fuel rs w = some w1 →
      ∃ extra : List Effect, w1.log = w.log ++ extra ∧
        List.Pairwise (fun a b => a + 5000 ≤ b) (deliveryTimes extra) ∧
        (∀ t ∈ deliveryTimes extra, w.runtimeState.lastNotificationAt + 5000 ≤ t) := by
  intro rs
  induction rs with
  | nil =>
    intro w w1 h
    simp only [handleReports, Option.some.injEq] at h
    subst h
    exact ⟨[], by simp, by simp [deliveryTimes], by simp [deliveryTimes]⟩
  | cons r rs ih =>
    intro w w1 h
    simp only [handleReports, onMessage] at h
    split at h
    · rename_i v hv
      obtain ⟨e1, h1, hcase⟩ := onElementValue_delivery _ _ _ _ _ _ hv
      obtain ⟨e2, h2, hp, hall⟩ := ih _ _ h
      refine ⟨e1 ++ e2, by rw [h2, h1, List.append_assoc], ?_, ?_⟩
      · rw [deliveryTimes_append]
        rcases hcase with ⟨a, -, c⟩ | ⟨a, -, c, d⟩
        · rw [a]; simpa using hp
        · rw [a]
          simp only [List.singleton_append, List.pairwise_cons]
          refine ⟨fun t ht => ?_, hp⟩
          have := hall t ht
          rw [c] at this
          exact this
      · intro t ht
        rw [deliveryTimes_append] at ht
        rcases hcase with ⟨a, -, c⟩ | ⟨a, -, c, d⟩
        · rw [a] at ht
          have := hall t (by simpa using ht)
          rw [c] at this
          exact this
        · rw [a] at ht
          rcases List.mem_append.mp ht with ht | ht
          · simp only [List.mem_singleton] at ht
            subst ht; exact d
          · have := hall t ht
            rw [c] at this
            simp only at this
            omega
    · simp at h

theorem orElse_string (s : JSString) (f : JSNumber → JSString) :
    ((JSValue.string s).orElse (JSValue.string [])).toJSString f = s := by
  cases s <;> simp [JSValue.orElse, JSValue.toBoolean, JSValue.toJSString]

theorem blank_text {v : JSValue} (h : Blank v) (f : JSNumber → JSString) :
    trim ((v.orElse (JSValue.string [])).toJSString f) = [] := by
  rcases h with rfl | rfl | ⟨s, rfl, hs⟩
  · rfl
  · rfl
  · rw [orElse_string]; exact hs

theorem max60 (a : JSNumber) (h : a ≠ JSNumber.nan) :
    JSNumber.max (JSNumber.finite 60) (a.orElse (JSNumber.finite 60)) =
      JSNumber.max (JSNumber.finite 60) a := by
  cases a with
  | nan => exact absurd rfl h
  | posInf => rfl
  | negInf => rfl
  | finite q =>
    by_cases hq : q = 0
    · subst hq; decide!
    · simp [JSNumber.orElse, JSNumber.truthy, hq]

theorem max1 (b : JSNumber) (h : b ≠ JSNumber.nan) :
    JSNumber.max (JSNumber.finite 1) (b.orElse (JSNumber.finite 1)) =
      JSNumber.max (JSNumber.finite 1) b := by
  cases b with
  | nan => exact absurd rfl h
  | posInf => rfl
  | negInf => rfl
  | finite q =>
    by_cases hq : q = 0
    · subst hq; decide!
    · simp [JSNumber.orElse, JSNumber.truthy, hq]

theorem clearRefreshTimer_storage (w : Controller) :
    (clearRefreshTimer w).storage = w.storage := by
  unfold clearRefreshTimer
  split
  · split <;> rfl
  · rfl

theorem stopMonitoring_runtimeState (reason : JSString) (w : Controller) :
    (stopMonitoring reason w).runtimeState = RuntimeState.initial := by
  unfold stopMonitoring
  simp only
  repeat' split
  all_goals simp [updateMonitoringState, setError, Controller.emit]

theorem stopMonitoring_lastError (reason : JSString) (w : Controller) :
    (stopMonitoring reason w).storage.lastError =
      if reason ≠ [] then some reason else w.storage.lastError := by
  unfold stopMonitoring
  simp only
  repeat' split
  all_goals simp [updateMonitoringState, setError, Controller.emit, clearRefreshTimer_storage]

/-! ## Lemmas on the page observer -/

namespace Content

theorem getNormalizedValue_fails {url selector : JSString} {env : PageEnv}
    (h : LookupFails url selector env) : getNormalizedValue env selector = none := by
  rcases h.2 with h | h <;> simp [getNormalizedValue, h]

theorem retrySchedule_succ (c k : Nat) :
    retrySchedule c (k + 1) =
      PageEffect.setTimeout (c + 1) TimerKind.retry 5000 :: retrySchedule (c + 1) k := by
  simp only [retrySchedule, List.range_succ_eq_map, List.map_cons, List.map_map, Nat.add_zero]
  congr 1
  apply List.map_congr_left
  intro j _
  simp only [Function.comp]
  congr 1
  omega

theorem fireTimer_retry (env : PageEnv) (q : Page) (t : PageTimer)
    (hact : q.monitorState.active = true) (hloc : env.location = q.monitorState.url)
    (hq : getNormalizedValue env q.monitorState.selector = none)
    (hr : q.monitorState.retryCount < 5) (ht : q.timers = [t]) :
    fireTimer env t.id q =
      { q with
        monitorState := { q.monitorState with
          retryCount := q.monitorState.retryCount + 1
          retryTimer := some (q.timerCount + 1) }
        timers := [{ id := q.timerCount + 1, kind := TimerKind.retry, due := env.now + 5000 }]
        timerCount := q.timerCount + 1
        log := q.log ++ [PageEffect.setTimeout (q.timerCount + 1) TimerKind.retry 5000] } := by
  have h5 : ¬ (5 ≤ q.monitorState.retryCount) := by omega
  simp [fireTimer, ht, postValue, hact, hloc, hq, retryElementSearch, h5, Page.setTimeout,
    Page.emit]

theorem fireTimer_exhausted (env : PageEnv) (q : Page) (t : PageTimer)
    (hact : q.monitorState.active = true) (hloc : env.location = q.monitorState.url)
    (hq : getNormalizedValue env q.monitorState.selector = none)
    (hr : 5 ≤ q.monitorState.retryCount) (ht : q.timers = [t]) :
    fireTimer env t.id q =
      { q with
        timers := []
        log := q.log ++ [PageEffect.sendMessage RuntimeMessage.elementNotFound] } := by
  simp [fireTimer, ht, postValue, hact, hloc, hq, retryElementSearch, hr, Page.emit]

theorem runTimers_no_timers (envs : List PageEnv) (q : Page) (h : q.timers = []) :
    runTimers envs q = q := by
  cases envs <;> simp [runTimers, h]

theorem runTimers_retry (url selector : JSString) :
    ∀ (envs : List PageEnv) (q : Page) (t : PageTimer),
      (∀ e ∈ envs, LookupFails url selector e) →
      q.monitorState.active = true → q.monitorState.url = url →
      q.monitorState.selector = selector → q.monitorState.retryCount ≤ 5 → q.timers = [t] →
      (q.monitorState.retryCount + envs.length ≤ 5 →
        (runTimers envs q).monitorState.retryCount = q.monitorState.retryCount + envs.length ∧
        (runTimers envs q).timers.length = 1 ∧
        (runTimers envs q).log = q.log ++ retrySchedule q.timerCount envs.length) ∧
      (5 < q.monitorState.retryCount + envs.length →
        (runTimers envs q).monitorState.retryCount = 5 ∧
        (runTimers envs q).timers = [] ∧
        (runTimers envs q).log = q.log ++ retrySchedule q.timerCount (5 - q.monitorState.retryCount)
          ++ [PageEffect.sendMessage RuntimeMessage.elementNotFound]) := by
  intro envs
  induction envs with
  | nil =>
    intro q t _ _ _ _ h5 ht
    refine ⟨fun _ => ⟨rfl, by simp [runTimers, ht], by simp [runTimers, retrySchedule]⟩, ?_⟩
    intro h; simp at h; omega
  | cons e es ih =>
    intro q t hall hact hurl hsel h5 ht
    have he := hall e (List.mem_cons_self _ _)
    have hloc : e.location = q.monitorState.url := by rw [hurl]; exact he.1
    have hq : getNormalizedValue e q.monitorState.selector = none := by
      rw [hsel]; exact getNormalizedValue_fails he
    have hrun : runTimers (e :: es) q = runTimers es (fireTimer e t.id q) := by
      simp [runTimers, ht]
    rw [hrun]
    by_cases hr : q.monitorState.retryCount < 5
    · have hf := fireTimer_retry e q t hact hloc hq hr ht
      have fact : (fireTimer e t.id q).monitorState.active = true := by rw [hf]; exact hact
      have furl : (fireTimer e t.id q).monitorState.url = url := by rw [hf]; exact hurl
      have fsel : (fireTimer e t.id q).monitorState.selector = selector := by rw [hf]; exact hsel
      have frc : (fireTimer e t.id q).monitorState.retryCount = q.monitorState.retryCount + 1 := by
        rw [hf]
      have ftm : (fireTimer e t.id q).timers =
          [{ id := q.timerCount + 1, kind := TimerKind.retry, due := e.now + 5000 }] := by rw [hf]
      have ftc : (fireTimer e t.id q).timerCount = q.timerCount + 1 := by rw [hf]
      have flog : (fireTimer e t.id q).log =
          q.log ++ [PageEffect.setTimeout (q.timerCount + 1) TimerKind.retry 5000] := by rw [hf]
      obtain ⟨ih1, ih2⟩ := ih (fireTimer e t.id q) _
        (fun e' he' => hall e' (List.mem_cons_of_mem _ he')) fact furl fsel
        (by rw [frc]; omega) ftm
      rw [frc, ftc, flog] at ih1 ih2
      simp only [List.length_cons] at ih1 ih2 ⊢
      refine ⟨fun h => ?_, fun h => ?_⟩
      · obtain ⟨a, b, c⟩ := ih1 (by omega)
        refine ⟨by rw [a]; omega, b, ?_⟩
        rw [c, retrySchedule_succ]; simp
      · obtain ⟨a, b, c⟩ := ih2 (by omega)
        refine ⟨a, b, ?_⟩
        rw [c]
        have : 5 - q.monitorState.retryCount = (5 - (q.monitorState.retryCount + 1)) + 1 := by omega
        rw [this, retrySchedule_succ]; simp
    · have hr5 : 5 ≤ q.monitorState.retryCount := by omega
      rw [fireTimer_exhausted e q t hact hloc hq hr5 ht, runTimers_no_timers _ _ rfl]
      refine ⟨fun h => ?_, fun _ => ⟨?_, rfl, ?_⟩⟩
      · simp only [List.length_cons] at h; omega
      · show q.monitorState.retryCount = 5
        omega
      · have : 5 - q.monitorState.retryCount = 0 := by omega
        simp [this, retrySchedule]

theorem cleanup_monitorState (p : Page) :
    (cleanup p).timerCount = p.timerCount ∧ (cleanup p).monitorState.retryCount = p.monitorState.retryCount := by
  unfold cleanup
  simp only
  repeat' split
  all_goals simp [Page.clearTimeout, Page.emit]

theorem startMonitoring_lookup_fails (payload : StartPayload) (env0 : PageEnv) (p : Page)
    (hp : (cleanup p).timers = [])
    (h0 : LookupFails payload.url payload.selector env0) :
    (Content.startMonitoring env0 payload p).monitorState.active = true ∧
    (Content.startMonitoring env0 payload p).monitorState.url = payload.url ∧
    (Content.startMonitoring env0 payload p).monitorState.selector = payload.selector ∧
    (Content.startMonitoring env0 payload p).monitorState.retryCount = 1 ∧
    (Content.startMonitoring env0 payload p).timers =
      [{ id := p.timerCount + 1, kind := TimerKind.retry, due := env0.now + 5000 }] ∧
    (Content.startMonitoring env0 payload p).timerCount = p.timerCount + 1 ∧
    (Content.startMonitoring env0 payload p).log =
      (cleanup p).log ++ [PageEffect.setTimeout (p.timerCount + 1) TimerKind.retry 5000] := by
  have hq := getNormalizedValue_fails h0
  have hloc := h0.1
  have htc := (cleanup_monitorState p).1
  cases hm : payload.mode <;>
    simp [Content.startMonitoring, hloc, hm, startObserver, postValue, hq, retryElementSearch,
      Page.setTimeout, Page.emit, hp, htc]

end Content

/-! ## The claims -/

/-- Claim C1, evaluated on the code: a second session started after a first one
has stored the value `5` still finds that value in storage (monitoring is on,
the tab is bound, nothing has been delivered yet), and its first accepted
report `6` is compared with it and triggers a delivery: `sendNotifications` is
invoked once and raises the two alerts of the configuration, instead of only
recording the value as the baseline. -/
theorem first_report_of_second_session_notifies :
    secondStart.map (fun w => (w.runtimeState.monitoring, w.runtimeState.tabId,
      w.storage.lastValue, countDeliveries w.log)) = some (true, some 7, some "5".toList, 0) ∧
    secondSessionFirstReport.map (fun w => (w.storage.lastValue, countDeliveries w.log,
      countAlerts w.log)) = some (some "6".toList, 1, 2) := by
  constructor <;> decide!

/-- Claim C2: for all strings `oldValue` and `newValue`, `isIncreaseOnlyChange`
is true exactly when both convert to finite numbers and the new number is
greater than the old one, or at least one does not convert to a finite number
and the two strings differ; `10` then `7` gives false and `10` then `15` gives
true. -/
theorem isIncreaseOnlyChange_spec :
    (∀ oldValue newValue : JSString,
      isIncreaseOnlyChange oldValue newValue = true ↔
        ((∃ a b : ℚ, stringToNumber oldValue = JSNumber.finite a ∧
            stringToNumber newValue = JSNumber.finite b ∧ a < b) ∨
          (¬ ((stringToNumber oldValue).isFinite = true ∧
              (stringToNumber newValue).isFinite = true) ∧ newValue ≠ oldValue))) ∧
    stringToNumber "10".toList = JSNumber.finite 10 ∧
    stringToNumber "7".toList = JSNumber.finite 7 ∧
    stringToNumber "15".toList = JSNumber.finite 15 ∧
    isIncreaseOnlyChange "10".toList "7".toList = false ∧
    isIncreaseOnlyChange "10".toList "15".toList = true := by
  refine ⟨?_, by decide!, by decide!, by decide!, by decide!, by decide!⟩
  intro oldValue newValue
  unfold isIncreaseOnlyChange
  cases ho : stringToNumber oldValue <;> cases hn : stringToNumber newValue <;>
    simp [JSNumber.isFinite, JSNumber.gt, JSNumber.lt]

/-- Claim C3: when a report is delivered at clock value `t1` and another report
of the same session is handled at `t2` with `t1 ≤ t2` and `t2 - t1 < 5000`, the
second is suppressed (only its response is logged, the state is unchanged), so
that exactly one delivery has happened; and in every sequence of reports of a
session any two deliveries are at least 5000 ms apart. -/
theorem notification_debounce (P : Platform) (fuel : Nat) :
    (∀ (r1 r2 : Report) (w w1 : Controller),
      onMessage P fuel r1.env (Message.elementValue r1.value) r1.senderTabId w = some w1 →
      deliveryTimes w1.log = deliveryTimes w.log ++ [r1.env.now] →
      r1.env.now ≤ r2.env.now → r2.env.now - r1.env.now < 5000 →
      countDeliveries w1.log = countDeliveries w.log + 1 ∧
      ∃ w2 : Controller,
        onMessage P fuel r2.env (Message.elementValue r2.value) r2.senderTabId w1 = some w2 ∧
        w2.log = w1.log ++ [Effect.sendResponse true none] ∧
        deliveryTimes w2.log = deliveryTimes w.log ++ [r1.env.now] ∧
        countDeliveries w2.log = countDeliveries w.log + 1 ∧
        w2.runtimeState = w1.runtimeState) ∧
    (∀ (rs : List Report) (w w1 : Controller), handleReports P fuel rs w = some w1 →
      ∃ extra : List Effect, w1.log = w.log ++ extra ∧
        List.Pairwise (fun a b => a + 5000 ≤ b) (deliveryTimes extra)) := by
  refine ⟨?_, ?_⟩
  · intro r1 r2 w w1 h hd hle hlt
    simp only [onMessage] at h ⊢
    obtain ⟨extra, h1, hcase⟩ := onElementValue_delivery _ _ _ _ _ _ h
    rw [h1, deliveryTimes_append] at hd
    rcases hcase with ⟨a, -, -⟩ | ⟨a, b, c, d⟩
    · rw [a] at hd; simp at hd
    · have hlast : w1.runtimeState.lastNotificationAt = r1.env.now := by rw [c]
      obtain ⟨w2, g1, g2, g3⟩ := onElementValue_suppressed fuel r2.env r2.senderTabId r2.value w1
        (by rw [hlast]; exact hlt)
      refine ⟨by rw [h1, countDeliveries_append, b], w2, g1, g2, ?_, ?_, g3⟩
      · rw [g2, deliveryTimes_append, h1, deliveryTimes_append, a]; simp [deliveryTimes]
      · rw [g2, countDeliveries_append, h1, countDeliveries_append, b]; simp [countDeliveries]
  · intro rs w w1 h
    obtain ⟨extra, h1, h2, -⟩ := handleReports_deliveries P fuel rs w w1 h
    exact ⟨extra, h1, h2⟩

/-- Witness of claim C3: in a running session with baseline `5`, the report `6`
at clock value 1000000 is delivered and the report `7`, 3000 ms later, is
suppressed. -/
theorem notification_debounce_witness :
    (countDeliveries demoAfterFirst.log = countDeliveries demoSession.log + 1 ∧
      ∃ w2 : Controller,
        onMessage demoPlatform 10 (demoReport 1003000 "7".toList).env
          (Message.elementValue (demoReport 1003000 "7".toList).value)
          (demoReport 1003000 "7".toList).senderTabId demoAfterFirst = some w2 ∧
        w2.log = demoAfterFirst.log ++ [Effect.sendResponse true none] ∧
        deliveryTimes w2.log =
          deliveryTimes demoSession.log ++ [(demoReport 1000000 "6".toList).env.now] ∧
        countDeliveries w2.log = countDeliveries demoSession.log + 1 ∧
        w2.runtimeState = demoAfterFirst.runtimeState) ∧
    (∃ extra : List Effect, demoAfterSecond.log = demoSession.log ++ extra ∧
      List.Pairwise (fun a b => a + 5000 ≤ b) (deliveryTimes extra)) :=
  ⟨(notification_debounce demoPlatform 10).1 (demoReport 1000000 "6".toList)
      (demoReport 1003000 "7".toList) demoSession demoAfterFirst
      (by decide!) (by decide!) (by decide) (by decide),
    (notification_debounce demoPlatform 10).2
      [demoReport 1000000 "6".toList, demoReport 1003000 "7".toList] demoSession demoAfterSecond
      (by decide!)⟩

/-- Claim C4: `normalizeValue` returns a string for every raw text. When the
trimmed text contains a numeric token (a substring that is an optionally signed
decimal numeral with one optional decimal part once its commas are removed),
the result is that substring with the commas stripped, and it is the first
token taken whole: no digit stands before it, a minus sign that stands right
before its digits is part of it, no digit follows it, and when a dot and a
digit follow its digits they are its decimal part. These conditions determine
the token: every substring of the trimmed text that meets them is the result
once its commas are removed. Otherwise the result is the trimmed text.
`$1,234.50 USD` gives `1234.50` and `In Stock` gives `In Stock`; the sign and
the decimal part are kept (`-5` gives `-5`, `1.5` gives `1.5`), and only one
decimal part is (`v1.2.3` gives `1.2`). -/
theorem normalizeValue_spec :
    (∀ rawText : JSString,
      (ContainsNumericToken (trim rawText) →
        ∃ pre tok post : JSString, trim rawText = pre ++ tok ++ post ∧
          NumericToken (stripCommas tok) ∧ normalizeValue rawText = stripCommas tok ∧
          (∀ c ∈ pre, isDigit c = false) ∧
          (∀ c r, stripCommas post = c :: r → isDigit c = false) ∧
          ((stripCommas pre).getLast? = some '-' → ∃ r, stripCommas tok = '-' :: r) ∧
          ((∀ c ∈ stripCommas tok, c ≠ '.') →
            ∀ c r, stripCommas post = '.' :: c :: r → isDigit c = false)) ∧
      (∀ pre tok post : JSString, trim rawText = pre ++ tok ++ post →
        NumericToken (stripCommas tok) →
        (∀ c ∈ pre, isDigit c = false) →
        (∀ c r, stripCommas post = c :: r → isDigit c = false) →
        ((stripCommas pre).getLast? = some '-' → ∃ r, stripCommas tok = '-' :: r) →
        ((∀ c ∈ stripCommas tok, c ≠ '.') →
          ∀ c r, stripCommas post = '.' :: c :: r → isDigit c = false) →
        normalizeValue rawText = stripCommas tok) ∧
      (¬ ContainsNumericToken (trim rawText) → normalizeValue rawText = trim rawText)) ∧
    normalizeValue "$1,234.50 USD".toList = "1234.50".toList ∧
    normalizeValue "In Stock".toList = "In Stock".toList ∧
    normalizeValue "-5".toList = "-5".toList ∧
    normalizeValue "1.5".toList = "1.5".toList ∧
    normalizeValue "v1.2.3".toList = "1.2".toList := by
  refine ⟨fun rawText => ⟨?_, ?_, ?_⟩, by decide, by decide, by decide, by decide, by decide⟩
  · intro hc
    rw [containsNumericToken_iff] at hc
    obtain ⟨c, hc, hd⟩ := hc
    cases hfm : firstMatch (stripCommas (trim rawText)) with
    | none =>
      have := firstMatch_eq_none hfm c
        (List.mem_filter.mpr ⟨hc, by simpa using isDigit_ne_comma hd⟩)
      rw [hd] at this
      exact absurd this (by decide)
    | some m =>
      obtain ⟨pre', post', hs, htok, hpre, hpost, hsign, hfrac⟩ := firstMatch_eq_some_whole hfm
      have hs' : stripCommas (trim rawText) = pre' ++ (m ++ post') := by
        rw [hs, List.append_assoc]
      obtain ⟨pre, rest, h1, h2, h3⟩ := List.filter_eq_append_iff.mp hs'
      obtain ⟨tok, post, h4, h5, h6⟩ := List.filter_eq_append_iff.mp h3
      refine ⟨pre, tok, post, by rw [h1, h4, List.append_assoc], ?_, ?_, ?_, ?_, ?_, ?_⟩
      · show NumericToken (List.filter _ tok)
        rw [h5]; exact htok
      · show normalizeValue rawText = List.filter _ tok
        rw [h5]
        simp only [normalizeValue, hfm]
      · intro c hc
        by_contra hd
        simp only [Bool.not_eq_false] at hd
        have : c ∈ pre' := by
          rw [← h2]
          exact List.mem_filter.mpr ⟨hc, by simpa using isDigit_ne_comma hd⟩
        rw [hpre c this] at hd
        exact absurd hd (by decide)
      · intro c r hcr
        exact hpost c r (by rw [← h6]; exact hcr)
      · show (List.filter _ pre).getLast? = some '-' → ∃ r, List.filter _ tok = '-' :: r
        rw [h2, h5]; exact hsign
      · show (∀ c ∈ List.filter _ tok, c ≠ '.') →
          ∀ c r, List.filter _ post = '.' :: c :: r → isDigit c = false
        rw [h5, h6]; exact hfrac
  · intro pre tok post hs htok hpre hpost hsign hfrac
    have hs' : stripCommas (trim rawText) =
        stripCommas pre ++ stripCommas tok ++ stripCommas post := by
      rw [hs]; simp [stripCommas]
    have hfm := firstMatch_exact (stripCommas tok) (stripCommas post) htok hpost hfrac
      (stripCommas pre) (fun c hc => hpre c (List.mem_filter.mp hc).1) hsign
    rw [← hs'] at hfm
    simp only [normalizeValue, hfm]
  · intro hc
    rw [containsNumericToken_iff] at hc
    cases hfm : firstMatch (stripCommas (trim rawText)) with
    | none => simp only [normalizeValue, hfm]
    | some m =>
      exfalso
      obtain ⟨pre', post', hs, htok, -, -⟩ := firstMatch_eq_some hfm
      obtain ⟨c, hc', hd⟩ := htok.exists_digit
      apply hc
      refine ⟨c, ?_, hd⟩
      have : c ∈ stripCommas (trim rawText) := by rw [hs]; simp [hc']
      exact (List.mem_filter.mp this).1

/-- Witness of claim C4: the text `$1,234.50 USD` contains the numeric token
`1,234.50`; in ` x-1,234.50 USD` the substring `-1,234.50` is the first token
taken whole, so the result is `-1234.50`; and `In Stock` contains no token. -/
theorem normalizeValue_spec_witness :
    (∃ pre tok post : JSString, trim "$1,234.50 USD".toList = pre ++ tok ++ post ∧
      NumericToken (stripCommas tok) ∧
      normalizeValue "$1,234.50 USD".toList = stripCommas tok ∧
      (∀ c ∈ pre, isDigit c = false) ∧
      (∀ c r, stripCommas post = c :: r → isDigit c = false) ∧
      ((stripCommas pre).getLast? = some '-' → ∃ r, stripCommas tok = '-' :: r) ∧
      ((∀ c ∈ stripCommas tok, c ≠ '.') →
        ∀ c r, stripCommas post = '.' :: c :: r → isDigit c = false)) ∧
    normalizeValue " x-1,234.50 USD".toList = "-1234.50".toList ∧
    normalizeValue "In Stock".toList = trim "In Stock".toList :=
  ⟨(normalizeValue_spec.1 "$1,234.50 USD".toList).1
      ⟨"$".toList, "1,234.50".toList, " USD".toList, by decide,
        [], "1234".toList, "50".toList, Or.inl rfl, by decide, by decide, by decide,
        Or.inr ⟨by decide, by decide⟩⟩,
    (normalizeValue_spec.1 " x-1,234.50 USD".toList).2.1
      "x".toList "-1,234.50".toList " USD".toList (by decide)
      ⟨"-".toList, "1234".toList, "50".toList, Or.inr rfl, by decide, by decide, by decide,
        Or.inr ⟨by decide, by decide⟩⟩
      (by decide)
      (fun c r h => by
        have e : stripCommas " USD".toList = ' ' :: "USD".toList := by decide
        rw [e] at h
        rw [← (List.cons.inj h).1]
        decide)
      (fun h => absurd h (by decide))
      (fun h => absurd rfl (h '.' (by decide))),
    (normalizeValue_spec.1 "In Stock".toList).2.2
      (fun h => by
        rw [containsNumericToken_iff] at h
        revert h
        decide)⟩

/-- Counterexample to claim C5: on a raw configuration with a valid URL, a
selector and the numeric delay `0`, `normalizeConfig` returns the delay `5`,
whereas `max(1, 0)` is `1`. -/
theorem normalizeConfig_zero_delay :
    (normalizeConfig demoPlatform (demoRaw (JSNumber.finite 0))).toOption.map
        (fun c => c.notificationDelaySeconds) = some (JSNumber.finite 5) ∧
    JSNumber.max (JSNumber.finite 1) (JSNumber.finite 0) = JSNumber.finite 1 := by
  constructor <;> decide!

/-- Claim C5 as amended: for every raw configuration whose URL is a string
that the platform parses as an http or https URL, whose selector is a string
that is not blank, and whose three numeric options are numbers `a`, `b`, `c`,
`normalizeConfig` does not reject and returns `max(60, a)` for the refresh
interval, `min(5, max(1, b))` for the repeat count and `max(1, c)` for the
delay, except that a `NaN` option takes its default (60, 1, 5) and that the
delay `0` becomes the default 5. -/
theorem normalizeConfig_clamps (P : Platform) (input : RawConfig) (u sel : JSString)
    (parsed : URLRecord) (a b c : JSNumber)
    (hurl : input.url = JSValue.string u) (hparse : P.parseURL (trim u) = some parsed)
    (hproto : parsed.protocol = "http:".toList ∨ parsed.protocol = "https:".toList)
    (hu : trim u ≠ [])
    (hsel : input.selector = JSValue.string sel) (hs : trim sel ≠ [])
    (ha : input.refreshIntervalSeconds = JSValue.number a)
    (hb : input.notificationRepeatCount = JSValue.number b)
    (hc : input.notificationDelaySeconds = JSValue.number c) :
    ∃ config : MonitorConfig, normalizeConfig P input = Except.ok config ∧
      config.url = parsed.href ∧ config.selector = trim sel ∧
      config.refreshIntervalSeconds =
        (if a = JSNumber.nan then JSNumber.finite 60 else JSNumber.max (JSNumber.finite 60) a) ∧
      config.notificationRepeatCount =
        (if b = JSNumber.nan then JSNumber.finite 1
         else JSNumber.min (JSNumber.finite 5) (JSNumber.max (JSNumber.finite 1) b)) ∧
      config.notificationDelaySeconds =
        (if c = JSNumber.nan ∨ c = JSNumber.finite 0 then JSNumber.finite 5
         else JSNumber.max (JSNumber.finite 1) c) := by
  unfold normalizeConfig
  simp only [hurl, hsel, ha, hb, hc, orElse_string, JSValue.toNumber, hu, hs, or_self, if_false,
    hparse, hproto, not_true_eq_false]
  refine ⟨_, rfl, rfl, rfl, ?_, ?_, ?_⟩
  · by_cases h : a = JSNumber.nan
    · subst h; simp; decide!
    · simp only [h, if_false]; exact max60 a h
  · by_cases h : b = JSNumber.nan
    · subst h; simp; decide!
    · simp only [h, if_false]; rw [max1 b h]
  · by_cases h : c = JSNumber.nan
    · subst h; simp; decide!
    · by_cases h0 : c = JSNumber.finite 0
      · subst h0; simp; decide!
      · simp only [h, h0, or_self, if_false]
        have : c.truthy = true := by
          cases c with
          | nan => exact absurd rfl h
          | posInf => rfl
          | negInf => rfl
          | finite q =>
            have : q ≠ 0 := fun hq => h0 (by rw [hq])
            simp [JSNumber.truthy, this]
        simp [JSNumber.orElse, this]

/-- Witness of claim C5 as amended: the options 60, 2 and one half on the
address `demoUrl`. -/
theorem normalizeConfig_clamps_witness :
    ∃ config : MonitorConfig,
      normalizeConfig demoPlatform (demoRaw (JSNumber.finite (1 / 2))) = Except.ok config ∧
      config.url = demoUrl ∧ config.selector = trim "#price".toList ∧
      config.refreshIntervalSeconds =
        (if JSNumber.finite 60 = JSNumber.nan then JSNumber.finite 60
         else JSNumber.max (JSNumber.finite 60) (JSNumber.finite 60)) ∧
      config.notificationRepeatCount =
        (if JSNumber.finite 2 = JSNumber.nan then JSNumber.finite 1
         else JSNumber.min (JSNumber.finite 5) (JSNumber.max (JSNumber.finite 1) (JSNumber.finite 2))) ∧
      config.notificationDelaySeconds =
        (if JSNumber.finite (1 / 2) = JSNumber.nan ∨ JSNumber.finite (1 / 2) = JSNumber.finite 0
         then JSNumber.finite 5
         else JSNumber.max (JSNumber.finite 1) (JSNumber.finite (1 / 2))) :=
  normalizeConfig_clamps demoPlatform (demoRaw (JSNumber.finite (1 / 2))) demoUrl "#price".toList
    { protocol := "https:".toList, host := "example.com".toList, href := demoUrl }
    (JSNumber.finite 60) (JSNumber.finite 2) (JSNumber.finite (1 / 2))
    rfl (by decide) (Or.inr rfl) (by decide) rfl (by decide) rfl rfl rfl

/-- Claim C6: for every raw configuration whose URL or selector is missing,
empty or made of white space only, `normalizeConfig` fails, `startMonitoring`
throws with the controller exactly as before the call, and after the listener
has handled the message the runtime state, the persisted configuration, the
persisted session state, the last value and the pending timers are unchanged
(the listener only records the error message and responds). -/
theorem startMonitoring_blank_fails (P : Platform) (env : Env) (fuel : Nat)
    (senderTabId : Option Nat) (rawConfig : RawConfig) (w : Controller)
    (h : Blank rawConfig.url ∨ Blank rawConfig.selector) :
    normalizeConfig P rawConfig = Except.error "URL and CSS selector are required.".toList ∧
    startMonitoring P env rawConfig w = (w, some "URL and CSS selector are required.".toList) ∧
    ∃ w1 : Controller,
      onMessage P fuel env (Message.startFromPopup rawConfig) senderTabId w = some w1 ∧
      w1.runtimeState = w.runtimeState ∧
      w1.storage.monitorConfig = w.storage.monitorConfig ∧
      w1.storage.monitorState = w.storage.monitorState ∧
      w1.storage.lastValue = w.storage.lastValue ∧
      w1.timers = w.timers ∧
      w1.log = w.log ++ [Effect.sendResponse false
        (some "URL and CSS selector are required.".toList)] := by
  have hn : normalizeConfig P rawConfig =
      Except.error "URL and CSS selector are required.".toList := by
    unfold normalizeConfig
    rcases h with h | h
    · simp [blank_text h]
    · simp [blank_text h]
  have hst : startMonitoring P env rawConfig w =
      (w, some "URL and CSS selector are required.".toList) := by
    simp [startMonitoring, hn]
  refine ⟨hn, hst, ?_⟩
  simp only [onMessage, hst]
  refine ⟨_, rfl, ?_⟩
  simp [setError, Controller.emit]

/-- Witness of claim C6: a URL made of two spaces. -/
theorem startMonitoring_blank_fails_witness :
    normalizeConfig demoPlatform { demoRaw (JSNumber.finite 1) with url := JSValue.string "  ".toList } =
      Except.error "URL and CSS selector are required.".toList ∧
    startMonitoring demoPlatform (demoEnv 0)
      { demoRaw (JSNumber.finite 1) with url := JSValue.string "  ".toList } Controller.initial =
      (Controller.initial, some "URL and CSS selector are required.".toList) ∧
    ∃ w1 : Controller,
      onMessage demoPlatform 1 (demoEnv 0) (Message.startFromPopup
        { demoRaw (JSNumber.finite 1) with url := JSValue.string "  ".toList }) none
        Controller.initial = some w1 ∧
      w1.runtimeState = Controller.initial.runtimeState ∧
      w1.storage.monitorConfig = Controller.initial.storage.monitorConfig ∧
      w1.storage.monitorState = Controller.initial.storage.monitorState ∧
      w1.storage.lastValue = Controller.initial.storage.lastValue ∧
      w1.timers = Controller.initial.timers ∧
      w1.log = Controller.initial.log ++ [Effect.sendResponse false
        (some "URL and CSS selector are required.".toList)] :=
  startMonitoring_blank_fails demoPlatform (demoEnv 0) 1 none
    { demoRaw (JSNumber.finite 1) with url := JSValue.string "  ".toList } Controller.initial
    (Or.inl (Or.inr (Or.inr ⟨"  ".toList, rfl, by decide⟩)))

/-- Claim C7: when the selector is never resolvable on a page whose location is
the bound URL, the observer started by `START_MONITOR` (with no stray timeout
pending) schedules a first retry, then one more at each expiry, five in all;
the fifth expiry sends `ELEMENT_NOT_FOUND` and schedules nothing, so that no
timeout is pending any more; the retry counter never exceeds 5; and the
controller, on `ELEMENT_NOT_FOUND`, records a non-empty last error and is left
with monitoring off. -/
theorem retries_exhausted (payload : Content.StartPayload) (env0 : Content.PageEnv)
    (envs : List Content.PageEnv) (p : Content.Page) (P : Platform) (fuel : Nat) (env : Env)
    (senderTabId : Option Nat) (w : Controller)
    (hp : (Content.cleanup p).timers = [])
    (h0 : Content.LookupFails payload.url payload.selector env0)
    (hall : ∀ e ∈ envs, Content.LookupFails payload.url payload.selector e) :
    (Content.runTimers envs (Content.startMonitoring env0 payload p)).monitorState.retryCount ≤ 5 ∧
    (envs.length < 5 →
      (Content.runTimers envs (Content.startMonitoring env0 payload p)).monitorState.retryCount =
        envs.length + 1 ∧
      (Content.runTimers envs (Content.startMonitoring env0 payload p)).timers.length = 1 ∧
      (Content.runTimers envs (Content.startMonitoring env0 payload p)).log =
        (Content.cleanup p).log ++ Content.retrySchedule p.timerCount (envs.length + 1)) ∧
    (5 ≤ envs.length →
      (Content.runTimers envs (Content.startMonitoring env0 payload p)).monitorState.retryCount = 5 ∧
      (Content.runTimers envs (Content.startMonitoring env0 payload p)).timers = [] ∧
      (Content.runTimers envs (Content.startMonitoring env0 payload p)).log =
        (Content.cleanup p).log ++ Content.retrySchedule p.timerCount 5 ++
          [Content.PageEffect.sendMessage Content.RuntimeMessage.elementNotFound]) ∧
    (∃ w1 : Controller,
      onMessage P fuel env Message.elementNotFound senderTabId w = some w1 ∧
      w1.runtimeState.monitoring = false ∧
      w1.storage.lastError =
        some "Element not found after 5 retries. Monitoring stopped.".toList ∧
      w1.storage.lastError ≠ some [] ∧ w1.storage.lastError ≠ none) := by
  obtain ⟨a1, a2, a3, a4, a5, a6, a7⟩ :=
    Content.startMonitoring_lookup_fails payload env0 p hp h0
  obtain ⟨r1, r2⟩ := Content.runTimers_retry payload.url payload.selector envs
    (Content.startMonitoring env0 payload p) _ hall a1 a2 a3 (by rw [a4]; omega) a5
  rw [a4, a6, a7] at r1 r2
  have hsched : ∀ k,
      [Content.PageEffect.setTimeout (p.timerCount + 1) Content.TimerKind.retry 5000] ++
        Content.retrySchedule (p.timerCount + 1) k = Content.retrySchedule p.timerCount (k + 1) := by
    intro k; rw [Content.retrySchedule_succ]; rfl
  refine ⟨?_, ?_, ?_, ?_⟩
  · by_cases h : 1 + envs.length ≤ 5
    · rw [(r1 h).1]; exact h
    · rw [(r2 (by omega)).1]
  · intro h
    obtain ⟨b1, b2, b3⟩ := r1 (by omega)
    refine ⟨by rw [b1]; omega, b2, ?_⟩
    rw [b3, List.append_assoc, hsched]
  · intro h
    obtain ⟨b1, b2, b3⟩ := r2 (by omega)
    refine ⟨b1, b2, ?_⟩
    rw [b3, List.append_assoc ((Content.cleanup p).log), hsched]
  · have hl : (stopMonitoring []
        (setError "Element not found after 5 retries. Monitoring stopped.".toList w)).storage.lastError =
        some "Element not found after 5 retries. Monitoring stopped.".toList := by
      rw [stopMonitoring_lastError]; rfl
    refine ⟨_, rfl, ?_, hl, ?_, ?_⟩
    · show (stopMonitoring [] _).runtimeState.monitoring = false
      rw [stopMonitoring_runtimeState]; rfl
    · show (stopMonitoring [] _).storage.lastError ≠ some []
      rw [hl]; decide
    · show (stopMonitoring [] _).storage.lastError ≠ none
      rw [hl]; simp

/-- Witness of claim C7: a freshly loaded content script on a page where no
selector resolves, and five expiries: five retries are scheduled and then
`ELEMENT_NOT_FOUND` is sent. -/
theorem retries_exhausted_witness :
    (Content.runTimers [demoPageEnv 5000, demoPageEnv 10000, demoPageEnv 15000,
      demoPageEnv 20000, demoPageEnv 25000]
      (Content.startMonitoring (demoPageEnv 0)
        { url := demoUrl, selector := "#price".toList, mode := Mode.live }
        Content.Page.initial)).log =
      [Content.PageEffect.setTimeout 1 Content.TimerKind.retry 5000,
       Content.PageEffect.setTimeout 2 Content.TimerKind.retry 5000,
       Content.PageEffect.setTimeout 3 Content.TimerKind.retry 5000,
       Content.PageEffect.setTimeout 4 Content.TimerKind.retry 5000,
       Content.PageEffect.setTimeout 5 Content.TimerKind.retry 5000,
       Content.PageEffect.sendMessage Content.RuntimeMessage.elementNotFound] :=
  ((retries_exhausted { url := demoUrl, selector := "#price".toList, mode := Mode.live }
    (demoPageEnv 0)
    [demoPageEnv 5000, demoPageEnv 10000, demoPageEnv 15000, demoPageEnv 20000, demoPageEnv 25000]
    Content.Page.initial demoPlatform 1 (demoEnv 0) (some 7) Controller.initial rfl
    ⟨rfl, Or.inl rfl⟩
    (fun e he => by
      simp only [List.mem_cons, List.mem_singleton, List.not_mem_nil, or_false] at he
      rcases he with rfl | rfl | rfl | rfl | rfl <;> exact ⟨rfl, Or.inl rfl⟩)).2.2.1
    (by decide)).2.2

/-- Claim C8: an `ELEMENT_VALUE` message that arrives while monitoring is off,
or whose sender is not the bound tab, is discarded: the storage (with the last
value), the runtime state (with the cooldown stamp) and the timers are
unchanged, and the only effect is the response, so nothing is delivered. -/
theorem foreign_report_discarded (P : Platform) (fuel : Nat) (env : Env)
    (senderTabId : Option Nat) (value : JSValue) (w : Controller)
    (h : w.runtimeState.monitoring = false ∨
      ∀ n : Nat, ¬ (senderTabId = some n ∧ w.runtimeState.tabId = some n)) :
    ∃ w1 : Controller,
      onMessage P fuel env (Message.elementValue value) senderTabId w = some w1 ∧
      w1.storage = w.storage ∧ w1.runtimeState = w.runtimeState ∧ w1.timers = w.timers ∧
      w1.log = w.log ++ [Effect.sendResponse true none] := by
  have hd : (!w.runtimeState.monitoring || senderDiffers senderTabId w.runtimeState.tabId) = true := by
    rcases h with h | h
    · simp [h]
    · have : senderDiffers senderTabId w.runtimeState.tabId = true := by
        cases hs : senderTabId with
        | none => cases w.runtimeState.tabId <;> rfl
        | some a =>
          cases ht : w.runtimeState.tabId with
          | none => rfl
          | some b =>
            have hab : a ≠ b := fun hab => h a ⟨hs, by rw [ht, hab]⟩
            simpa [senderDiffers] using hab
      simp [this]
  refine ⟨w.emit (Effect.sendResponse true none), ?_, rfl, rfl, rfl, rfl⟩
  simp only [onMessage, onElementValue, hd, if_true]

/-- Witness of claim C8: a report from tab 8 while tab 7 is bound. -/
theorem foreign_report_discarded_witness :
    ∃ w1 : Controller,
      onMessage demoPlatform 1 (demoEnv 0) (Message.elementValue (JSValue.string "9".toList))
        (some 8) demoSession = some w1 ∧
      w1.storage = demoSession.storage ∧ w1.runtimeState = demoSession.runtimeState ∧
      w1.timers = demoSession.timers ∧
      w1.log = demoSession.log ++ [Effect.sendResponse true none] :=
  foreign_report_discarded demoPlatform 1 (demoEnv 0) (some 8) (JSValue.string "9".toList)
    demoSession
    (Or.inr (fun n h => by
      have h1 : (8 : Nat) = n := Option.some.inj h.1
      have h2 : (7 : Nat) = n := Option.some.inj h.2
      omega))

/-- Claim C9: for every controller and reasons `r1`, `r2`, the second of two
calls of `stopMonitoring` in a row leaves the runtime state, the persisted
session state, the persisted configuration, the last value and the timers as
the first call left them, logs no effect (no `STOP_MONITOR` is sent), and
changes the last error only by overwriting it with `r2` when `r2` is not
empty. -/
theorem stopMonitoring_twice (r1 r2 : JSString) (w : Controller) :
    (stopMonitoring r2 (stopMonitoring r1 w)).runtimeState = (stopMonitoring r1 w).runtimeState ∧
    (stopMonitoring r2 (stopMonitoring r1 w)).storage.monitorState =
      (stopMonitoring r1 w).storage.monitorState ∧
    (stopMonitoring r2 (stopMonitoring r1 w)).storage.monitorConfig =
      (stopMonitoring r1 w).storage.monitorConfig ∧
    (stopMonitoring r2 (stopMonitoring r1 w)).storage.lastValue =
      (stopMonitoring r1 w).storage.lastValue ∧
    (stopMonitoring r2 (stopMonitoring r1 w)).storage.lastError =
      (if r2 ≠ [] then some r2 else (stopMonitoring r1 w).storage.lastError) ∧
    (stopMonitoring r2 (stopMonitoring r1 w)).timers = (stopMonitoring r1 w).timers ∧
    (stopMonitoring r2 (stopMonitoring r1 w)).timerCount = (stopMonitoring r1 w).timerCount ∧
    (stopMonitoring r2 (stopMonitoring r1 w)).log = (stopMonitoring r1 w).log := by
  have key : ∀ v : Controller, v.runtimeState = RuntimeState.initial →
      (∃ st : StoredState, v.storage.monitorState = some st ∧ st.active = some false ∧
        st.tabId = some none) →
      stopMonitoring r2 v =
        { v with storage := { v.storage with
            lastError := if r2 ≠ [] then some r2 else v.storage.lastError } } := by
    intro v hv ⟨st, hst, h1, h2⟩
    obtain ⟨rs, sto, tm, tc, lg⟩ := v
    obtain ⟨mc, ms, lv, le⟩ := sto
    simp only at hv hst
    subst hv hst
    obtain ⟨act, tid, md, ur⟩ := st
    simp only at h1 h2
    subst h1 h2
    by_cases hr : r2 = [] <;>
      simp [stopMonitoring, clearRefreshTimer, RuntimeState.initial, updateMonitoringState,
        setError, hr]
  have h2 : ∃ st : StoredState, (stopMonitoring r1 w).storage.monitorState = some st ∧
      st.active = some false ∧ st.tabId = some none := by
    unfold stopMonitoring
    simp only
    repeat' split
    all_goals simp [updateMonitoringState, setError, Controller.emit]
  rw [key _ (stopMonitoring_runtimeState r1 w) h2]
  simp

/-- Claim C10: for a configuration whose repeat count is an integer `n` from 1
to 5 and whose delay is `d`, one call of `sendNotifications` returns (given
fuel for more than `n` iterations) and its effects are, in order, `n` alerts,
each followed by its sound cue when sound is enabled, with a wait of
`d * 1000` ms after every alert but the last: `n` alerts and `n - 1` waits,
whatever alert creations fail; a failed creation sets the last error, and a
batch without failure leaves it unchanged. -/
theorem sendNotifications_batch (fuel n : Nat) (env : Env) (tabId : Option Nat)
    (config : MonitorConfig) (w : Controller) (h1 : 1 ≤ n) (h5 : n ≤ 5)
    (hrep : config.notificationRepeatCount = JSNumber.ofNat n) (hfuel : n < fuel) :
    ∃ (w1 : Controller) (batch : List Effect),
      sendNotifications fuel env tabId config w = some w1 ∧
      batch = expectedBatch n config.soundEnabled tabId
        (JSNumber.mul config.notificationDelaySeconds (JSNumber.finite 1000)) n 0 ∧
      w1.log = w.log ++ Effect.sendNotificationsCalled tabId :: batch ∧
      countAlerts batch = n ∧
      waits batch = List.replicate (n - 1)
        (JSNumber.mul config.notificationDelaySeconds (JSNumber.finite 1000)) ∧
      ((∃ j : Nat, j < n ∧ env.notificationsCreate j = false) →
        w1.storage.lastError =
          some "Notification failed. Check extension notification permission.".toList) ∧
      ((∀ j : Nat, j < n → env.notificationsCreate j = true) →
        w1.storage.lastError = w.storage.lastError) ∧
      w1.runtimeState = w.runtimeState := by
  obtain ⟨w1, a, b, c, -, -, -, -, g1, g2⟩ :=
    sendNotificationsLoop_spec env tabId config n
      (JSNumber.mul config.notificationDelaySeconds (JSNumber.finite 1000))
      (sub_one_small n h1 h5) n 0 fuel (w.emit (Effect.sendNotificationsCalled tabId))
      (by omega) hfuel
  refine ⟨w1, _, ?_, rfl, ?_, countAlerts_expectedBatch _ _ _ _ _ _,
    waits_expectedBatch _ _ _ _ _ _ (by omega), ?_, ?_, ?_⟩
  · simp only [sendNotifications, hrep]; exact a
  · rw [b]; simp [Controller.emit]
  · rintro ⟨j, hj, hc⟩
    exact g1 ⟨j, Nat.zero_le _, hj, hc⟩
  · intro hall
    rw [g2 (fun j _ hj => hall j hj)]; rfl
  · rw [c]; rfl

/-- Witness of claim C10: three repeats, five seconds apart, the second alert
failing. -/
theorem sendNotifications_batch_witness :
    ∃ (w1 : Controller) (batch : List Effect),
      sendNotifications 4 { demoEnv 0 with notificationsCreate := fun i => decide (i ≠ 1) } (some 7)
        { DEFAULTS with notificationRepeatCount := JSNumber.ofNat 3 } Controller.initial = some w1 ∧
      batch = expectedBatch 3 true (some 7)
        (JSNumber.mul (JSNumber.finite 5) (JSNumber.finite 1000)) 3 0 ∧
      w1.log = [] ++ Effect.sendNotificationsCalled (some 7) :: batch ∧
      countAlerts batch = 3 ∧
      waits batch = List.replicate (3 - 1) (JSNumber.mul (JSNumber.finite 5) (JSNumber.finite 1000)) ∧
      ((∃ j : Nat, j < 3 ∧ decide (j ≠ 1) = false) →
        w1.storage.lastError =
          some "Notification failed. Check extension notification permission.".toList) ∧
      ((∀ j : Nat, j < 3 → decide (j ≠ 1) = true) →
        w1.storage.lastError = none) ∧
      w1.runtimeState = RuntimeState.initial :=
  sendNotifications_batch 4 3 { demoEnv 0 with notificationsCreate := fun i => decide (i ≠ 1) }
    (some 7) { DEFAULTS with notificationRepeatCount := JSNumber.ofNat 3 } Controller.initial
    (by decide) (by decide) rfl (by decide)

/-! ## Lemmas on the refresh cycle -/

theorem clearRefreshTimer_monitoring (w : Controller) :
    (clearRefreshTimer w).runtimeState.monitoring = w.runtimeState.monitoring ∧
    (clearRefreshTimer w).runtimeState.mode = w.runtimeState.mode ∧
    (clearRefreshTimer w).timerCount = w.timerCount := by
  unfold clearRefreshTimer
  split
  · split <;> exact ⟨rfl, rfl, rfl⟩
  · exact ⟨rfl, rfl, rfl⟩

theorem max60_of_lt (a : JSNumber) (h : JSNumber.lt a (JSNumber.finite 60) = true) :
    JSNumber.max (JSNumber.finite 60) (a.orElse (JSNumber.finite 60)) = JSNumber.finite 60 := by
  have hn : a ≠ JSNumber.nan := by
    rintro rfl
    simp [JSNumber.lt] at h
  rw [max60 a hn]
  cases a with
  | nan => exact absurd rfl hn
  | posInf => simp [JSNumber.lt] at h
  | negInf => rfl
  | finite q =>
    simp only [JSNumber.lt, decide_eq_true_eq] at h
    have : ¬ ((60 : ℚ) < q) := not_lt.mpr (le_of_lt h)
    simp [JSNumber.max, JSNumber.lt, this]

theorem sixty_seconds : JSNumber.max (JSNumber.finite 60000)
    (JSNumber.mul (JSNumber.finite 60) (JSNumber.finite 1000)) = JSNumber.finite 60000 := by
  decide!

theorem clearRefreshTimer_of_none (w : Controller) (h : w.runtimeState.refreshTimerId = none) :
    clearRefreshTimer w = w := by
  simp [clearRefreshTimer, h]

theorem scheduleRefreshCycle_stopped (tabId : Nat) (config : MonitorConfig) (w : Controller)
    (hm : w.runtimeState.monitoring = false) (ht : w.runtimeState.refreshTimerId = none) :
    scheduleRefreshCycle tabId config w = w := by
  simp [scheduleRefreshCycle, clearRefreshTimer_of_none w ht, hm]

theorem stopMonitoring_timers (reason : JSString) (w : Controller) :
    (stopMonitoring reason w).timers = (clearRefreshTimer w).timers ∧
    (stopMonitoring reason w).timerCount = w.timerCount := by
  have hc : (clearRefreshTimer w).timerCount = w.timerCount := by
    unfold clearRefreshTimer
    split
    · split <;> rfl
    · rfl
  unfold stopMonitoring
  simp only
  repeat' split
  all_goals simp [updateMonitoringState, setError, Controller.emit, hc]

theorem clearRefreshTimer_cancels (w : Controller) (id : Nat)
    (h : w.runtimeState.refreshTimerId = some id) (h0 : id ≠ 0) :
    ∀ t ∈ (clearRefreshTimer w).timers, t.id ≠ id := by
  intro t ht
  simp only [clearRefreshTimer, h, h0, ne_eq, not_false_eq_true, if_true, Controller.emit,
    List.mem_filter, bne_iff_ne] at ht
  exact ht.2

theorem refreshTickBody_stopped (env : TickEnv) (t : RefreshTimer) (w : Controller)
    (hm : w.runtimeState.monitoring = false) (ht : w.runtimeState.refreshTimerId = none) :
    (refreshTickBody env t w).1.runtimeState.monitoring = false ∧
    (refreshTickBody env t w).1.runtimeState.refreshTimerId = none ∧
    (refreshTickBody env t w).1.timers = w.timers ∧
    (refreshTickBody env t w).1.timerCount = w.timerCount := by
  unfold refreshTickBody
  simp only
  split
  · simp only [stopMonitoring_runtimeState, stopMonitoring_timers]
    refine ⟨rfl, rfl, ?_, rfl⟩
    rw [clearRefreshTimer_of_none _ (by simpa [Controller.emit] using ht)]
    rfl
  · split
    · simp only [stopMonitoring_runtimeState, stopMonitoring_timers]
      refine ⟨rfl, rfl, ?_, rfl⟩
      rw [clearRefreshTimer_of_none _ (by simpa [Controller.emit] using ht)]
      rfl
    · split
      · simp only [stopMonitoring_runtimeState, stopMonitoring_timers]
        refine ⟨rfl, rfl, ?_, rfl⟩
        rw [clearRefreshTimer_of_none _ (by simpa [Controller.emit] using ht)]
        rfl
      · exact ⟨hm, ht, rfl, rfl⟩

theorem refreshTick_stopped (env : TickEnv) (id : Nat) (w : Controller)
    (hm : w.runtimeState.monitoring = false) (ht : w.runtimeState.refreshTimerId = none) :
    (refreshTick env id w).runtimeState.monitoring = false ∧
    (refreshTick env id w).runtimeState.refreshTimerId = none ∧
    (refreshTick env id w).timerCount = w.timerCount ∧
    ∀ t ∈ (refreshTick env id w).timers, t ∈ w.timers := by
  unfold refreshTick
  split
  · exact ⟨hm, ht, rfl, fun t h => h⟩
  · rename_i t hfind
    obtain ⟨b1, b2, b3, b4⟩ := refreshTickBody_stopped env t
      { w with timers := w.timers.filter (fun x => x.id != id) } hm ht
    split
    · rename_i w1 hb
      rw [hb] at b1 b2 b3 b4
      simp only at b1 b2 b3 b4
      rw [refreshTickTail, scheduleRefreshCycle_stopped _ _ _ b1 b2]
      refine ⟨b1, b2, b4, ?_⟩
      intro x hx
      rw [b3] at hx
      exact (List.mem_filter.mp hx).1
    · rename_i w1 hb
      rw [hb] at b1 b2 b3 b4
      simp only at b1 b2 b3 b4
      refine ⟨b1, b2, b4, ?_⟩
      intro x hx
      rw [b3] at hx
      exact (List.mem_filter.mp hx).1

/-! ## Lemmas on the numeric options -/

theorem orElse_not_nan (n d : JSNumber) (hd : d ≠ JSNumber.nan) : n.orElse d ≠ JSNumber.nan := by
  unfold JSNumber.orElse
  split
  · rename_i h
    rintro rfl
    simp [JSNumber.truthy] at h
  · exact hd

theorem JSNumber.max_finite (a b : ℚ) :
    JSNumber.max (JSNumber.finite a) (JSNumber.finite b) =
      if a < b then JSNumber.finite b else JSNumber.finite a := by
  simp [JSNumber.max, JSNumber.lt]

theorem JSNumber.min_finite (a b : ℚ) :
    JSNumber.min (JSNumber.finite a) (JSNumber.finite b) =
      if b < a then JSNumber.finite b else JSNumber.finite a := by
  simp [JSNumber.min, JSNumber.lt]

theorem JSNumber.le_finite (a b : ℚ) :
    JSNumber.le (JSNumber.finite a) (JSNumber.finite b) = decide (a ≤ b) := by
  by_cases h : b < a
  · simp [JSNumber.le, JSNumber.lt, h, not_le.mpr h]
  · simp [JSNumber.le, JSNumber.lt, h, not_lt.mp h]

theorem JSNumber.le_max_of_finite (q : ℚ) (x : JSNumber) (hx : x ≠ JSNumber.nan) :
    JSNumber.le (JSNumber.finite q) (JSNumber.max (JSNumber.finite q) x) = true := by
  cases x with
  | nan => exact absurd rfl hx
  | posInf => simp [JSNumber.max, JSNumber.lt, JSNumber.le]
  | negInf => simp [JSNumber.max, JSNumber.lt, JSNumber.le]
  | finite r =>
    rw [JSNumber.max_finite]
    split
    · rename_i h
      rw [JSNumber.le_finite]; simpa using le_of_lt h
    · rw [JSNumber.le_finite]; simp

theorem repeat_in_range (x : JSNumber) (hx : x ≠ JSNumber.nan) :
    JSNumber.le (JSNumber.finite 1)
      (JSNumber.min (JSNumber.finite 5) (JSNumber.max (JSNumber.finite 1) x)) = true ∧
    JSNumber.le (JSNumber.min (JSNumber.finite 5) (JSNumber.max (JSNumber.finite 1) x))
      (JSNumber.finite 5) = true := by
  cases x with
  | nan => exact absurd rfl hx
  | posInf => constructor <;> decide!
  | negInf => constructor <;> decide!
  | finite r =>
    rw [JSNumber.max_finite]
    split
    · rename_i h1
      rw [JSNumber.min_finite]
      split
      · rename_i h5
        simp only [JSNumber.le_finite, decide_eq_true_eq]
        exact ⟨le_of_lt h1, le_of_lt h5⟩
      · simp only [JSNumber.le_finite, decide_eq_true_eq]
        exact ⟨by norm_num, le_refl _⟩
    · rw [JSNumber.min_finite]
      norm_num [JSNumber.le_finite]

/-! ## Lemmas on the last value -/

theorem sendNotificationsLoop_lastValue (env : Env) (tabId : Option Nat) (config : MonitorConfig)
    (repeats delayMs : JSNumber) :
    ∀ (fuel i : Nat) (w w1 : Controller),
      sendNotificationsLoop env tabId config repeats delayMs fuel i w = some w1 →
      w1.storage.lastValue = w.storage.lastValue := by
  intro fuel
  induction fuel with
  | zero => intro i w w1 h; simp [sendNotificationsLoop] at h
  | succ f ih =>
    intro i w w1 h
    rw [sendNotificationsLoop] at h
    split at h
    · rw [ih _ _ _ h]
      cases config.soundEnabled <;> cases env.notificationsCreate i <;>
        by_cases hlt : JSNumber.lt (JSNumber.ofNat i) (repeats.sub (JSNumber.finite 1)) = true <;>
        simp [Controller.emit, setError, hlt]
    · simp only [Option.some.injEq] at h
      subst h
      rfl

theorem lt_ofNat_mono (r : JSNumber) (i j : Nat) (hij : j ≤ i)
    (h : JSNumber.lt (JSNumber.ofNat i) r = true) : JSNumber.lt (JSNumber.ofNat j) r = true := by
  cases r with
  | nan => simp [JSNumber.lt, JSNumber.ofNat] at h
  | posInf => rfl
  | negInf => simp [JSNumber.lt, JSNumber.ofNat] at h
  | finite q =>
    simp only [JSNumber.lt, JSNumber.ofNat, decide_eq_true_eq] at h ⊢
    have : (j : ℚ) ≤ (i : ℚ) := by exact_mod_cast hij
    exact lt_of_le_of_lt this h

theorem sendNotificationsLoop_returns (env : Env) (tabId : Option Nat) (config : MonitorConfig)
    (repeats delayMs : JSNumber) (h5 : JSNumber.lt (JSNumber.ofNat 5) repeats = false) :
    ∀ (fuel i : Nat) (w : Controller), 1 ≤ fuel → 6 ≤ fuel + i →
      ∃ w1 : Controller,
        sendNotificationsLoop env tabId config repeats delayMs fuel i w = some w1 := by
  intro fuel
  induction fuel with
  | zero => intro i w h; omega
  | succ f ih =>
    intro i w _ hfi
    rw [sendNotificationsLoop]
    split
    · rename_i hlt
      have hi : i < 5 := by
        by_contra hge
        have := lt_ofNat_mono repeats i 5 (by omega) hlt
        rw [h5] at this
        exact absurd this (by decide)
      exact ih _ _ (by omega) (by omega)
    · exact ⟨w, rfl⟩

/-! ## Lemmas on the fixed points of the normalizer -/

theorem dropWhile_of_none {p : Char → Bool} :
    ∀ l : List Char, (∀ c ∈ l, p c = false) → l.dropWhile p = l
  | [], _ => rfl
  | a :: l, h => by
    have : p a = false := h a (List.mem_cons_self _ _)
    simp [List.dropWhile, this]

theorem trim_of_no_whiteSpace (s : JSString) (h : ∀ c ∈ s, isWhiteSpace c = false) :
    trim s = s := by
  unfold trim
  rw [dropWhile_of_none s h, dropWhile_of_none _ (fun c hc => h c (List.mem_reverse.mp hc)),
    List.reverse_reverse]

theorem dropWhile_head_false {p : Char → Bool} (l : List Char) :
    ∀ c r, l.dropWhile p = c :: r → p c = false := by
  intro c r h
  have h1 := List.head_dropWhile_not p l (by simp [h])
  simpa [h] using h1

theorem dropWhile_eq_self_of_head {p : Char → Bool} (l : List Char)
    (h : ∀ c r, l = c :: r → p c = false) : l.dropWhile p = l := by
  cases l with
  | nil => rfl
  | cons a r => simp [List.dropWhile, h a r rfl]

theorem trim_trim (s : JSString) : trim (trim s) = trim s := by
  unfold trim
  set a := s.dropWhile isWhiteSpace with ha
  set b := a.reverse.dropWhile isWhiteSpace with hb
  -- the head of `b.reverse` is not white space
  have hb_head : ∀ c r, b = c :: r → isWhiteSpace c = false := fun c r h =>
    dropWhile_head_false a.reverse c r (hb ▸ h)
  have ha_head : ∀ c r, a = c :: r → isWhiteSpace c = false := fun c r h =>
    dropWhile_head_false s c r (ha ▸ h)
  have hsplit : a.reverse.takeWhile isWhiteSpace ++ b = a.reverse :=
    List.takeWhile_append_dropWhile _ _
  obtain ⟨w, hw⟩ : ∃ w : List Char, a = b.reverse ++ w := by
    refine ⟨(a.reverse.takeWhile isWhiteSpace).reverse, ?_⟩
    have := congrArg List.reverse hsplit
    simpa using this.symm
  have h1 : b.reverse.dropWhile isWhiteSpace = b.reverse := by
    apply dropWhile_eq_self_of_head
    intro c r hcr
    exact ha_head c (r ++ w) (by rw [hw, hcr]; rfl)
  rw [h1, List.reverse_reverse, dropWhile_eq_self_of_head b hb_head]

theorem isDigit_not_whiteSpace {c : Char} (h : isDigit c = true) : isWhiteSpace c = false := by
  simp only [isDigit, Bool.and_eq_true, decide_eq_true_eq] at h
  simp only [isWhiteSpace, Bool.or_eq_false_iff, beq_eq_false_iff_ne, ne_eq, Bool.and_eq_false_imp,
    decide_eq_true_eq, decide_eq_false_iff_not]
  omega

theorem isDigit_ne_minus {c : Char} (h : isDigit c = true) : c ≠ '-' := by
  rintro rfl
  revert h
  decide

theorem NumericToken.chars {t : JSString} (h : NumericToken t) :
    ∀ c ∈ t, isDigit c = true ∨ c = '-' ∨ c = '.' := by
  obtain ⟨sign, ip, fp, hsign, -, hip, hfp, hor⟩ := h
  intro c hc
  have hs : c ∈ sign → c = '-' := by
    rcases hsign with h | h <;> simp [h]
  rcases hor with h | ⟨-, h⟩
  · rw [h] at hc
    rcases List.mem_append.mp hc with hc | hc
    · exact Or.inr (Or.inl (hs hc))
    · exact Or.inl (hip c hc)
  · rw [h] at hc
    rcases List.mem_append.mp hc with hc | hc
    · rcases List.mem_append.mp hc with hc | hc
      · exact Or.inr (Or.inl (hs hc))
      · exact Or.inl (hip c hc)
    · rcases List.mem_cons.mp hc with hc | hc
      · exact Or.inr (Or.inr hc)
      · exact Or.inl (hfp c hc)

theorem matchUnsigned_token (ip fp : JSString) (hne : ip ≠ []) (hip : ∀ c ∈ ip, isDigit c = true)
    (hfp : ∀ c ∈ fp, isDigit c = true) :
    matchUnsigned ip = some ip ∧ (fp ≠ [] → matchUnsigned (ip ++ '.' :: fp) = some (ip ++ '.' :: fp)) := by
  have hdot : isDigit '.' = false := by decide
  have t1 : ip.takeWhile isDigit = ip := List.takeWhile_eq_self_iff.mpr (fun c hc => hip c hc)
  have d1 : ip.dropWhile isDigit = [] := List.dropWhile_eq_nil_iff.mpr (fun c hc => hip c hc)
  have t2 : (ip ++ '.' :: fp).takeWhile isDigit = ip := by
    rw [List.takeWhile_append_of_pos hip]
    simp [List.takeWhile, hdot]
  have d2 : (ip ++ '.' :: fp).dropWhile isDigit = '.' :: fp := by
    rw [List.dropWhile_append_of_pos hip]
    simp [List.dropWhile, hdot]
  have t3 : fp.takeWhile isDigit = fp := List.takeWhile_eq_self_iff.mpr (fun c hc => hfp c hc)
  constructor
  · simp [matchUnsigned, t1, d1, hne]
  · intro hfne
    simp [matchUnsigned, t2, d2, t3, hne, hfne]

theorem firstMatch_token {t : JSString} (h : NumericToken t) : firstMatch t = some t := by
  obtain ⟨sign, ip, fp, hsign, hne, hip, hfp, hor⟩ := h
  obtain ⟨m1, m2⟩ := matchUnsigned_token ip fp hne hip hfp
  obtain ⟨a, r, har⟩ := List.exists_cons_of_ne_nil hne
  have hhead : a ≠ '-' := isDigit_ne_minus (hip a (by rw [har]; exact List.mem_cons_self _ _))
  have plain : ∀ u : JSString, (∃ r', u = a :: r') → matchUnsigned u = some u →
      firstMatch u = some u := by
    rintro u ⟨r', rfl⟩ hu
    have : matchAt (a :: r') = some (a :: r') := by
      unfold matchAt
      split
      · rename_i heq
        simp only [List.cons.injEq] at heq
        exact absurd heq.1 hhead
      · exact hu
    simp [firstMatch, this]
  have signed : ∀ u : JSString, matchUnsigned u = some u →
      firstMatch ('-' :: u) = some ('-' :: u) := by
    intro u hu
    have : matchAt ('-' :: u) = some ('-' :: u) := by simp [matchAt, hu]
    simp [firstMatch, this]
  rcases hsign with hs | hs <;> rcases hor with h | ⟨hf, h⟩ <;> subst hs <;> subst h
  · exact plain _ ⟨r, by simp [har]⟩ (by simpa using m1)
  · exact plain _ ⟨r ++ '.' :: fp, by simp [har]⟩ (by simpa using m2 hf)
  · exact signed _ m1
  · simpa using signed _ (m2 hf)

theorem normalizeValue_token {t : JSString} (h : NumericToken t) : normalizeValue t = t := by
  have hws : ∀ c ∈ t, isWhiteSpace c = false := by
    intro c hc
    rcases h.chars c hc with hd | rfl | rfl
    · exact isDigit_not_whiteSpace hd
    · decide
    · decide
  have hcomma : stripCommas t = t := by
    unfold stripCommas
    apply List.filter_eq_self.mpr
    intro c hc
    rcases h.chars c hc with hd | rfl | rfl
    · simpa using isDigit_ne_comma hd
    · decide
    · decide
  simp only [normalizeValue, trim_of_no_whiteSpace t hws, hcomma, firstMatch_token h]

/-! ## Lemmas on the timeouts of the page observer -/

namespace Content

theorem cleanup_handles (p : Page) :
    (cleanup p).monitorState.observer = none ∧
    (cleanup p).timerCount = p.timerCount ∧
    (cleanup p).observerCount = p.observerCount ∧
    (∀ t ∈ (cleanup p).timers, t ∈ p.timers) ∧
    (∀ o ∈ (cleanup p).observers, o ∈ p.observers) ∧
    (cleanup p).monitorState.active = p.monitorState.active := by
  unfold cleanup
  simp only
  repeat' split
  all_goals
    simp_all [Page.clearTimeout, Page.emit]

theorem tracked_of_filter (p q : Page) (f : PageTimer → Bool) (hp : TimersTracked p)
    (ht : q.timers = p.timers.filter f) (hc : q.timerCount = p.timerCount)
    (hh : q.monitorState.debounceTimer = p.monitorState.debounceTimer) : TimersTracked q := by
  obtain ⟨h1, h2, h3⟩ := hp
  refine ⟨?_, ?_, ?_⟩
  · intro t htq
    rw [ht] at htq
    rw [hc]
    exact h1 t (List.mem_filter.mp htq).1
  · rw [ht]
    exact h2.sublist ((List.filter_sublist _).map _)
  · intro t htq hk
    rw [ht] at htq
    rw [hh]
    exact h3 t (List.mem_filter.mp htq).1 hk

theorem tracked_of_eq (p q : Page) (hp : TimersTracked p)
    (ht : q.timers = p.timers) (hc : q.timerCount = p.timerCount)
    (hh : q.monitorState.debounceTimer = p.monitorState.debounceTimer) : TimersTracked q := by
  obtain ⟨h1, h2, h3⟩ := hp
  exact ⟨by rw [ht, hc]; exact h1, by rw [ht]; exact h2, by rw [ht, hh]; exact h3⟩

theorem tracked_fresh (p : Page) (hp : TimersTracked p) :
    p.timerCount + 1 ∉ p.timers.map (fun t => t.id) := by
  intro hmem
  obtain ⟨t, ht, hid⟩ := List.mem_map.mp hmem
  have := (hp.1 t ht).2
  omega

theorem tracked_add_retry (p q : Page) (d : Int) (hp : TimersTracked p)
    (ht : q.timers = p.timers ++ [{ id := p.timerCount + 1, kind := TimerKind.retry, due := d }])
    (hc : q.timerCount = p.timerCount + 1)
    (hh : q.monitorState.debounceTimer = p.monitorState.debounceTimer) : TimersTracked q := by
  have hfresh := tracked_fresh p hp
  obtain ⟨h1, h2, h3⟩ := hp
  refine ⟨?_, ?_, ?_⟩
  · intro t htq
    rw [ht] at htq
    rw [hc]
    rcases List.mem_append.mp htq with h | h
    · have := h1 t h; omega
    · simp only [List.mem_singleton] at h
      subst h; simp
  · rw [ht, List.map_append, List.nodup_append]
    refine ⟨h2, by simp, ?_⟩
    intro a ha hb
    simp only [List.map_cons, List.map_nil, List.mem_singleton] at hb
    subst hb
    exact hfresh ha
  · intro t htq hk
    rw [ht] at htq
    rw [hh]
    rcases List.mem_append.mp htq with h | h
    · exact h3 t h hk
    · simp only [List.mem_singleton] at h
      subst h
      exact absurd hk (by simp)

theorem tracked_add_debounce (p q : Page) (d : Int) (hp : TimersTracked p)
    (hno : ∀ t ∈ p.timers, t.kind ≠ TimerKind.debounce)
    (ht : q.timers =
      p.timers ++ [{ id := p.timerCount + 1, kind := TimerKind.debounce, due := d }])
    (hc : q.timerCount = p.timerCount + 1)
    (hh : q.monitorState.debounceTimer = some (p.timerCount + 1)) : TimersTracked q := by
  have hfresh := tracked_fresh p hp
  obtain ⟨h1, h2, h3⟩ := hp
  refine ⟨?_, ?_, ?_⟩
  · intro t htq
    rw [ht] at htq
    rw [hc]
    rcases List.mem_append.mp htq with h | h
    · have := h1 t h; omega
    · simp only [List.mem_singleton] at h
      subst h; simp
  · rw [ht, List.map_append, List.nodup_append]
    refine ⟨h2, by simp, ?_⟩
    intro a ha hb
    simp only [List.map_cons, List.map_nil, List.mem_singleton] at hb
    subst hb
    exact hfresh ha
  · intro t htq hk
    rw [ht] at htq
    rw [hh]
    rcases List.mem_append.mp htq with h | h
    · exact absurd hk (hno t h)
    · simp only [List.mem_singleton] at h
      subst h; rfl

theorem tracked_forget (p q : Page) (hp : TimersTracked p)
    (hno : ∀ t ∈ p.timers, t.kind ≠ TimerKind.debounce)
    (ht : q.timers = p.timers) (hc : q.timerCount = p.timerCount) : TimersTracked q := by
  obtain ⟨h1, h2, h3⟩ := hp
  refine ⟨by rw [ht, hc]; exact h1, by rw [ht]; exact h2, ?_⟩
  intro t htq hk
  rw [ht] at htq
  exact absurd hk (hno t htq)

/-- Once the timeout of the debounce handle is cancelled, no debounce timeout
is pending. -/
theorem no_debounce_after_clear (p : Page) (hp : TimersTracked p) (h : Nat)
    (hh : p.monitorState.debounceTimer = some h) :
    ∀ t ∈ p.timers.filter (fun t => t.id != h), t.kind ≠ TimerKind.debounce := by
  intro t ht hk
  obtain ⟨hmem, hne⟩ := List.mem_filter.mp ht
  have := hp.2.2 t hmem hk
  rw [hh] at this
  simp only [Option.some.injEq] at this
  simp [this] at hne

theorem no_debounce_of_zero (p : Page) (hp : TimersTracked p)
    (hh : p.monitorState.debounceTimer = none ∨ p.monitorState.debounceTimer = some 0) :
    ∀ t ∈ p.timers, t.kind ≠ TimerKind.debounce := by
  intro t ht hk
  have h3 := hp.2.2 t ht hk
  have h1 := (hp.1 t ht).1
  rcases hh with h | h
  · rw [h] at h3; exact absurd h3 (by simp)
  · rw [h] at h3
    simp only [Option.some.injEq] at h3
    omega

theorem pendingDebounce_le_one (p : Page) (hp : TimersTracked p) :
    (pendingDebounce p).length ≤ 1 := by
  have hnd : ((pendingDebounce p).map (fun t => t.id)).Nodup :=
    hp.2.1.sublist ((List.filter_sublist _).map _)
  have hall : ∀ t ∈ pendingDebounce p, p.monitorState.debounceTimer = some t.id := by
    intro t ht
    obtain ⟨hmem, hk⟩ := List.mem_filter.mp ht
    exact hp.2.2 t hmem (by simpa using hk)
  cases hl : pendingDebounce p with
  | nil => simp
  | cons a l =>
    cases l with
    | nil => simp
    | cons b l =>
      exfalso
      rw [hl] at hnd hall
      have ha := hall a (by simp)
      have hb := hall b (by simp)
      rw [ha] at hb
      simp only [Option.some.injEq] at hb
      simp [hb] at hnd

theorem tracked_initial : TimersTracked Page.initial := by
  refine ⟨?_, ?_, ?_⟩ <;> simp [Page.initial]

theorem tracked_retryElementSearch (env : PageEnv) (p : Page) (hp : TimersTracked p) :
    TimersTracked (retryElementSearch env p) := by
  unfold retryElementSearch
  split
  · exact tracked_of_eq p _ hp rfl rfl rfl
  · exact tracked_add_retry p _ (env.now + 5000) hp rfl rfl rfl

theorem tracked_postValue (env : PageEnv) (p : Page) (hp : TimersTracked p) :
    TimersTracked (postValue env p) := by
  unfold postValue
  split
  · exact tracked_of_eq p _ hp rfl rfl rfl
  · split
    · exact tracked_retryElementSearch env p hp
    · exact tracked_of_eq p _ hp rfl rfl rfl

theorem tracked_startObserver (env : PageEnv) (p : Page) (hp : TimersTracked p) :
    TimersTracked (startObserver env p) := by
  unfold startObserver
  split
  · exact tracked_retryElementSearch env p hp
  · simp only
    split
    · exact tracked_retryElementSearch env _ (tracked_postValue env p hp)
    · exact tracked_of_eq (postValue env p) _ (tracked_postValue env p hp) rfl rfl rfl

theorem tracked_cleanup (p : Page) (hp : TimersTracked p) : TimersTracked (cleanup p) := by
  -- the page after the observer and the retry timeout have been dealt with
  have step1 : ∀ q : Page, TimersTracked q → TimersTracked
      (match q.monitorState.observer with
        | some o =>
          { (q.emit (PageEffect.disconnect o)) with
            observers := q.observers.filter (fun x => x != o)
            monitorState := { q.monitorState with observer := none } }
        | none => q) := by
    intro q hq
    split
    · exact tracked_of_eq q _ hq rfl rfl rfl
    · exact hq
  have step2 : ∀ q : Page, TimersTracked q → TimersTracked
      (match q.monitorState.retryTimer with
        | some t =>
          if t ≠ 0 then
            { (q.clearTimeout t) with
              monitorState := { (q.clearTimeout t).monitorState with retryTimer := none } }
          else q
        | none => q) := by
    intro q hq
    split
    · split
      · exact tracked_of_filter q _ _ hq rfl rfl rfl
      · exact hq
    · exact hq
  have step3 : ∀ q : Page, TimersTracked q → TimersTracked
      (match q.monitorState.debounceTimer with
        | some t =>
          if t ≠ 0 then
            { (q.clearTimeout t) with
              monitorState := { (q.clearTimeout t).monitorState with debounceTimer := none } }
          else q
        | none => q) := by
    intro q hq
    split
    · rename_i t ht
      split
      · have hno := no_debounce_after_clear q hq t ht
        have h1 : TimersTracked (q.clearTimeout t) := tracked_of_filter q _ _ hq rfl rfl rfl
        exact tracked_forget (q.clearTimeout t) _ h1 hno rfl rfl
      · exact hq
    · exact hq
  exact step3 _ (step2 _ (step1 p hp))

theorem tracked_startMonitoring (env : PageEnv) (payload : StartPayload) (p : Page)
    (hp : TimersTracked p) : TimersTracked (Content.startMonitoring env payload p) := by
  have h1 := tracked_cleanup p hp
  have h2 : TimersTracked
      { cleanup p with
        monitorState :=
          { (cleanup p).monitorState with
            active := true
            url := payload.url
            selector := payload.selector
            mode := payload.mode
            retryCount := 0 } } := tracked_of_eq (cleanup p) _ h1 rfl rfl rfl
  unfold Content.startMonitoring
  simp only
  split
  · exact tracked_of_eq _ _ h2 rfl rfl rfl
  · split
    · exact tracked_startObserver env _ h2
    · exact tracked_postValue env _ h2

theorem tracked_stopMonitoring (p : Page) (hp : TimersTracked p) :
    TimersTracked (Content.stopMonitoring p) :=
  tracked_cleanup _ (tracked_of_eq p _ hp rfl rfl rfl)

theorem tracked_checkNow (env : PageEnv) (url selector : JSString) (p : Page)
    (hp : TimersTracked p) : TimersTracked (checkNow env url selector p) :=
  tracked_postValue env _ (tracked_of_eq p _ hp rfl rfl rfl)

theorem tracked_fireTimer (env : PageEnv) (id : Nat) (p : Page) (hp : TimersTracked p) :
    TimersTracked (fireTimer env id p) := by
  unfold fireTimer
  split
  · exact tracked_postValue env _ (tracked_of_filter p _ _ hp rfl rfl rfl)
  · exact hp

theorem tracked_onMutation (env : PageEnv) (observer : Nat) (p : Page) (hp : TimersTracked p) :
    TimersTracked (onMutation env observer p) := by
  unfold onMutation
  split
  · -- the page after the pending debounce timeout has been cancelled
    have hclear : TimersTracked
        (match p.monitorState.debounceTimer with
          | some t => if t ≠ 0 then p.clearTimeout t else p
          | none => p) ∧
        ∀ t ∈ (match p.monitorState.debounceTimer with
          | some t => if t ≠ 0 then p.clearTimeout t else p
          | none => p).timers, t.kind ≠ TimerKind.debounce := by
      split
      · rename_i t ht
        split
        · exact ⟨tracked_of_filter p _ _ hp rfl rfl rfl, no_debounce_after_clear p hp t ht⟩
        · rename_i h0
          simp only [ne_eq, not_not] at h0
          exact ⟨hp, no_debounce_of_zero p hp (Or.inr (by rw [ht, h0]))⟩
      · rename_i hn
        exact ⟨hp, no_debounce_of_zero p hp (Or.inl hn)⟩
    exact tracked_add_debounce _ _ (env.now + 500) hclear.1 hclear.2 rfl rfl rfl
  · exact hp

theorem tracked_step (env : PageEnv) (ev : PageEvent) (p : Page) (hp : TimersTracked p) :
    TimersTracked (step env ev p) := by
  cases ev with
  | startMonitor payload => exact tracked_startMonitoring env payload p hp
  | checkNow url selector => exact tracked_checkNow env url selector p hp
  | stopMonitor => exact tracked_stopMonitoring p hp
  | other => exact hp
  | mutation observer => exact tracked_onMutation env observer p hp
  | timeout id => exact tracked_fireTimer env id p hp

theorem tracked_run : ∀ (evs : List (PageEnv × PageEvent)) (p : Page),
    TimersTracked p → TimersTracked (run evs p)
  | [], _, hp => hp
  | (env, ev) :: rest, p, hp => tracked_run rest _ (tracked_step env ev p hp)

theorem onMutation_quiet (env : PageEnv) (observer : Nat) (p : Page)
    (hobs : observer ∈ p.observers)
    (hcl : ∀ h, p.monitorState.debounceTimer = some h → h ≠ 0 →
      p.timers.filter (fun t => t.id != h) = [])
    (hcl0 : p.monitorState.debounceTimer = none ∨ p.monitorState.debounceTimer = some 0 →
      p.timers = []) :
    (onMutation env observer p).timers =
      [{ id := p.timerCount + 1, kind := TimerKind.debounce, due := env.now + 500 }] ∧
    (onMutation env observer p).timerCount = p.timerCount + 1 ∧
    (onMutation env observer p).monitorState.debounceTimer = some (p.timerCount + 1) ∧
    (onMutation env observer p).observers = p.observers := by
  unfold onMutation
  simp only [hobs, if_true]
  split
  · rename_i t ht
    split
    · rename_i h0
      simp [Page.setTimeout, Page.clearTimeout, Page.emit, hcl t ht h0]
    · rename_i h0
      simp only [ne_eq, not_not] at h0
      simp [Page.setTimeout, Page.emit, hcl0 (Or.inr (by rw [ht, h0]))]
  · rename_i hn
    simp [Page.setTimeout, Page.emit, hcl0 (Or.inl hn)]

theorem expire_not_due (env : PageEnv) (p : Page)
    (h : ∀ t ∈ p.timers, env.now < t.due) : expire env p = p := by
  have : p.timers.filter (fun t => decide (t.due ≤ env.now)) = [] := by
    apply List.filter_eq_nil_iff.mpr
    intro t ht
    have := h t ht
    simp only [decide_eq_true_eq, not_le]
    exact this
  simp [expire, this]

theorem expire_single_due (env : PageEnv) (p : Page) (t : PageTimer)
    (ht : p.timers = [t]) (h : t.due ≤ env.now) :
    expire env p = postValue env { p with timers := [] } := by
  simp [expire, ht, h, fireTimer]

theorem burst_core (observer : Nat) :
    ∀ (es : List PageEnv) (e : PageEnv) (p : Page), observer ∈ p.observers →
      (p.timers = [] ∨ ∃ d : Int,
        p.timers = [{ id := p.timerCount, kind := TimerKind.debounce, due := d }] ∧
        p.monitorState.debounceTimer = some p.timerCount ∧ p.timerCount ≠ 0 ∧ e.now < d) →
      List.Chain (fun a b : PageEnv => a.now ≤ b.now ∧ b.now < a.now + 500) e es →
      (burst observer (e :: es) p).timers =
        [{ id := p.timerCount + es.length + 1, kind := TimerKind.debounce,
           due := (es.getLastD e).now + 500 }] ∧
      (burst observer (e :: es) p).timerCount = p.timerCount + es.length + 1 ∧
      (burst observer (e :: es) p).monitorState.debounceTimer =
        some (p.timerCount + es.length + 1) := by
  intro es
  induction es with
  | nil =>
    intro e p hobs hp _
    have hexp : expire e p = p := by
      apply expire_not_due
      rcases hp with h | ⟨d, h, -, -, hd⟩
      · simp [h]
      · simp only [h, List.mem_singleton]
        rintro t rfl
        exact hd
    have hq := onMutation_quiet e observer p hobs
      (by
        intro h hh h0
        rcases hp with h' | ⟨d, h', hh', -, -⟩
        · simp [h']
        · rw [hh'] at hh
          simp only [Option.some.injEq] at hh
          simp [h', hh])
      (by
        intro hh
        rcases hp with h' | ⟨d, -, hh', h0, -⟩
        · exact h'
        · rw [hh'] at hh
          rcases hh with hh | hh
          · exact absurd hh (by simp)
          · simp only [Option.some.injEq] at hh
            exact absurd hh h0)
    simp only [burst, mutationAt, hexp, List.length_nil, Nat.add_zero, List.getLastD_nil]
    exact ⟨hq.1, hq.2.1, hq.2.2.1⟩
  | cons e' es ih =>
    intro e p hobs hp hchain
    have hexp : expire e p = p := by
      apply expire_not_due
      rcases hp with h | ⟨d, h, -, -, hd⟩
      · simp [h]
      · simp only [h, List.mem_singleton]
        rintro t rfl
        exact hd
    have hq := onMutation_quiet e observer p hobs
      (by
        intro h hh h0
        rcases hp with h' | ⟨d, h', hh', -, -⟩
        · simp [h']
        · rw [hh'] at hh
          simp only [Option.some.injEq] at hh
          simp [h', hh])
      (by
        intro hh
        rcases hp with h' | ⟨d, -, hh', h0, -⟩
        · exact h'
        · rw [hh'] at hh
          rcases hh with hh | hh
          · exact absurd hh (by simp)
          · simp only [Option.some.injEq] at hh
            exact absurd hh h0)
    obtain ⟨q1, q2, q3, q4⟩ := hq
    have hrel := (List.chain_cons.mp hchain).1
    have hchain' := (List.chain_cons.mp hchain).2
    have hstep : burst observer (e :: e' :: es) p =
        burst observer (e' :: es) (onMutation e observer p) := by
      simp only [burst, mutationAt, hexp]
    rw [hstep]
    obtain ⟨r1, r2, r3⟩ := ih e' (onMutation e observer p) (by rw [q4]; exact hobs)
      (Or.inr ⟨e.now + 500, by rw [q1, q2], by rw [q3, q2], by rw [q2]; omega, hrel.2⟩) hchain'
    rw [q2] at r1 r2 r3
    simp only [List.length_cons, List.getLastD_cons]
    refine ⟨?_, ?_, ?_⟩
    · rw [r1]
      congr 2
      omega
    · rw [r2]; omega
    · rw [r3]; congr 1; omega

theorem pendingDebounce_retryElementSearch (env : PageEnv) (p : Page) :
    pendingDebounce (retryElementSearch env p) = pendingDebounce p := by
  unfold retryElementSearch
  split
  · rfl
  · simp [pendingDebounce, Page.setTimeout, Page.emit, List.filter_append]

theorem pendingDebounce_postValue (env : PageEnv) (p : Page) :
    pendingDebounce (postValue env p) = pendingDebounce p := by
  unfold postValue
  split
  · rfl
  · split
    · exact pendingDebounce_retryElementSearch env p
    · rfl

theorem pendingDebounce_add (q r : Page) (t : PageTimer) (hk : t.kind = TimerKind.debounce)
    (hno : ∀ x ∈ q.timers, x.kind ≠ TimerKind.debounce) (ht : r.timers = q.timers ++ [t]) :
    pendingDebounce r = [t] := by
  have hnil : List.filter (fun x => decide (x.kind = TimerKind.debounce)) q.timers = [] := by
    apply List.filter_eq_nil_iff.mpr
    intro x hx
    simpa using hno x hx
  simp [pendingDebounce, ht, List.filter_append, hnil, hk]

theorem pendingDebounce_onMutation (env : PageEnv) (observer : Nat) (p : Page)
    (hp : TimersTracked p) (hobs : observer ∈ p.observers) :
    pendingDebounce (onMutation env observer p) =
      [{ id := p.timerCount + 1, kind := TimerKind.debounce, due := env.now + 500 }] := by
  have hclear : ∀ t ∈ (match p.monitorState.debounceTimer with
        | some t => if t ≠ 0 then p.clearTimeout t else p
        | none => p).timers, t.kind ≠ TimerKind.debounce := by
    split
    · rename_i t ht
      split
      · exact no_debounce_after_clear p hp t ht
      · rename_i h0
        simp only [ne_eq, not_not] at h0
        exact no_debounce_of_zero p hp (Or.inr (by rw [ht, h0]))
    · rename_i hn
      exact no_debounce_of_zero p hp (Or.inl hn)
  have hcount : (match p.monitorState.debounceTimer with
        | some t => if t ≠ 0 then p.clearTimeout t else p
        | none => p).timerCount = p.timerCount := by
    split
    · split <;> rfl
    · rfl
  unfold onMutation
  split
  · refine (pendingDebounce_add _ _
      { id := (match p.monitorState.debounceTimer with
          | some t => if t ≠ 0 then p.clearTimeout t else p
          | none => p).timerCount + 1, kind := TimerKind.debounce, due := env.now + 500 }
      rfl hclear rfl).trans ?_
    rw [hcount]
  · rename_i h
    exact absurd hobs h

end Content

/-! ## The later claims -/

/-- Claim C11: for every raw configuration that passes validation and whose
`refreshIntervalSeconds` is a number below 60 (zero and the negative numbers
included), `normalizeConfig` returns the interval 60, and with that
configuration `scheduleRefreshCycle`, in a running refresh session, sets the
timeout of the next tick to exactly 60000 ms. -/
theorem short_interval_is_sixty (P : Platform) (input : RawConfig) (u sel : JSString)
    (parsed : URLRecord) (a : JSNumber)
    (hurl : input.url = JSValue.string u) (hparse : P.parseURL (trim u) = some parsed)
    (hproto : parsed.protocol = "http:".toList ∨ parsed.protocol = "https:".toList)
    (hu : trim u ≠ [])
    (hsel : input.selector = JSValue.string sel) (hs : trim sel ≠ [])
    (ha : input.refreshIntervalSeconds = JSValue.number a)
    (hlt : JSNumber.lt a (JSNumber.finite 60) = true) :
    ∃ config : MonitorConfig, normalizeConfig P input = Except.ok config ∧
      config.refreshIntervalSeconds = JSNumber.finite 60 ∧
      ∀ (tabId : Nat) (w : Controller), w.runtimeState.monitoring = true →
        w.runtimeState.mode = Mode.refresh →
        (scheduleRefreshCycle tabId config w).timers =
          (clearRefreshTimer w).timers ++
            [{ id := w.timerCount + 1, ms := JSNumber.finite 60000, tabId := tabId,
               config := config }] ∧
        (scheduleRefreshCycle tabId config w).runtimeState.refreshTimerId =
          some (w.timerCount + 1) ∧
        (scheduleRefreshCycle tabId config w).log =
          (clearRefreshTimer w).log ++
            [Effect.setTimeout (w.timerCount + 1) (JSNumber.finite 60000)] := by
  unfold normalizeConfig
  simp only [hurl, hsel, ha, orElse_string, JSValue.toNumber, hu, hs, or_self, if_false,
    hparse, hproto, not_true_eq_false, max60_of_lt a hlt]
  refine ⟨_, rfl, rfl, ?_⟩
  intro tabId w hm hmode
  obtain ⟨c1, c2, c3⟩ := clearRefreshTimer_monitoring w
  simp [scheduleRefreshCycle, c1, c2, c3, hm, hmode, sixty_seconds, Controller.emit]

/-- Witness of claim C11: the interval `-5`. -/
theorem short_interval_is_sixty_witness :
    ∃ config : MonitorConfig,
      normalizeConfig demoPlatform
        { demoRaw (JSNumber.finite 1) with
          refreshIntervalSeconds := JSValue.number (JSNumber.finite (-5)) } = Except.ok config ∧
      config.refreshIntervalSeconds = JSNumber.finite 60 ∧
      ∀ (tabId : Nat) (w : Controller), w.runtimeState.monitoring = true →
        w.runtimeState.mode = Mode.refresh →
        (scheduleRefreshCycle tabId config w).timers =
          (clearRefreshTimer w).timers ++
            [{ id := w.timerCount + 1, ms := JSNumber.finite 60000, tabId := tabId,
               config := config }] ∧
        (scheduleRefreshCycle tabId config w).runtimeState.refreshTimerId =
          some (w.timerCount + 1) ∧
        (scheduleRefreshCycle tabId config w).log =
          (clearRefreshTimer w).log ++
            [Effect.setTimeout (w.timerCount + 1) (JSNumber.finite 60000)] :=
  short_interval_is_sixty demoPlatform
    { demoRaw (JSNumber.finite 1) with
      refreshIntervalSeconds := JSValue.number (JSNumber.finite (-5)) }
    demoUrl "#price".toList
    { protocol := "https:".toList, host := "example.com".toList, href := demoUrl }
    (JSNumber.finite (-5)) rfl (by decide) (Or.inr rfl) (by decide) rfl (by decide) rfl
    (by decide!)

/-- Claim C12, evaluated on the code: in a live observer whose element has
disappeared, two bursts of mutations lead to two failed lookups, each of which
schedules a retry; the second overwrites the handle of the first.  After
`stopMonitoring` the observer is inactive, the watcher is disconnected and both
handles are null (a second stop changes nothing), but the first retry timeout
(handle 2, due at 6500) is still pending, and its expiry runs `postValue`, which
sends `PAGE_MISMATCH` to the controller after the stop. -/
theorem orphaned_retry_fires_after_stop :
    stoppedWithTwoRetries.monitorState.active = false ∧
    stoppedWithTwoRetries.monitorState.observer = none ∧
    stoppedWithTwoRetries.observers = [] ∧
    stoppedWithTwoRetries.monitorState.retryTimer = none ∧
    stoppedWithTwoRetries.monitorState.debounceTimer = none ∧
    stoppedWithTwoRetries.timers =
      [{ id := 2, kind := Content.TimerKind.retry, due := 6500 }] ∧
    Content.stopMonitoring stoppedWithTwoRetries = stoppedWithTwoRetries ∧
    (Content.step (demoPageEnv 6500) (Content.PageEvent.timeout 2) stoppedWithTwoRetries).log =
      stoppedWithTwoRetries.log ++
        [Content.PageEffect.sendMessage Content.RuntimeMessage.pageMismatch] := by
  decide

/-- Counterexample to claim C13: a start command for another address than the
location of the page reports `PAGE_MISMATCH`, and `monitorState.active` is true
afterwards. -/
theorem mismatched_start_is_active :
    (Content.startMonitoring (demoPageEnv 0)
      { url := "https://example.com/other".toList, selector := "#price".toList,
        mode := Mode.live } Content.Page.initial).monitorState.active = true ∧
    (Content.startMonitoring (demoPageEnv 0)
      { url := "https://example.com/other".toList, selector := "#price".toList,
        mode := Mode.live } Content.Page.initial).log =
      [Content.PageEffect.sendMessage Content.RuntimeMessage.pageMismatch] := by
  decide

/-- Claim C13 as amended: for every start command whose url differs from the
location of the page, the observer's `startMonitoring` reports `PAGE_MISMATCH`
(after the effects of `cleanup`) and installs no watcher and no timeout: the
watcher handle is null, no observer and no timeout is made, and what is
connected or pending afterwards already was before.  `monitorState.active` is
true afterwards; it becomes false when `stopMonitoring` runs. -/
theorem mismatched_start_reports (env : Content.PageEnv) (payload : Content.StartPayload)
    (p : Content.Page) (h : env.location ≠ payload.url) :
    (Content.startMonitoring env payload p).log =
      (Content.cleanup p).log ++
        [Content.PageEffect.sendMessage Content.RuntimeMessage.pageMismatch] ∧
    (Content.startMonitoring env payload p).monitorState.active = true ∧
    (Content.startMonitoring env payload p).monitorState.observer = none ∧
    (Content.startMonitoring env payload p).observerCount = p.observerCount ∧
    (Content.startMonitoring env payload p).timerCount = p.timerCount ∧
    (∀ o ∈ (Content.startMonitoring env payload p).observers, o ∈ p.observers) ∧
    (∀ t ∈ (Content.startMonitoring env payload p).timers, t ∈ p.timers) ∧
    (Content.stopMonitoring (Content.startMonitoring env payload p)).monitorState.active =
      false := by
  obtain ⟨c1, c2, c3, c4, c5, -⟩ := Content.cleanup_handles p
  have hs : Content.startMonitoring env payload p =
      ({ Content.cleanup p with
          monitorState :=
            { (Content.cleanup p).monitorState with
              active := true
              url := payload.url
              selector := payload.selector
              mode := payload.mode
              retryCount := 0 } } : Content.Page).emit
        (Content.PageEffect.sendMessage Content.RuntimeMessage.pageMismatch) := by
    simp [Content.startMonitoring, h]
  refine ⟨by rw [hs]; rfl, by rw [hs]; rfl, by rw [hs]; exact c1, by rw [hs]; exact c3,
    by rw [hs]; exact c2, by rw [hs]; exact c5, by rw [hs]; exact c4, ?_⟩
  rw [Content.stopMonitoring, (Content.cleanup_handles _).2.2.2.2.2]

/-- Witness of claim C13 as amended: a start command for another address on a
freshly loaded content script. -/
theorem mismatched_start_reports_witness :
    (Content.startMonitoring (demoPageEnv 0)
      { demoPayload Mode.live with url := "https://example.com/other".toList }
      Content.Page.initial).monitorState.active = true :=
  (mismatched_start_reports (demoPageEnv 0)
    { demoPayload Mode.live with url := "https://example.com/other".toList }
    Content.Page.initial (by decide)).2.1

/-- Claim C14, evaluated on the code: a live observer started while the element
is absent schedules a retry and installs no watcher; when the retry finds the
element it reports the value, and still no watcher exists (none was ever
made), no timeout is pending, and a mutation leads to nothing: no further
lookup-and-report happens.  When the element is present at the start the
watcher is installed, and in refresh mode there is one report and no
watcher. -/
theorem live_start_without_element_never_watches :
    liveStartedWithoutElement.monitorState.active = true ∧
    liveStartedWithoutElement.log =
      [Content.PageEffect.setTimeout 1 Content.TimerKind.retry 5000,
       Content.PageEffect.sendMessage (Content.RuntimeMessage.elementValue "5".toList)] ∧
    liveStartedWithoutElement.monitorState.observer = none ∧
    liveStartedWithoutElement.observers = [] ∧
    liveStartedWithoutElement.observerCount = 0 ∧
    liveStartedWithoutElement.timers = [] ∧
    Content.step (demoPageFound 6000 "6".toList) (Content.PageEvent.mutation 1)
      liveStartedWithoutElement = liveStartedWithoutElement ∧
    (Content.startMonitoring (demoPageFound 0 "5".toList) (demoPayload Mode.live)
      Content.Page.initial).observers = [1] ∧
    (Content.startMonitoring (demoPageFound 0 "5".toList) (demoPayload Mode.refresh)
      Content.Page.initial).log =
      [Content.PageEffect.sendMessage (Content.RuntimeMessage.elementValue "5".toList)] ∧
    (Content.startMonitoring (demoPageFound 0 "5".toList) (demoPayload Mode.refresh)
      Content.Page.initial).observers = [] := by
  decide

/-- Claim C15: for every controller, after `stopMonitoring` the refresh timer
handle is null and monitoring is false, the timeout whose handle was stored is
no longer pending, and a later run of `scheduleRefreshCycle` (also as the last
statement of a tick that was in flight) changes nothing; the expiry of any
timeout in the stopped state leaves monitoring false and the handle null and
sets no timeout. -/
theorem stopped_session_stays_stopped (reason : JSString) (w : Controller) :
    (stopMonitoring reason w).runtimeState.refreshTimerId = none ∧
    (stopMonitoring reason w).runtimeState.monitoring = false ∧
    (∀ id : Nat, w.runtimeState.refreshTimerId = some id → id ≠ 0 →
      ∀ t ∈ (stopMonitoring reason w).timers, t.id ≠ id) ∧
    (∀ (tabId : Nat) (config : MonitorConfig),
      scheduleRefreshCycle tabId config (stopMonitoring reason w) = stopMonitoring reason w) ∧
    (∀ t : RefreshTimer,
      refreshTickTail t (stopMonitoring reason w) = stopMonitoring reason w) ∧
    (∀ (env : TickEnv) (id : Nat),
      (refreshTick env id (stopMonitoring reason w)).runtimeState.monitoring = false ∧
      (refreshTick env id (stopMonitoring reason w)).runtimeState.refreshTimerId = none ∧
      (refreshTick env id (stopMonitoring reason w)).timerCount =
        (stopMonitoring reason w).timerCount ∧
      ∀ t ∈ (refreshTick env id (stopMonitoring reason w)).timers,
        t ∈ (stopMonitoring reason w).timers) := by
  have h1 : (stopMonitoring reason w).runtimeState.refreshTimerId = none := by
    rw [stopMonitoring_runtimeState]; rfl
  have h2 : (stopMonitoring reason w).runtimeState.monitoring = false := by
    rw [stopMonitoring_runtimeState]; rfl
  refine ⟨h1, h2, ?_, ?_, ?_, ?_⟩
  · intro id hid h0 t ht
    rw [(stopMonitoring_timers reason w).1] at ht
    exact clearRefreshTimer_cancels w id hid h0 t ht
  · intro tabId config
    exact scheduleRefreshCycle_stopped tabId config _ h2 h1
  · intro t
    exact scheduleRefreshCycle_stopped t.tabId t.config _ h2 h1
  · intro env id
    exact refreshTick_stopped env id _ h2 h1

/-- Witness of claim C15: in a running refresh session whose timeout has the
handle 1, that timeout is not pending after the stop. -/
theorem stopped_session_stays_stopped_witness :
    ({ id := 1, ms := JSNumber.finite 60000, tabId := 7, config := DEFAULTS } : RefreshTimer) ∉
      (stopMonitoring "Stopped by user.".toList demoRefreshSession).timers :=
  fun hmem =>
    (stopped_session_stays_stopped "Stopped by user.".toList demoRefreshSession).2.2.1 1
      (by decide!) (by decide) _ hmem rfl

/-- Claim C16: for every `ELEMENT_VALUE` report with a string value `v` from the
bound tab while monitoring is on, the handler returns (the stored repeat count
being at most 5, as `normalizeConfig` makes it, and 6 units of fuel given) and
the persisted last value is `v` afterwards, in every run of the handler that
returns, whatever the comparison and the debounce decide.  With `increaseOnly`
set, the reports `10`, `7` leave `7` stored without a delivery, and `8` is
then a change against `7` and is delivered, although it is no increase against
`10`. -/
theorem lastValue_follows_reports :
    (∀ (P : Platform) (fuel : Nat) (env : Env) (tab : Nat) (v : JSString) (w : Controller),
      w.runtimeState.monitoring = true → w.runtimeState.tabId = some tab →
      JSNumber.lt (JSNumber.ofNat 5)
        (w.storage.monitorConfig.getD DEFAULTS).notificationRepeatCount = false →
      6 ≤ fuel →
      ∃ w1 : Controller,
        onMessage P fuel env (Message.elementValue (JSValue.string v)) (some tab) w = some w1 ∧
        w1.storage.lastValue = some v) ∧
    (∀ (P : Platform) (fuel : Nat) (env : Env) (tab : Nat) (v : JSString) (w w1 : Controller),
      w.runtimeState.monitoring = true → w.runtimeState.tabId = some tab →
      onMessage P fuel env (Message.elementValue (JSValue.string v)) (some tab) w = some w1 →
      w1.storage.lastValue = some v) ∧
    (handleReports demoPlatform 10
        [demoReport 1000000 "10".toList, demoReport 1010000 "7".toList] demoIncreaseSession).map
      (fun w => (w.storage.lastValue, countDeliveries w.log)) = some (some "7".toList, 0) ∧
    (handleReports demoPlatform 10
        [demoReport 1000000 "10".toList, demoReport 1010000 "7".toList,
         demoReport 1020000 "8".toList] demoIncreaseSession).map
      (fun w => (w.storage.lastValue, countDeliveries w.log)) = some (some "8".toList, 1) ∧
    isIncreaseOnlyChange "7".toList "8".toList = true ∧
    isIncreaseOnlyChange "10".toList "8".toList = false := by
  have key : ∀ (P : Platform) (fuel : Nat) (env : Env) (tab : Nat) (v : JSString)
      (w w1 : Controller), w.runtimeState.monitoring = true → w.runtimeState.tabId = some tab →
      onMessage P fuel env (Message.elementValue (JSValue.string v)) (some tab) w = some w1 →
      w1.storage.lastValue = some v := by
    intro P fuel env tab v w w1 hm ht h
    have hd : (!w.runtimeState.monitoring || senderDiffers (some tab) w.runtimeState.tabId) =
        false := by
      simp [hm, ht, senderDiffers]
    simp only [onMessage, onElementValue, hd, Bool.false_eq_true, if_false] at h
    split at h
    · simp only [Option.some.injEq] at h
      subst h; rfl
    · rename_i previous hp
      simp only [Option.map_eq_some'] at h
      obtain ⟨x, hx, rfl⟩ := h
      cases hch : (if (w.storage.monitorConfig.getD DEFAULTS).increaseOnly = true then
          isIncreaseOnlyChange previous v else decide (v ≠ previous))
      · simp only [hch, Bool.false_eq_true, if_false, Option.some.injEq] at hx
        subst hx; rfl
      · simp only [hch, if_true] at hx
        unfold withNotificationDebounce at hx
        split at hx
        · simp only [Option.some.injEq] at hx
          subst hx; rfl
        · unfold sendNotifications at hx
          have := sendNotificationsLoop_lastValue _ _ _ _ _ _ _ _ _ hx
          simp only [Controller.emit] at this ⊢
          exact this
  refine ⟨?_, key, by decide!, by decide!, by decide!, by decide!⟩
  intro P fuel env tab v w hm ht h5 hfuel
  have hd : (!w.runtimeState.monitoring || senderDiffers (some tab) w.runtimeState.tabId) =
      false := by
    simp [hm, ht, senderDiffers]
  have hret : ∃ w1 : Controller,
      onMessage P fuel env (Message.elementValue (JSValue.string v)) (some tab) w = some w1 := by
    simp only [onMessage, onElementValue, hd, Bool.false_eq_true, if_false]
    split
    · exact ⟨_, rfl⟩
    · rename_i previous hp
      cases hch : (if (w.storage.monitorConfig.getD DEFAULTS).increaseOnly = true then
          isIncreaseOnlyChange previous v else decide (v ≠ previous))
      · simp only [Bool.false_eq_true, if_false, Option.map_some']
        exact ⟨_, rfl⟩
      · simp only [if_true]
        unfold withNotificationDebounce
        split
        · exact ⟨_, rfl⟩
        · unfold sendNotifications
          obtain ⟨x, hx⟩ := sendNotificationsLoop_returns env
            w.runtimeState.tabId (w.storage.monitorConfig.getD DEFAULTS)
            (w.storage.monitorConfig.getD DEFAULTS).notificationRepeatCount
            (JSNumber.mul (w.storage.monitorConfig.getD DEFAULTS).notificationDelaySeconds
              (JSNumber.finite 1000)) h5 fuel 0
            (({ w with
                storage := { w.storage with lastValue := some v }
                runtimeState := { w.runtimeState with lastNotificationAt := env.now } } :
              Controller).emit (Effect.deliveryStarted env.now) |>.emit
                (Effect.sendNotificationsCalled w.runtimeState.tabId)) (by omega) (by omega)
          refine ⟨x.emit (Effect.sendResponse true none), ?_⟩
          simp only [Controller.emit] at hx ⊢
          rw [hx]; rfl
  obtain ⟨w1, hw1⟩ := hret
  exact ⟨w1, hw1, key P fuel env tab v w w1 hm ht hw1⟩

/-- Witness of claim C16: the report `10` in a session with `increaseOnly`
set. -/
theorem lastValue_follows_reports_witness :
    ∃ w1 : Controller,
      onMessage demoPlatform 6 (demoEnv 1000000)
        (Message.elementValue (JSValue.string "10".toList)) (some 7) demoIncreaseSession =
        some w1 ∧
      w1.storage.lastValue = some "10".toList :=
  lastValue_follows_reports.1 demoPlatform 6 (demoEnv 1000000) 7 "10".toList
    demoIncreaseSession rfl rfl (by decide!) (by decide)

/-- Claim C17: for every raw input (on a platform whose parsed URLs have an
`href` that begins with their `protocol`), `normalizeConfig` either fails or
returns a configuration that satisfies the invariant of `MonitorConfig`: the
address and the selector are not empty, the address begins with `http:` or
`https:`, the mode is live or refresh, the refresh interval is at least 60, the
repeat count is between 1 and 5, and the delay is at least 1. -/
theorem normalizeConfig_valid (P : Platform) (input : RawConfig) (hP : P.HrefHasProtocol) :
    (∃ message : JSString, normalizeConfig P input = Except.error message) ∨
    (∃ config : MonitorConfig, normalizeConfig P input = Except.ok config ∧ config.Valid) := by
  unfold normalizeConfig
  simp only
  split
  · exact Or.inl ⟨_, rfl⟩
  · rename_i hblank
    split
    · exact Or.inl ⟨_, rfl⟩
    · rename_i parsed hparse
      split
      · exact Or.inl ⟨_, rfl⟩
      · rename_i hproto
        simp only [not_not] at hproto
        obtain ⟨rest, hrest⟩ := hP _ _ hparse
        refine Or.inr ⟨_, rfl, ?_, ?_, ?_, ?_, ?_, ?_, ?_, ?_⟩
        · show parsed.href ≠ []
          rw [hrest]
          rcases hproto with h | h <;> rw [h] <;> simp
        · exact fun h => hblank (Or.inr h)
        · show (∃ rest, parsed.href = _ ++ rest) ∨ (∃ rest, parsed.href = _ ++ rest)
          rcases hproto with h | h
          · exact Or.inl ⟨rest, by rw [hrest, h]⟩
          · exact Or.inr ⟨rest, by rw [hrest, h]⟩
        · show (if _ then Mode.refresh else Mode.live) = Mode.live ∨ _
          split
          · exact Or.inr rfl
          · exact Or.inl rfl
        · exact JSNumber.le_max_of_finite _ _ (orElse_not_nan _ _ (by decide))
        · exact (repeat_in_range _ (orElse_not_nan _ _ (by decide))).1
        · exact (repeat_in_range _ (orElse_not_nan _ _ (by decide))).2
        · exact JSNumber.le_max_of_finite _ _ (orElse_not_nan _ _ (by decide))

/-- Witness of claim C17: the platform of the concrete runs keeps the
contract. -/
theorem normalizeConfig_valid_witness :
    (∃ message : JSString,
      normalizeConfig demoPlatform (demoRaw (JSNumber.finite 0)) = Except.error message) ∨
    (∃ config : MonitorConfig,
      normalizeConfig demoPlatform (demoRaw (JSNumber.finite 0)) = Except.ok config ∧
      config.Valid) :=
  normalizeConfig_valid demoPlatform (demoRaw (JSNumber.finite 0))
    (fun s r h => by
      simp only [demoPlatform] at h
      split at h
      · simp only [Option.some.injEq] at h
        subst h
        rename_i hs
        exact ⟨"//example.com/".toList, by rw [hs]; decide⟩
      · exact absurd h (by simp))

/-- Claim C18: in every state the content script reaches from its load, at most
one debounce timeout is pending; a mutation callback of a connected watcher
leaves exactly one pending, the new one, due 500 ms later (the one pending
before is cancelled first); and a burst of callbacks, each less than 500 ms
after the one before, on a page without a pending timeout, leaves exactly one
timeout pending, due 500 ms after the last callback: before that it does not
expire, and its expiry is one run of `postValue` (one lookup-and-report), after
which no debounce timeout is pending. -/
theorem debounce_single_timer :
    (∀ evs : List (Content.PageEnv × Content.PageEvent),
      (Content.pendingDebounce (Content.run evs Content.Page.initial)).length ≤ 1) ∧
    (∀ (env : Content.PageEnv) (observer : Nat) (p : Content.Page),
      Content.TimersTracked p → observer ∈ p.observers →
      Content.pendingDebounce (Content.onMutation env observer p) =
        [{ id := p.timerCount + 1, kind := Content.TimerKind.debounce, due := env.now + 500 }]) ∧
    (∀ (observer : Nat) (e : Content.PageEnv) (es : List Content.PageEnv) (p : Content.Page),
      observer ∈ p.observers → p.timers = [] →
      List.Chain (fun a b : Content.PageEnv => a.now ≤ b.now ∧ b.now < a.now + 500) e es →
      (Content.burst observer (e :: es) p).timers =
        [{ id := p.timerCount + es.length + 1, kind := Content.TimerKind.debounce,
           due := (es.getLastD e).now + 500 }] ∧
      (∀ env : Content.PageEnv, env.now < (es.getLastD e).now + 500 →
        Content.expire env (Content.burst observer (e :: es) p) =
          Content.burst observer (e :: es) p) ∧
      (∀ env : Content.PageEnv, (es.getLastD e).now + 500 ≤ env.now →
        Content.expire env (Content.burst observer (e :: es) p) =
          Content.postValue env { Content.burst observer (e :: es) p with timers := [] } ∧
        Content.pendingDebounce (Content.expire env (Content.burst observer (e :: es) p)) =
          [])) := by
  refine ⟨?_, ?_, ?_⟩
  · intro evs
    exact Content.pendingDebounce_le_one _ (Content.tracked_run evs _ Content.tracked_initial)
  · intro env observer p hp hobs
    exact Content.pendingDebounce_onMutation env observer p hp hobs
  · intro observer e es p hobs hp hchain
    obtain ⟨r1, -, -⟩ := Content.burst_core observer es e p hobs (Or.inl hp) hchain
    refine ⟨r1, ?_, ?_⟩
    · intro env henv
      apply Content.expire_not_due
      rw [r1]
      simp only [List.mem_singleton]
      rintro t rfl
      exact henv
    · intro env henv
      have h1 := Content.expire_single_due env _ _ r1 henv
      refine ⟨h1, ?_⟩
      rw [h1, Content.pendingDebounce_postValue]
      rfl

/-- Witness of claim C18: a burst of three callbacks at 1000, 1200 and 1600 on a
live observer that has just started. -/
theorem debounce_single_timer_witness :
    (Content.burst 1 [demoPageFound 1000 "6".toList, demoPageFound 1200 "6".toList,
        demoPageFound 1600 "7".toList]
      (Content.startMonitoring (demoPageFound 0 "5".toList) (demoPayload Mode.live)
        Content.Page.initial)).timers =
      [{ id := (Content.startMonitoring (demoPageFound 0 "5".toList) (demoPayload Mode.live)
          Content.Page.initial).timerCount +
            [demoPageFound 1200 "6".toList, demoPageFound 1600 "7".toList].length + 1,
         kind := Content.TimerKind.debounce,
         due := ([demoPageFound 1200 "6".toList, demoPageFound 1600 "7".toList].getLastD
            (demoPageFound 1000 "6".toList)).now + 500 }] :=
  (debounce_single_timer.2.2 1 (demoPageFound 1000 "6".toList)
    [demoPageFound 1200 "6".toList, demoPageFound 1600 "7".toList]
    (Content.startMonitoring (demoPageFound 0 "5".toList) (demoPayload Mode.live)
      Content.Page.initial)
    (by decide) (by decide)
    (List.Chain.cons (by decide) (List.Chain.cons (by decide) List.Chain.nil))).1

/-- Claim C19: `normalizeValue` is idempotent: for every raw text,
normalizing the canonical value gives the canonical value again. -/
theorem normalizeValue_idempotent (rawText : JSString) :
    normalizeValue (normalizeValue rawText) = normalizeValue rawText := by
  cases hfm : firstMatch (stripCommas (trim rawText)) with
  | none =>
    have h1 : normalizeValue rawText = trim rawText := by simp only [normalizeValue, hfm]
    rw [h1]
    simp only [normalizeValue, trim_trim, hfm]
  | some m =>
    have h1 : normalizeValue rawText = m := by simp only [normalizeValue, hfm]
    obtain ⟨_, _, _, htok, _, _⟩ := firstMatch_eq_some hfm
    rw [h1]
    exact normalizeValue_token htok

/-- Claim C20, evaluated on the code: a start whose script injection is
rejected, and likewise a start whose `START_MONITOR` message is rejected, fails
(the listener records the error and responds with `ok: false`) and leaves
`runtimeState.monitoring` true and the persisted `active` flag true, whereas
before the call monitoring was false and no session state was stored. -/
theorem failed_injection_leaves_session_active :
    (onMessage demoPlatform 10 (demoEnvNoInjection 1000000)
        (Message.startFromPopup (demoRaw (JSNumber.finite 1))) none Controller.initial).map
      (fun w => (w.runtimeState.monitoring, w.storage.monitorState.map (fun s => s.active),
        w.storage.lastError, w.log.getLast?)) =
      some (true, some (some true), some "Cannot access contents of the page.".toList,
        some (Effect.sendResponse false (some "Cannot access contents of the page.".toList))) ∧
    (onMessage demoPlatform 10 (demoEnvNoReceiver 1000000)
        (Message.startFromPopup (demoRaw (JSNumber.finite 1))) none Controller.initial).map
      (fun w => (w.runtimeState.monitoring, w.storage.monitorState.map (fun s => s.active),
        w.storage.lastError)) =
      some (true, some (some true), some "Could not establish connection.".toList) ∧
    Controller.initial.runtimeState.monitoring = false ∧
    Controller.initial.storage.monitorState = none := by
  refine ⟨by decide!, by decide!, rfl, rfl⟩

end TabElementMonitor
